import Mathlib

/-!
# GInputMethod: engine registry, name ownership and keep-alive accounting

A shallow embedding of `gio/ginputmethod.c`.  The private structure of the
service becomes a record, every callback of the C file becomes a function from
the record (and the answers its collaborators give during that one call) to the
new record, the D-Bus reply and the calls it made on its collaborators, in
program order.
-/

namespace InputMethodService

/-! ## Data model -/

/-- A `GDBusConnection *`: connections are told apart by their address only. -/
abbrev GDBusConnection := Nat

/-- A `GError`: only its message is looked at. -/
structure GError where
  message : String
deriving DecidableEq, Repr

/-- A `GInputMethodEngine *`: the address of the object together with its
construct-only `client-id` property (`struct _GInputMethodEnginePrivate`). -/
structure GInputMethodEngine where
  addr : Nat
  client_id : String
deriving DecidableEq, Repr

/-- The record `struct _Client`: its engines (a `GSList`, head first) and the id
of its name watcher.  The back pointer `inputmethod` is the record the
callbacks are applied to. -/
structure Client where
  engines : List GInputMethodEngine
  watcher_id : Nat
deriving DecidableEq, Repr

/-- The largest `gulong` (`unsigned long` of the LP64 platforms GLib's D-Bus
code runs on): `engine_serial++` wraps to zero past it. -/
def G_MAXULONG : Nat := 2 ^ 64 - 1

/-- The service: `struct _GInputMethodPrivate` together with the two fields of
the parent `GApplication` instance the file depends on, its use count (moved by
`g_application_hold` and `g_application_release`) and its D-Bus object path
(`g_application_get_dbus_object_path`, fixed by the application id).  The hash
table `clients` is a list of key and value pairs; `clients_lock` shows up as
the lock and unlock calls of the callbacks. -/
structure GInputMethod where
  use_count : Int
  dbus_object_path : String
  owner_id : Nat
  activating : Bool
  engine_serial : Nat
  clients : List (String × Client)
  connection : Option GDBusConnection
  address : Option String
deriving DecidableEq, Repr

/-- What a callback sends back on the method invocation it serves. -/
inductive Reply where
  /-- The reply `g_dbus_method_invocation_return_value` with an object path, "(o)". -/
  | object_path (path : String)
  /-- The reply `g_dbus_method_invocation_return_value` with a string, "(s)". -/
  | string (value : String)
  /-- The reply `g_dbus_method_invocation_return_value` with a boolean, "(b)". -/
  | boolean (value : Bool)
  /-- The reply `g_dbus_method_invocation_return_error` with `G_DBUS_ERROR_FAILED`. -/
  | return_error (message : String)
  /-- The reply `g_dbus_method_invocation_return_gerror`. -/
  | return_gerror (error : GError)
deriving DecidableEq, Repr

/-- The calls a callback makes on its collaborators (bus, object system, lock). -/
inductive Call where
  | before_emit
  | after_emit
  | g_application_get_is_registered
  | g_application_get_dbus_connection
  | g_dbus_connection_new_for_address_sync (address : String)
  | g_object_ref_connection (connection : GDBusConnection)
  | g_input_method_engine_export (engine : GInputMethodEngine)
      (connection : GDBusConnection) (object_path : String)
  | g_object_unref (engine : GInputMethodEngine)
  | g_signal_connect_destroy (engine : GInputMethodEngine)
  | g_mutex_lock
  | g_mutex_unlock
  | g_bus_watch_name_on_connection (connection : GDBusConnection) (name : String)
  | g_bus_unwatch_name (watcher_id : Nat)
  | g_dbus_interface_skeleton_export (connection : GDBusConnection) (object_path : String)
  | g_dbus_interface_skeleton_unexport
  | g_bus_unown_name (owner_id : Nat)
  | g_bus_own_name_on_connection (connection : GDBusConnection) (name : String)
  | g_warning
deriving DecidableEq, Repr

/-- The outcome of one callback: the service afterwards, the reply sent (if the
callback serves a method call) and the calls made, in program order. -/
structure Handled where
  inputmethod : GInputMethod
  reply : Option Reply
  calls : List Call
deriving DecidableEq, Repr

/-! ## Collaborators that live outside `ginputmethod.c` -/

/-- Modelled from the spec: `g_application_hold` (gio/gapplication.c is not
under src/), the "hold" of the glossary: one more unit of outstanding work
keeps the process alive. -/
def g_application_hold (application : GInputMethod) : GInputMethod :=
  { application with use_count := application.use_count + 1 }

/-- Modelled from the spec: `g_application_release` (gio/gapplication.c is not
under src/), the "release" of the glossary: one unit of outstanding work
less.  The count is an integer so that a release without a matching hold
shows as a negative count. -/
def g_application_release (application : GInputMethod) : GInputMethod :=
  { application with use_count := application.use_count - 1 }

/-- Modelled from the spec: `g_hash_table_lookup` (glib/ghash.c is not under
src/) on the string-keyed `clients` table: the value stored under the key. -/
def g_hash_table_lookup : List (String × Client) → String → Option Client
  | [], _ => none
  | (k, v) :: rest, key => if k = key then some v else g_hash_table_lookup rest key

/-- Modelled from the spec: `g_hash_table_insert` (glib/ghash.c is not under
src/) for a key the table does not hold, the only way the file calls it
(right after a lookup that found nothing). -/
def g_hash_table_insert (table : List (String × Client)) (key : String) (value : Client) :
    List (String × Client) :=
  (key, value) :: table

/-- Modelled from the spec: removal of the entry stored under a key, the table
part of `g_hash_table_remove` (glib/ghash.c is not under src/); the value
destroy notifier is `client_destroy` below. -/
def g_hash_table_steal : List (String × Client) → String → List (String × Client)
  | [], _ => []
  | (k, v) :: rest, key => if k = key then rest else (k, v) :: g_hash_table_steal rest key

/-- A store through the `Client *` that `g_hash_table_lookup` returned: the
record found under the key gets a new `engines` list. -/
def client_set_engines : List (String × Client) → String → List GInputMethodEngine →
    List (String × Client)
  | [], _, _ => []
  | (k, v) :: rest, key, engines =>
    if k = key then (k, { v with engines := engines }) :: rest
    else (k, v) :: client_set_engines rest key engines

/-- Modelled from the spec: `g_slist_prepend` (glib/gslist.c is not under src/). -/
def g_slist_prepend (list : List GInputMethodEngine) (data : GInputMethodEngine) :
    List GInputMethodEngine :=
  data :: list

/-- Modelled from the spec: `g_slist_find` followed by `g_slist_delete_link`
(glib/gslist.c is not under src/): the first link holding the data is taken
out; when no link holds it the link is `NULL` and the list stays as it is. -/
def g_slist_delete_link_find (list : List GInputMethodEngine) (data : GInputMethodEngine) :
    List GInputMethodEngine :=
  list.erase data

/-- Modelled from the spec: `g_signal_emit` for a signal with an accumulator
(gobject/gsignal.c is not under src/): the handlers run in order, the
accumulator sees each return value, and the emission stops as soon as the
accumulator answers `FALSE`.  The result is the accumulated value and the
number of handlers that ran. -/
def g_signal_emit {A R : Type} (accumulator : R → R → R × Bool) (arg : A) :
    List (A → R) → R → R × Nat
  | [], return_accu => (return_accu, 0)
  | handler :: rest, return_accu =>
    let step := accumulator return_accu (handler arg)
    if step.2 then
      let later := g_signal_emit accumulator arg rest step.1
      (later.1, later.2 + 1)
    else (step.1, 1)

/-- Modelled from the spec: the "%lu" conversion of `g_strdup_printf` (libc):
the decimal digits of the number, most significant first. -/
def format_lu (n : Nat) : String :=
  Nat.repr n

/-! ## The callbacks of `ginputmethod.c` -/

/-- The default class handler `g_input_method_real_create_engine`:
`g_return_val_if_reached (NULL)`. -/
def g_input_method_real_create_engine (_client_id : String) : Option GInputMethodEngine :=
  none

/-- The accumulator `create_engine_accumulator`: a handler that returned an
engine sets the accumulated value and stops the emission (`FALSE`); a handler
that returned `NULL` lets it go on (`TRUE`). -/
def create_engine_accumulator (return_accu handler_return : Option GInputMethodEngine) :
    Option GInputMethodEngine × Bool :=
  match handler_return with
  | some engine => (some engine, false)
  | none => (return_accu, true)

/-- The constructor `g_input_method_new` followed by `g_input_method_init`: a
fresh service with the given export address, whose application object path is
`dbus_object_path`. -/
def g_input_method_new (dbus_object_path : String) (address : Option String) : GInputMethod :=
  { use_count := 0
    dbus_object_path := dbus_object_path
    owner_id := 0
    activating := false
    engine_serial := 0
    clients := []
    connection := none
    address := address }

/-- The callback `on_name_acquired`; `exported` is what
`g_dbus_interface_skeleton_export` of the root object answers. -/
def on_name_acquired (inputmethod : GInputMethod) (connection : GDBusConnection)
    (exported : Except GError Unit) : Handled :=
  let export_call :=
    Call.g_dbus_interface_skeleton_export connection "/org/freedesktop/InputMethod"
  match exported with
  | .error _ =>
    { inputmethod := { g_application_release inputmethod with activating := false }
      reply := none
      calls := [export_call, Call.g_warning] }
  | .ok _ =>
    { inputmethod := { inputmethod with activating := false }
      reply := none
      calls := [export_call] }

/-- The callback `on_name_lost`. -/
def on_name_lost (inputmethod : GInputMethod) : Handled :=
  { inputmethod := { g_application_release inputmethod with owner_id := 0, activating := false }
    reply := none
    calls := [Call.g_dbus_interface_skeleton_unexport] }

/-- The class handler `g_input_method_real_activate`; `connection` is what
`g_application_get_dbus_connection` answers and `owner_id` what
`g_bus_own_name_on_connection` would return. -/
def g_input_method_real_activate (application : GInputMethod)
    (connection : Option GDBusConnection) (owner_id : Nat) : Handled :=
  let held := g_application_hold application
  match connection with
  | none =>
    { inputmethod := held, reply := none, calls := [Call.g_application_get_dbus_connection] }
  | some connection =>
    if held.activating then
      { inputmethod := held, reply := none, calls := [Call.g_application_get_dbus_connection] }
    else
      { inputmethod := { held with activating := true, owner_id := owner_id }
        reply := none
        calls :=
          [Call.g_application_get_dbus_connection] ++
          (if held.owner_id > 0 then [Call.g_bus_unown_name held.owner_id] else []) ++
          [Call.g_bus_own_name_on_connection connection "org.freedesktop.InputMethod"] }

/-- The callback `on_engine_destroy`, connected to the "destroy" signal of
every registered engine. -/
def on_engine_destroy (inputmethod : GInputMethod) (engine : GInputMethodEngine) : Handled :=
  match g_hash_table_lookup inputmethod.clients engine.client_id with
  | some client =>
    { inputmethod :=
        g_application_release
          { inputmethod with
            clients :=
              client_set_engines inputmethod.clients engine.client_id
                (g_slist_delete_link_find client.engines engine) }
      reply := none
      calls := [Call.g_mutex_lock, Call.g_mutex_unlock, Call.g_object_unref engine] }
  | none =>
    { inputmethod := inputmethod
      reply := none
      calls := [Call.g_mutex_lock, Call.g_mutex_unlock, Call.g_object_unref engine] }

/-- The callback `on_handle_get_address`. -/
def on_handle_get_address (inputmethod : GInputMethod) : Handled :=
  { inputmethod := inputmethod
    reply :=
      some (Reply.string
        (match inputmethod.address with
          | none => ""
          | some address => address))
    calls := [] }

/-- The value destroy notifier `client_destroy` of the `clients` table: the
watcher goes, and every engine still listed is dropped with one release. -/
def client_destroy (inputmethod : GInputMethod) (client : Client) : GInputMethod × List Call :=
  (client.engines.foldl (fun application _ => g_application_release application) inputmethod,
   Call.g_bus_unwatch_name client.watcher_id ::
     client.engines.map (fun engine => Call.g_object_unref engine))

/-- The callback `on_client_name_vanished`: `g_hash_table_remove`, which runs
`client_destroy` on the value it takes out, if there is one. -/
def on_client_name_vanished (inputmethod : GInputMethod) (name : String) : Handled :=
  match g_hash_table_lookup inputmethod.clients name with
  | none => { inputmethod := inputmethod, reply := none, calls := [] }
  | some client =>
    let destroyed :=
      client_destroy
        { inputmethod with clients := g_hash_table_steal inputmethod.clients name } client
    { inputmethod := destroyed.1, reply := none, calls := destroyed.2 }

/-- What the collaborators answer during one `CreateEngine` call: the handlers
connected to "create-engine" (in connection order) and the class handler, the
registration state and bus connection of the application, the dialler, the
exporter of engine objects, the connection the call arrived on and the id the
name watcher gets. -/
structure CreateEngineEnv where
  handlers : List (String → Option GInputMethodEngine)
  create_engine : String → Option GInputMethodEngine
  is_registered : Bool
  dbus_connection : Option GDBusConnection
  new_for_address_sync : String → Except GError GDBusConnection
  engine_export : GInputMethodEngine → GDBusConnection → String → Except GError Unit
  invocation_connection : GDBusConnection
  watcher_id : Nat

/-- The emission of "create-engine" (`G_SIGNAL_RUN_LAST`: the connected
handlers first, the class handler last) under `create_engine_accumulator`. -/
def emit_create_engine (env : CreateEngineEnv) (sender : String) : Option GInputMethodEngine :=
  (g_signal_emit create_engine_accumulator sender (env.handlers ++ [env.create_engine]) none).1

/-- The object path `g_strdup_printf ("%s/Engine_%lu", object_path, serial)`. -/
def engine_object_path (object_path : String) (serial : Nat) : String :=
  object_path ++ "/Engine_" ++ format_lu serial

/-- The block `if (!inputmethod->priv->connection) { ... }` of
`on_handle_create_engine`, the connection resolver of the design: the cached
connection if there is one; else, without a configured address, the
application's own connection (an error reply when the application is not
registered or has no connection); else a new connection to the configured
address (the error of the dial when it fails).  Beside the outcome it gives the
calls made; on failure the engine has been dropped. -/
def resolve_connection (env : CreateEngineEnv) (inputmethod : GInputMethod)
    (engine : GInputMethodEngine) : Except Reply GDBusConnection × List Call :=
  let own : Except Reply GDBusConnection × List Call :=
    if !env.is_registered then
      (.error (Reply.return_error "Application has not yet been registered"),
       [Call.g_application_get_is_registered, Call.g_object_unref engine])
    else
      match env.dbus_connection with
      | none =>
        (.error (Reply.return_error "Application has no D-Bus connection"),
         [Call.g_application_get_is_registered, Call.g_application_get_dbus_connection,
          Call.g_object_unref engine])
      | some connection =>
        (.ok connection,
         [Call.g_application_get_is_registered, Call.g_application_get_dbus_connection,
          Call.g_object_ref_connection connection])
  match inputmethod.connection with
  | some connection => (.ok connection, [])
  | none =>
    match inputmethod.address with
    | none => own
    | some address =>
      if address = "" then own
      else
        match env.new_for_address_sync address with
        | .error error =>
          (.error (Reply.return_gerror error),
           [Call.g_dbus_connection_new_for_address_sync address,
            Call.g_object_unref engine])
        | .ok connection =>
          (.ok connection, [Call.g_dbus_connection_new_for_address_sync address])

/-- The callback `on_handle_create_engine` for a call sent by `sender`.  The
class hooks `before_emit` and `after_emit` of the application frame the
emission of "create-engine". -/
def on_handle_create_engine (env : CreateEngineEnv) (inputmethod : GInputMethod)
    (sender : String) : Handled :=
  match emit_create_engine env sender with
  | none =>
    { inputmethod := inputmethod
      reply := some (Reply.return_error "Cannot create engine")
      calls := [Call.before_emit, Call.after_emit] }
  | some engine =>
    let object_path := inputmethod.dbus_object_path
    match resolve_connection env inputmethod engine with
    | (.error reply, calls) =>
      { inputmethod := inputmethod
        reply := some reply
        calls := Call.before_emit :: Call.after_emit :: calls }
    | (.ok connection, calls) =>
      let engine_object_path := engine_object_path object_path inputmethod.engine_serial
      let counted :=
        { inputmethod with
          connection := some connection
          engine_serial := (inputmethod.engine_serial + 1) % (G_MAXULONG + 1) }
      let export_call := Call.g_input_method_engine_export engine connection engine_object_path
      match env.engine_export engine connection engine_object_path with
      | .error error =>
        { inputmethod := counted
          reply := some (Reply.return_gerror error)
          calls :=
            Call.before_emit :: Call.after_emit :: calls ++
            [export_call, Call.g_object_unref engine] }
      | .ok _ =>
        let held := g_application_hold counted
        match g_hash_table_lookup held.clients sender with
        | none =>
          { inputmethod :=
              { held with
                clients :=
                  g_hash_table_insert held.clients sender
                    { engines := g_slist_prepend [] engine, watcher_id := env.watcher_id } }
            reply := some (Reply.object_path engine_object_path)
            calls :=
              Call.before_emit :: Call.after_emit :: calls ++
              [export_call, Call.g_signal_connect_destroy engine, Call.g_mutex_lock,
               Call.g_bus_watch_name_on_connection env.invocation_connection sender,
               Call.g_mutex_unlock] }
        | some client =>
          { inputmethod :=
              { held with
                clients :=
                  client_set_engines held.clients sender
                    (g_slist_prepend client.engines engine) }
            reply := some (Reply.object_path engine_object_path)
            calls :=
              Call.before_emit :: Call.after_emit :: calls ++
              [export_call, Call.g_signal_connect_destroy engine, Call.g_mutex_lock,
               Call.g_mutex_unlock] }

/-! ## Sequences of events -/

/-- The events a service reacts to, each with the answers of the collaborators
it consults. -/
inductive Event where
  /-- The "activate" signal of the application. -/
  | activate (connection : Option GDBusConnection) (owner_id : Nat)
  /-- The name-acquired callback of `g_bus_own_name_on_connection`. -/
  | name_acquired (connection : GDBusConnection) (exported : Except GError Unit)
  /-- The name-lost callback of `g_bus_own_name_on_connection`. -/
  | name_lost
  /-- The D-Bus method `GetAddress`. -/
  | get_address
  /-- The D-Bus method `CreateEngine`, called by `sender`. -/
  | create_engine (env : CreateEngineEnv) (sender : String)
  /-- The "destroy" signal of an engine (its D-Bus method `Destroy`). -/
  | engine_destroy (engine : GInputMethodEngine)
  /-- The name-vanished callback of a client's name watcher. -/
  | client_name_vanished (name : String)

/-- The callback that serves an event. -/
def step (inputmethod : GInputMethod) : Event → Handled
  | .activate connection owner_id => g_input_method_real_activate inputmethod connection owner_id
  | .name_acquired connection exported => on_name_acquired inputmethod connection exported
  | .name_lost => on_name_lost inputmethod
  | .get_address => on_handle_get_address inputmethod
  | .create_engine env sender => on_handle_create_engine env inputmethod sender
  | .engine_destroy engine => on_engine_destroy inputmethod engine
  | .client_name_vanished name => on_client_name_vanished inputmethod name

/-- The service after a sequence of events. -/
def run (inputmethod : GInputMethod) : List Event → GInputMethod
  | [] => inputmethod
  | event :: events => run (step inputmethod event).inputmethod events

/-- The object path a successful `CreateEngine` call returned, if the outcome
is one. -/
def returned_path (handled : Handled) : Option String :=
  match handled.reply with
  | some (Reply.object_path path) => some path
  | _ => none

/-- The object paths returned by the successful `CreateEngine` calls of a
sequence of events, in call order. -/
def returned_paths (inputmethod : GInputMethod) : List Event → List String
  | [] => []
  | event :: events =>
    (returned_path (step inputmethod event)).toList ++
      returned_paths (step inputmethod event).inputmethod events

/-- The number of engines listed by the records of a client table. -/
def listed_engines : List (String × Client) → Nat
  | [] => 0
  | (_, client) :: rest => client.engines.length + listed_engines rest

/-- The number of engines the clients list: the live engines. -/
def live_engines (inputmethod : GInputMethod) : Nat :=
  listed_engines inputmethod.clients

/-- The engines listed by the client registered under an identity (none when
no client is registered under it). -/
def engines_of (inputmethod : GInputMethod) (identity : String) : List GInputMethodEngine :=
  match g_hash_table_lookup inputmethod.clients identity with
  | none => []
  | some client => client.engines

/-! ## Measures on services and on sequences of events -/

/-- One when the bus name is owned (the owner id is set), zero when it is not. -/
def owned (inputmethod : GInputMethod) : Nat :=
  if inputmethod.owner_id = 0 then 0 else 1

/-- The number of `g_input_method_engine_export` calls among the calls of a
callback: one for a `CreateEngine` call that reaches the export step. -/
def export_calls (calls : List Call) : Nat :=
  calls.countP fun call =>
    match call with
    | Call.g_input_method_engine_export _ _ _ => true
    | _ => false

/-- The number of `CreateEngine` calls of a sequence of events that reach the
export step, where `engine_serial++` is evaluated. -/
def export_attempts (inputmethod : GInputMethod) : List Event → Nat
  | [] => 0
  | event :: events =>
    export_calls (step inputmethod event).calls +
      export_attempts (step inputmethod event).inputmethod events

/-- An event that arrives in order: "activate" only with a bus connection and
while the name is not owned (the bus hands out an owner id that is not zero),
name-acquired only with a successful export of the root object, name-lost only
while the name is owned, and "destroy" only for an engine that the client
registered under the engine's client id lists. -/
def orderly (inputmethod : GInputMethod) : Event → Bool
  | .activate connection owner_id =>
    connection.isSome && inputmethod.owner_id == 0 && owner_id != 0
  | .name_acquired _ exported =>
    match exported with
    | .ok _ => true
    | .error _ => false
  | .name_lost => inputmethod.owner_id != 0
  | .get_address => true
  | .create_engine _ _ => true
  | .engine_destroy engine => decide (engine ∈ engines_of inputmethod engine.client_id)
  | .client_name_vanished _ => true

/-- A sequence of events each of which arrives in order. -/
def orderly_run (inputmethod : GInputMethod) : List Event → Bool
  | [] => true
  | event :: events =>
    orderly inputmethod event && orderly_run (step inputmethod event).inputmethod events

/-! ## The service and the handler of the test `tests/ginputmethod.c` -/

/-- The handler `on_create_engine` of the test: `g_input_method_engine_new
(client_id)`; `addr` is the address the new object gets. -/
def on_create_engine (addr : Nat) (client_id : String) : Option GInputMethodEngine :=
  some { addr := addr, client_id := client_id }

/-- The service of `test_basic`: application id "org.gtk.UnimportantInputMethod",
no export address. -/
def test_inputmethod : GInputMethod :=
  g_input_method_new "/org/gtk/UnimportantInputMethod" none

/-- The collaborators of `test_basic`: the handler of the test is connected, the
application is registered on the session bus (connection 1), and exports
succeed. -/
def test_env (addr : Nat) : CreateEngineEnv :=
  { handlers := [on_create_engine addr]
    create_engine := g_input_method_real_create_engine
    is_registered := true
    dbus_connection := some 1
    new_for_address_sync := fun _ => Except.error { message := "Could not connect" }
    engine_export := fun _ _ _ => Except.ok ()
    invocation_connection := 1
    watcher_id := 1 }

/-- A factory that builds every engine with the fixed client id ":1.99",
whoever the caller is. -/
def foreign_env : CreateEngineEnv :=
  { test_env 1 with handlers := [fun _ => some { addr := 1, client_id := ":1.99" }] }

/-- The engine that the handler of the test builds for the caller ":1.7". -/
def test_engine : GInputMethodEngine :=
  { addr := 1, client_id := ":1.7" }

/-- The caller ":1.7" creates an engine and destroys it, `n` times over. -/
def churn : Nat → List Event
  | 0 => []
  | n + 1 =>
    Event.create_engine (test_env 1) ":1.7" :: Event.engine_destroy test_engine :: churn n

/-- As many rounds of creation and destruction as there are `gulong` values,
and one more creation. -/
def wrap_events : List Event :=
  churn (G_MAXULONG + 1) ++ [Event.create_engine (test_env 1) ":1.7"]

/-- The test service between two rounds of `churn`: the connection is cached,
the client of ":1.7" is registered and lists nothing, and the serial stands at
`serial`. -/
def churned (serial : Nat) : GInputMethod :=
  { test_inputmethod with
    engine_serial := serial
    clients := [(":1.7", { engines := [], watcher_id := 1 })]
    connection := some 1 }

/-- The collaborators of the test when no handler is connected to
"create-engine": only the default class handler runs. -/
def declining_env : CreateEngineEnv :=
  { test_env 1 with handlers := [] }

/-- The collaborators of the test before the application is registered. -/
def unregistered_env : CreateEngineEnv :=
  { test_env 1 with is_registered := false, dbus_connection := none }

/-- The collaborators of the test when the export of the engine fails. -/
def failing_export_env : CreateEngineEnv :=
  { test_env 1 with
    engine_export := fun _ _ _ =>
      Except.error { message := "An object is already exported at this path" } }

/-- The test service while ":1.7" holds one engine: the connection is cached,
the client of ":1.7" lists the engine of the test handler, one hold is taken,
and the serial stands at `serial`. -/
def listed (serial : Nat) : GInputMethod :=
  { test_inputmethod with
    use_count := 1
    engine_serial := serial
    clients := [(":1.7", { engines := [test_engine], watcher_id := 1 })]
    connection := some 1 }

/-- The caller ":1.7" asks `n` times for an engine whose export fails. -/
def stalled : Nat → List Event
  | 0 => []
  | n + 1 => Event.create_engine failing_export_env ":1.7" :: stalled n

/-- A successful creation, as many failed exports as there are `gulong`
values, and a second successful creation. -/
def wrap_failures : List Event :=
  Event.create_engine (test_env 1) ":1.7" ::
    (stalled (G_MAXULONG + 1) ++ [Event.create_engine (test_env 2) ":1.7"])

/-- How often the client registered under the client id of an engine lists the
engine: once for an engine that was created for that client and is alive. -/
def listings (inputmethod : GInputMethod) (engine : GInputMethodEngine) : Nat :=
  (engines_of inputmethod engine.client_id).count engine

/-- An event that cannot list an engine again: not a `CreateEngine` call whose
factory hands out this very object, and not the vanishing of the identity the
engine was built with. -/
def not_listing (engine : GInputMethodEngine) : Event → Bool
  | .create_engine env sender => decide (emit_create_engine env sender ≠ some engine)
  | .client_name_vanished name => decide (name ≠ engine.client_id)
  | _ => true

/-- An event that leaves an engine alone: it cannot list it again, and it is
not the "destroy" signal of the engine itself. -/
def leaves_alone (engine : GInputMethodEngine) : Event → Bool
  | .engine_destroy destroyed => decide (destroyed ≠ engine)
  | event => not_listing engine event

/-! ## The key-event surface of an engine -/

/-- The accumulator `key_event_accumulator`: a handler that handled the key
sets the accumulated value and stops the emission (`FALSE`); a handler that did
not lets it go on (`TRUE`). -/
def key_event_accumulator (return_accu handler_return : Bool) : Bool × Bool :=
  if handler_return then (handler_return, false) else (return_accu, true)

/-- The callback `on_handle_key_event`: "key-event" is emitted
(`G_SIGNAL_RUN_LAST`: the connected handlers in connection order, then the
class handler `key_event` if the class has one) under `key_event_accumulator`,
starting from `handled = FALSE`, and the accumulated value is the reply.
Beside the reply it gives the number of handlers that ran. -/
def on_handle_key_event (handlers : List (Nat × Bool → Bool))
    (key_event : Option (Nat × Bool → Bool)) (arg_keycode : Nat) (arg_pressed : Bool) :
    Reply × Nat :=
  let emitted :=
    g_signal_emit key_event_accumulator (arg_keycode, arg_pressed)
      (handlers ++ key_event.toList) false
  (Reply.boolean emitted.1, emitted.2)

/-- The handler `on_key_event` of the test `tests/ginputmethod.c`: the key is
handled when its code is 24. -/
def on_key_event (event : Nat × Bool) : Bool :=
  event.1 == 24

/-- The handler `key_event` of `tests/basic-input-method.c`: a press of key 38
is handled. -/
def key_event (event : Nat × Bool) : Bool :=
  event.1 == 38 && event.2

/-! ## Well-formed client tables and the contract of the factory -/

/-- A client table in which no key occurs twice (a hash table holds one value
per key), every record lists each of its engines once, and every listed engine
carries the key of its record as its client id. -/
def well_owned (table : List (String × Client)) : Prop :=
  (table.map Prod.fst).Nodup ∧
  ∀ key client, (key, client) ∈ table →
    client.engines.Nodup ∧ ∀ engine ∈ client.engines, engine.client_id = key

/-- The contract of the factory at one event: the engine that the emission of
"create-engine" yields for a caller, if any, carries the caller's identity as
its client id and is a new object, not one the caller's client lists. -/
def factory_contract (inputmethod : GInputMethod) : Event → Bool
  | .create_engine env sender =>
    match emit_create_engine env sender with
    | none => true
    | some engine =>
      engine.client_id == sender && decide (engine ∉ engines_of inputmethod sender)
  | _ => true

/-- A sequence of events along which the factory keeps its contract. -/
def factory_contract_run (inputmethod : GInputMethod) : List Event → Bool
  | [] => true
  | event :: events =>
    factory_contract inputmethod event &&
      factory_contract_run (step inputmethod event).inputmethod events

/-! ## The preedit signal of an engine -/

/-- The record `struct _GInputMethodStyling` of `ginputmethod.h`: a styling
attribute over the characters from `start` up to `end` (named `end_` here),
of the given styling type (an enumeration value). -/
structure GInputMethodStyling where
  start : Nat
  end_ : Nat
  type : Nat
deriving DecidableEq, Repr

/-- The D-Bus signal `PreeditChanged` as
`_g_freedesktop_input_method_engine_emit_preedit_changed` sends it: the text,
the array "a(uuu)" of style runs, and the cursor position. -/
structure PreeditChanged where
  text : String
  styling : List (Nat × Nat × Nat)
  cursor_pos : Int
deriving DecidableEq, Repr

/-- The loop `for (i = 0; i < n_styling; i++) g_variant_builder_add (...)` of
`g_input_method_engine_real_preedit_changed`: the content of the builder after
`i` rounds, each round adding the triple read from `styling[i]`. -/
def preedit_builder (styling : Nat → GInputMethodStyling) : Nat → List (Nat × Nat × Nat)
  | 0 => []
  | i + 1 =>
    preedit_builder styling i ++ [((styling i).start, (styling i).end_, (styling i).type)]

/-- The class handler `g_input_method_engine_real_preedit_changed`, the default
handler of "preedit-changed"; `styling` is the array the pointer leads to, read
at the indices below `n_styling`. -/
def g_input_method_engine_real_preedit_changed (text : String)
    (styling : Nat → GInputMethodStyling) (n_styling : Nat) (cursor_pos : Int) :
    PreeditChanged :=
  { text := text
    styling := preedit_builder styling n_styling
    cursor_pos := cursor_pos }

/-- The styling array of a two-part preedit text: an underlined run over
characters 0 to 2 and a highlighted run over characters 2 to 5. -/
def sample_styling (i : Nat) : GInputMethodStyling :=
  if i = 0 then { start := 0, end_ := 2, type := 1 } else { start := 2, end_ := 5, type := 2 }

/-! ## Theorems -/

/-! ## The emission of "create-engine" -/

theorem g_signal_emit_create_engine_none (sender : String)
    (handlers : List (String → Option GInputMethodEngine)) :
    (g_signal_emit create_engine_accumulator sender handlers none).1 =
      handlers.findSome? (fun handler => handler sender) := by
  induction handlers with
  | nil => rfl
  | cons handler rest ih =>
    cases h : handler sender with
    | none => simp [g_signal_emit, create_engine_accumulator, h, ih]
    | some engine => simp [g_signal_emit, create_engine_accumulator, h]

theorem emit_create_engine_eq (env : CreateEngineEnv) (sender : String) :
    emit_create_engine env sender =
      (env.handlers ++ [env.create_engine]).findSome? (fun handler => handler sender) :=
  g_signal_emit_create_engine_none sender _

theorem emit_create_engine_declined (env : CreateEngineEnv) (sender : String)
    (hhandlers : ∀ handler ∈ env.handlers, handler sender = none)
    (hclass : env.create_engine sender = none) :
    emit_create_engine env sender = none := by
  rw [emit_create_engine_eq, List.findSome?_eq_none_iff]
  intro handler hmem
  rcases List.mem_append.1 hmem with h | h
  · exact hhandlers handler h
  · rw [List.mem_singleton.1 h]; exact hclass


/-! ## The branches of `on_handle_create_engine` -/

theorem resolve_connection_cached (env : CreateEngineEnv) (inputmethod : GInputMethod)
    (engine : GInputMethodEngine) (connection : GDBusConnection)
    (hcached : inputmethod.connection = some connection) :
    resolve_connection env inputmethod engine = (Except.ok connection, []) := by
  simp [resolve_connection, hcached]

theorem resolve_connection_error (env : CreateEngineEnv) (inputmethod : GInputMethod)
    (engine : GInputMethodEngine) (reply : Reply) (calls : List Call)
    (h : resolve_connection env inputmethod engine = (Except.error reply, calls)) :
    inputmethod.connection = none ∧
    (((inputmethod.address = none ∨ inputmethod.address = some "") ∧
        env.is_registered = false ∧
        reply = Reply.return_error "Application has not yet been registered" ∧
        calls = [Call.g_application_get_is_registered, Call.g_object_unref engine]) ∨
      ((inputmethod.address = none ∨ inputmethod.address = some "") ∧
        env.is_registered = true ∧ env.dbus_connection = none ∧
        reply = Reply.return_error "Application has no D-Bus connection" ∧
        calls =
          [Call.g_application_get_is_registered, Call.g_application_get_dbus_connection,
           Call.g_object_unref engine]) ∨
      (∃ address error, inputmethod.address = some address ∧ address ≠ "" ∧
        env.new_for_address_sync address = Except.error error ∧
        reply = Reply.return_gerror error ∧
        calls =
          [Call.g_dbus_connection_new_for_address_sync address,
           Call.g_object_unref engine])) := by
  cases hc : inputmethod.connection with
  | some connection => simp [resolve_connection, hc] at h
  | none =>
    refine ⟨rfl, ?_⟩
    cases hreg : env.is_registered <;> cases hbus : env.dbus_connection <;>
      cases ha : inputmethod.address with
      | none => simp [resolve_connection, hc, ha, hreg, hbus] at h <;> simp [h]
      | some address =>
        by_cases hempty : address = ""
        · simp [resolve_connection, hc, ha, hreg, hbus, hempty] at h <;> simp [h, hempty]
        · cases hdial : env.new_for_address_sync address <;>
            simp [resolve_connection, hc, ha, hempty, hdial] at h
          simp [h, hempty, hdial]

theorem resolve_connection_ok (env : CreateEngineEnv) (inputmethod : GInputMethod)
    (engine : GInputMethodEngine) (connection : GDBusConnection) (calls : List Call)
    (h : resolve_connection env inputmethod engine = (Except.ok connection, calls)) :
    (inputmethod.connection = some connection ∧ calls = []) ∨
    (inputmethod.connection = none ∧
      (inputmethod.address = none ∨ inputmethod.address = some "") ∧
      env.is_registered = true ∧ env.dbus_connection = some connection ∧
      calls =
        [Call.g_application_get_is_registered, Call.g_application_get_dbus_connection,
         Call.g_object_ref_connection connection]) ∨
    (∃ address, inputmethod.connection = none ∧ inputmethod.address = some address ∧
      address ≠ "" ∧ env.new_for_address_sync address = Except.ok connection ∧
      calls = [Call.g_dbus_connection_new_for_address_sync address]) := by
  cases hc : inputmethod.connection with
  | some cached =>
    simp [resolve_connection, hc] at h
    simp [h]
  | none =>
    cases hreg : env.is_registered <;> cases hbus : env.dbus_connection <;>
      cases ha : inputmethod.address with
      | none =>
        simp [resolve_connection, hc, ha, hreg, hbus] at h <;>
          (obtain ⟨h1, h2⟩ := h; subst h1; simp [h2.symm])
      | some address =>
        by_cases hempty : address = ""
        · simp [resolve_connection, hc, ha, hreg, hbus, hempty] at h <;>
            (obtain ⟨h1, h2⟩ := h; subst h1; simp [h2.symm, hempty])
        · cases hdial : env.new_for_address_sync address <;>
            simp [resolve_connection, hc, ha, hempty, hdial] at h
          obtain ⟨h1, h2⟩ := h
          subst h1
          simp [h2.symm, hempty, hdial]

theorem create_engine_declined (env : CreateEngineEnv) (inputmethod : GInputMethod)
    (sender : String) (hemit : emit_create_engine env sender = none) :
    on_handle_create_engine env inputmethod sender =
      { inputmethod := inputmethod
        reply := some (Reply.return_error "Cannot create engine")
        calls := [Call.before_emit, Call.after_emit] } := by
  simp [on_handle_create_engine, hemit]

theorem create_engine_unresolved (env : CreateEngineEnv) (inputmethod : GInputMethod)
    (sender : String) (engine : GInputMethodEngine) (reply : Reply) (calls : List Call)
    (hemit : emit_create_engine env sender = some engine)
    (hresolve : resolve_connection env inputmethod engine = (Except.error reply, calls)) :
    on_handle_create_engine env inputmethod sender =
      { inputmethod := inputmethod
        reply := some reply
        calls := Call.before_emit :: Call.after_emit :: calls } := by
  simp [on_handle_create_engine, hemit, hresolve]

theorem create_engine_unexported (env : CreateEngineEnv) (inputmethod : GInputMethod)
    (sender : String) (engine : GInputMethodEngine) (connection : GDBusConnection)
    (calls : List Call) (error : GError)
    (hemit : emit_create_engine env sender = some engine)
    (hresolve : resolve_connection env inputmethod engine = (Except.ok connection, calls))
    (hexport : env.engine_export engine connection
      (engine_object_path inputmethod.dbus_object_path inputmethod.engine_serial) =
        Except.error error) :
    on_handle_create_engine env inputmethod sender =
      { inputmethod :=
          { inputmethod with
            connection := some connection
            engine_serial := (inputmethod.engine_serial + 1) % (G_MAXULONG + 1) }
        reply := some (Reply.return_gerror error)
        calls :=
          Call.before_emit :: Call.after_emit :: calls ++
          [Call.g_input_method_engine_export engine connection
             (engine_object_path inputmethod.dbus_object_path inputmethod.engine_serial),
           Call.g_object_unref engine] } := by
  simp [on_handle_create_engine, hemit, hresolve, hexport]

theorem create_engine_new_client (env : CreateEngineEnv) (inputmethod : GInputMethod)
    (sender : String) (engine : GInputMethodEngine) (connection : GDBusConnection)
    (calls : List Call) (done : Unit)
    (hemit : emit_create_engine env sender = some engine)
    (hresolve : resolve_connection env inputmethod engine = (Except.ok connection, calls))
    (hexport : env.engine_export engine connection
      (engine_object_path inputmethod.dbus_object_path inputmethod.engine_serial) =
        Except.ok done)
    (hlookup : g_hash_table_lookup inputmethod.clients sender = none) :
    on_handle_create_engine env inputmethod sender =
      { inputmethod :=
          { inputmethod with
            use_count := inputmethod.use_count + 1
            connection := some connection
            engine_serial := (inputmethod.engine_serial + 1) % (G_MAXULONG + 1)
            clients :=
              (sender, { engines := [engine], watcher_id := env.watcher_id }) ::
                inputmethod.clients }
        reply :=
          some (Reply.object_path
            (engine_object_path inputmethod.dbus_object_path inputmethod.engine_serial))
        calls :=
          Call.before_emit :: Call.after_emit :: calls ++
          [Call.g_input_method_engine_export engine connection
             (engine_object_path inputmethod.dbus_object_path inputmethod.engine_serial),
           Call.g_signal_connect_destroy engine, Call.g_mutex_lock,
           Call.g_bus_watch_name_on_connection env.invocation_connection sender,
           Call.g_mutex_unlock] } := by
  simp [on_handle_create_engine, hemit, hresolve, hexport, g_application_hold, hlookup,
    g_hash_table_insert, g_slist_prepend]

theorem create_engine_known_client (env : CreateEngineEnv) (inputmethod : GInputMethod)
    (sender : String) (engine : GInputMethodEngine) (connection : GDBusConnection)
    (calls : List Call) (done : Unit) (client : Client)
    (hemit : emit_create_engine env sender = some engine)
    (hresolve : resolve_connection env inputmethod engine = (Except.ok connection, calls))
    (hexport : env.engine_export engine connection
      (engine_object_path inputmethod.dbus_object_path inputmethod.engine_serial) =
        Except.ok done)
    (hlookup : g_hash_table_lookup inputmethod.clients sender = some client) :
    on_handle_create_engine env inputmethod sender =
      { inputmethod :=
          { inputmethod with
            use_count := inputmethod.use_count + 1
            connection := some connection
            engine_serial := (inputmethod.engine_serial + 1) % (G_MAXULONG + 1)
            clients :=
              client_set_engines inputmethod.clients sender (engine :: client.engines) }
        reply :=
          some (Reply.object_path
            (engine_object_path inputmethod.dbus_object_path inputmethod.engine_serial))
        calls :=
          Call.before_emit :: Call.after_emit :: calls ++
          [Call.g_input_method_engine_export engine connection
             (engine_object_path inputmethod.dbus_object_path inputmethod.engine_serial),
           Call.g_signal_connect_destroy engine, Call.g_mutex_lock,
           Call.g_mutex_unlock] } := by
  simp [on_handle_create_engine, hemit, hresolve, hexport, g_application_hold, hlookup,
    g_slist_prepend]

/-- A `CreateEngine` call that replies with an object path replies with the
path of the serial it found, and was a call that took one hold. -/
theorem create_engine_reply_path (env : CreateEngineEnv) (inputmethod : GInputMethod)
    (sender : String) (path : String)
    (hreply : (on_handle_create_engine env inputmethod sender).reply =
      some (Reply.object_path path)) :
    path = engine_object_path inputmethod.dbus_object_path inputmethod.engine_serial ∧
    (on_handle_create_engine env inputmethod sender).inputmethod.use_count =
      inputmethod.use_count + 1 := by
  cases hemit : emit_create_engine env sender with
  | none => simp [create_engine_declined env inputmethod sender hemit] at hreply
  | some engine =>
    cases hres : resolve_connection env inputmethod engine with
    | mk outcome calls =>
      cases outcome with
      | error reply =>
        rw [create_engine_unresolved env inputmethod sender engine reply calls hemit hres]
          at hreply
        obtain ⟨-, h | h | h⟩ := resolve_connection_error env inputmethod engine reply calls hres
        · simp [h.2.2.1] at hreply
        · simp [h.2.2.2.1] at hreply
        · obtain ⟨address, error, -, -, -, hr, -⟩ := h
          simp [hr] at hreply
      | ok connection =>
        cases hexp : env.engine_export engine connection
            (engine_object_path inputmethod.dbus_object_path inputmethod.engine_serial) with
        | error error =>
          simp [create_engine_unexported env inputmethod sender engine connection calls error
            hemit hres hexp] at hreply
        | ok done =>
          cases hlook : g_hash_table_lookup inputmethod.clients sender with
          | none =>
            rw [create_engine_new_client env inputmethod sender engine connection calls done
              hemit hres hexp hlook] at hreply ⊢
            simp at hreply
            simp [hreply]
          | some client =>
            rw [create_engine_known_client env inputmethod sender engine connection calls done
              client hemit hres hexp hlook] at hreply ⊢
            simp at hreply
            simp [hreply]

/-! ## What the other callbacks change -/

theorem foldl_release (list : List GInputMethodEngine) (inputmethod : GInputMethod) :
    list.foldl (fun application _ => g_application_release application) inputmethod =
      { inputmethod with use_count := inputmethod.use_count - list.length } := by
  induction list generalizing inputmethod with
  | nil => simp
  | cons engine rest ih =>
    rw [List.foldl_cons, ih]
    simp only [g_application_release, List.length_cons, Nat.cast_add, Nat.cast_one]
    congr 1
    ring

theorem client_name_vanished_known (inputmethod : GInputMethod) (name : String)
    (client : Client) (hlookup : g_hash_table_lookup inputmethod.clients name = some client) :
    on_client_name_vanished inputmethod name =
      { inputmethod :=
          { inputmethod with
            use_count := inputmethod.use_count - client.engines.length
            clients := g_hash_table_steal inputmethod.clients name }
        reply := none
        calls :=
          Call.g_bus_unwatch_name client.watcher_id ::
            client.engines.map (fun engine => Call.g_object_unref engine) } := by
  simp [on_client_name_vanished, hlookup, client_destroy, foldl_release]

theorem client_name_vanished_unknown (inputmethod : GInputMethod) (name : String)
    (hlookup : g_hash_table_lookup inputmethod.clients name = none) :
    on_client_name_vanished inputmethod name =
      { inputmethod := inputmethod, reply := none, calls := [] } := by
  simp [on_client_name_vanished, hlookup]

theorem engine_destroy_known (inputmethod : GInputMethod) (engine : GInputMethodEngine)
    (client : Client)
    (hlookup : g_hash_table_lookup inputmethod.clients engine.client_id = some client) :
    on_engine_destroy inputmethod engine =
      { inputmethod :=
          { inputmethod with
            use_count := inputmethod.use_count - 1
            clients :=
              client_set_engines inputmethod.clients engine.client_id
                (client.engines.erase engine) }
        reply := none
        calls := [Call.g_mutex_lock, Call.g_mutex_unlock, Call.g_object_unref engine] } := by
  simp [on_engine_destroy, hlookup, g_application_release, g_slist_delete_link_find]

theorem engine_destroy_unknown (inputmethod : GInputMethod) (engine : GInputMethodEngine)
    (hlookup : g_hash_table_lookup inputmethod.clients engine.client_id = none) :
    on_engine_destroy inputmethod engine =
      { inputmethod := inputmethod
        reply := none
        calls := [Call.g_mutex_lock, Call.g_mutex_unlock, Call.g_object_unref engine] } := by
  simp [on_engine_destroy, hlookup]

/-- A `CreateEngine` call on a service with a cached connection keeps it, asks
neither for a new connection nor for the application's, and exports on the
cached one only. -/
theorem create_engine_uses_cached (env : CreateEngineEnv) (inputmethod : GInputMethod)
    (sender : String) (connection : GDBusConnection)
    (hcached : inputmethod.connection = some connection) :
    (on_handle_create_engine env inputmethod sender).inputmethod.connection =
      some connection ∧
    ∀ call ∈ (on_handle_create_engine env inputmethod sender).calls,
      call ≠ Call.g_application_get_dbus_connection ∧
      call ≠ Call.g_application_get_is_registered ∧
      (∀ address, call ≠ Call.g_dbus_connection_new_for_address_sync address) ∧
      (∀ engine other path, call = Call.g_input_method_engine_export engine other path →
        other = connection) := by
  cases hemit : emit_create_engine env sender with
  | none => simp [create_engine_declined env inputmethod sender hemit, hcached]
  | some engine =>
    have hres := resolve_connection_cached env inputmethod engine connection hcached
    cases hexp : env.engine_export engine connection
        (engine_object_path inputmethod.dbus_object_path inputmethod.engine_serial) with
    | error error =>
      simp [create_engine_unexported env inputmethod sender engine connection [] error
        hemit hres hexp]
    | ok done =>
      cases hlook : g_hash_table_lookup inputmethod.clients sender with
      | none =>
        simp [create_engine_new_client env inputmethod sender engine connection [] done
          hemit hres hexp hlook]
      | some client =>
        simp [create_engine_known_client env inputmethod sender engine connection [] done
          client hemit hres hexp hlook]

/-- No event changes a cached connection. -/
theorem step_keeps_connection (inputmethod : GInputMethod) (event : Event)
    (connection : GDBusConnection) (hcached : inputmethod.connection = some connection) :
    (step inputmethod event).inputmethod.connection = some connection := by
  cases event with
  | activate bus owner_id =>
    cases bus <;> simp [step, g_input_method_real_activate, g_application_hold, hcached]
    split <;> simp [hcached]
  | name_acquired bus exported =>
    cases exported <;> simp [step, on_name_acquired, g_application_release, hcached]
  | name_lost => simp [step, on_name_lost, g_application_release, hcached]
  | get_address => simp [step, on_handle_get_address, hcached]
  | create_engine env sender =>
    exact (create_engine_uses_cached env inputmethod sender connection hcached).1
  | engine_destroy engine =>
    cases hlook : g_hash_table_lookup inputmethod.clients engine.client_id with
    | none => simp [step, engine_destroy_unknown inputmethod engine hlook, hcached]
    | some client => simp [step, engine_destroy_known inputmethod engine client hlook, hcached]
  | client_name_vanished name =>
    cases hlook : g_hash_table_lookup inputmethod.clients name with
    | none => simp [step, client_name_vanished_unknown inputmethod name hlook, hcached]
    | some client =>
      simp [step, client_name_vanished_known inputmethod name client hlook, hcached]

theorem run_keeps_connection (events : List Event) (inputmethod : GInputMethod)
    (connection : GDBusConnection) (hcached : inputmethod.connection = some connection) :
    (run inputmethod events).connection = some connection := by
  induction events generalizing inputmethod with
  | nil => exact hcached
  | cons event rest ih =>
    exact ih _ (step_keeps_connection inputmethod event connection hcached)

/-- A `CreateEngine` call that reaches the export step leaves the connection it
exported on cached. -/
theorem create_engine_caches_resolved (env : CreateEngineEnv) (inputmethod : GInputMethod)
    (sender : String) (engine : GInputMethodEngine) (connection : GDBusConnection)
    (path : String)
    (hcall : Call.g_input_method_engine_export engine connection path ∈
      (on_handle_create_engine env inputmethod sender).calls) :
    (on_handle_create_engine env inputmethod sender).inputmethod.connection =
      some connection := by
  cases hemit : emit_create_engine env sender with
  | none => simp [create_engine_declined env inputmethod sender hemit] at hcall
  | some created =>
    cases hres : resolve_connection env inputmethod created with
    | mk outcome calls =>
      cases outcome with
      | error reply =>
        rw [create_engine_unresolved env inputmethod sender created reply calls hemit hres]
          at hcall
        obtain ⟨-, h | h | h⟩ := resolve_connection_error env inputmethod created reply calls hres
        · simp [h.2.2.2] at hcall
        · simp [h.2.2.2.2] at hcall
        · obtain ⟨address, error, -, -, -, -, hc⟩ := h
          simp [hc] at hcall
      | ok resolved =>
        have hcalls : ∀ other, Call.g_input_method_engine_export engine connection path ∈
            Call.before_emit :: Call.after_emit :: calls ++ other →
            Call.g_input_method_engine_export engine connection path ∈ other := by
          intro other hmem
          have hmem : Call.g_input_method_engine_export engine connection path ∈
              calls ++ other := by simpa using hmem
          rcases List.mem_append.1 hmem with hm | hm
          · obtain h | h | h := resolve_connection_ok env inputmethod created resolved calls hres
            · simp [h.2] at hm
            · simp [h.2.2.2.2] at hm
            · obtain ⟨address, -, -, -, -, hc⟩ := h
              simp [hc] at hm
          · exact hm
        cases hexp : env.engine_export created resolved
            (engine_object_path inputmethod.dbus_object_path inputmethod.engine_serial) with
        | error error =>
          rw [create_engine_unexported env inputmethod sender created resolved calls error
            hemit hres hexp] at hcall ⊢
          have := hcalls _ hcall
          simp at this
          simp [this.2.1]
        | ok done =>
          cases hlook : g_hash_table_lookup inputmethod.clients sender with
          | none =>
            rw [create_engine_new_client env inputmethod sender created resolved calls done
              hemit hres hexp hlook] at hcall ⊢
            have := hcalls _ hcall
            simp at this
            simp [this.2.1]
          | some client =>
            rw [create_engine_known_client env inputmethod sender created resolved calls done
              client hemit hres hexp hlook] at hcall ⊢
            have := hcalls _ hcall
            simp at this
            simp [this.2.1]

/-! ## Object paths are injective in the serial -/

theorem digitChar_value (k : Nat) (hk : k < 10) : (Nat.digitChar k).toNat - 48 = k := by
  interval_cases k <;> rfl

theorem toDigitsCore_value (fuel : Nat) :
    ∀ (n : Nat) (digits : List Char), n < fuel →
      (Nat.toDigitsCore 10 fuel n digits).foldl
          (fun value char => 10 * value + (char.toNat - 48)) 0 =
        digits.foldl (fun value char => 10 * value + (char.toNat - 48)) n := by
  induction fuel with
  | zero => intro n digits h; omega
  | succ fuel ih =>
    intro n digits h
    simp only [Nat.toDigitsCore]
    split
    · rename_i hzero
      have hlt : n < 10 := by omega
      simp only [List.foldl_cons, Nat.mod_eq_of_lt hlt, digitChar_value n hlt]
      simp
    · rename_i hpos
      rw [ih (n / 10) _ (by omega)]
      simp only [List.foldl_cons, digitChar_value (n % 10) (Nat.mod_lt _ (by norm_num))]
      congr 1
      omega

theorem format_lu_injective : Function.Injective format_lu := by
  intro a b h
  have hdigits : Nat.toDigits 10 a = Nat.toDigits 10 b := by
    have := congrArg String.data h
    simpa [format_lu, Nat.repr, List.asString] using this
  have ha := toDigitsCore_value (a + 1) a [] (by omega)
  have hb := toDigitsCore_value (b + 1) b [] (by omega)
  simp only [List.foldl_nil] at ha hb
  rw [← ha, ← hb]
  exact congrArg _ hdigits

theorem engine_object_path_injective (object_path : String) :
    Function.Injective (engine_object_path object_path) := by
  intro a b h
  apply format_lu_injective
  have hdata := congrArg String.data h
  simp only [engine_object_path, String.data_append] at hdata
  exact String.ext (List.append_cancel_left hdata)

/-! ## The client table -/

theorem lookup_set_engines (table : List (String × Client)) (key : String)
    (engines : List GInputMethodEngine) (client : Client)
    (hlookup : g_hash_table_lookup table key = some client) :
    g_hash_table_lookup (client_set_engines table key engines) key =
      some { client with engines := engines } := by
  induction table with
  | nil => simp [g_hash_table_lookup] at hlookup
  | cons entry rest ih =>
    obtain ⟨k, v⟩ := entry
    by_cases hk : k = key
    · simp [g_hash_table_lookup, hk] at hlookup
      simp [client_set_engines, g_hash_table_lookup, hk, hlookup]
    · simp [g_hash_table_lookup, hk] at hlookup
      simp [client_set_engines, g_hash_table_lookup, hk, ih hlookup]

theorem lookup_set_engines_other (table : List (String × Client)) (key other : String)
    (engines : List GInputMethodEngine) (hne : other ≠ key) :
    g_hash_table_lookup (client_set_engines table key engines) other =
      g_hash_table_lookup table other := by
  induction table with
  | nil => rfl
  | cons entry rest ih =>
    obtain ⟨k, v⟩ := entry
    by_cases hk : k = key
    · subst hk
      have hko : ¬k = other := fun h => hne h.symm
      simp [client_set_engines, g_hash_table_lookup, hko]
    · by_cases ho : k = other
      · subst ho
        simp [client_set_engines, g_hash_table_lookup, hk]
      · simp [client_set_engines, g_hash_table_lookup, hk, ho, ih]

theorem listed_set_engines (table : List (String × Client)) (key : String)
    (engines : List GInputMethodEngine) (client : Client)
    (hlookup : g_hash_table_lookup table key = some client) :
    listed_engines (client_set_engines table key engines) + client.engines.length =
      listed_engines table + engines.length := by
  induction table with
  | nil => simp [g_hash_table_lookup] at hlookup
  | cons entry rest ih =>
    obtain ⟨k, v⟩ := entry
    by_cases hk : k = key
    · simp [g_hash_table_lookup, hk] at hlookup
      simp [client_set_engines, listed_engines, hk, hlookup]
      omega
    · simp [g_hash_table_lookup, hk] at hlookup
      have := ih hlookup
      simp [client_set_engines, listed_engines, hk]
      omega

theorem listed_steal (table : List (String × Client)) (key : String) (client : Client)
    (hlookup : g_hash_table_lookup table key = some client) :
    listed_engines (g_hash_table_steal table key) + client.engines.length =
      listed_engines table := by
  induction table with
  | nil => simp [g_hash_table_lookup] at hlookup
  | cons entry rest ih =>
    obtain ⟨k, v⟩ := entry
    by_cases hk : k = key
    · simp [g_hash_table_lookup, hk] at hlookup
      simp [g_hash_table_steal, listed_engines, hk, hlookup]
      omega
    · simp [g_hash_table_lookup, hk] at hlookup
      have := ih hlookup
      simp [g_hash_table_steal, listed_engines, hk]
      omega

/-! ## The accounts of one `CreateEngine` call -/

/-- A `CreateEngine` call takes one hold and lists one more engine when it
returns a path, and neither when it does not; it never touches the owner id,
the activation flag, the application object path or the address. -/
theorem create_engine_accounts (env : CreateEngineEnv) (inputmethod : GInputMethod)
    (sender : String) :
    (on_handle_create_engine env inputmethod sender).inputmethod.use_count =
      inputmethod.use_count +
        (returned_path (on_handle_create_engine env inputmethod sender)).toList.length ∧
    live_engines (on_handle_create_engine env inputmethod sender).inputmethod =
      live_engines inputmethod +
        (returned_path (on_handle_create_engine env inputmethod sender)).toList.length ∧
    (on_handle_create_engine env inputmethod sender).inputmethod.owner_id =
      inputmethod.owner_id ∧
    (on_handle_create_engine env inputmethod sender).inputmethod.activating =
      inputmethod.activating ∧
    (on_handle_create_engine env inputmethod sender).inputmethod.dbus_object_path =
      inputmethod.dbus_object_path ∧
    (on_handle_create_engine env inputmethod sender).inputmethod.address =
      inputmethod.address := by
  cases hemit : emit_create_engine env sender with
  | none => simp [create_engine_declined env inputmethod sender hemit, returned_path]
  | some engine =>
    cases hres : resolve_connection env inputmethod engine with
    | mk outcome calls =>
      cases outcome with
      | error reply =>
        rw [create_engine_unresolved env inputmethod sender engine reply calls hemit hres]
        obtain ⟨-, h | h | h⟩ := resolve_connection_error env inputmethod engine reply calls hres
        · simp [returned_path, h.2.2.1]
        · simp [returned_path, h.2.2.2.1]
        · obtain ⟨address, error, -, -, -, hr, -⟩ := h
          simp [returned_path, hr]
      | ok connection =>
        cases hexp : env.engine_export engine connection
            (engine_object_path inputmethod.dbus_object_path inputmethod.engine_serial) with
        | error error =>
          simp [create_engine_unexported env inputmethod sender engine connection calls error
            hemit hres hexp, returned_path, live_engines]
        | ok done =>
          cases hlook : g_hash_table_lookup inputmethod.clients sender with
          | none =>
            simp [create_engine_new_client env inputmethod sender engine connection calls done
              hemit hres hexp hlook, returned_path, live_engines, listed_engines]
            omega
          | some client =>
            have := listed_set_engines inputmethod.clients sender (engine :: client.engines)
              client hlook
            simp [create_engine_known_client env inputmethod sender engine connection calls done
              client hemit hres hexp hlook, returned_path, live_engines]
            simp at this
            omega

/-! ## The use count along sequences of events -/

theorem run_append (first second : List Event) (inputmethod : GInputMethod) :
    run inputmethod (first ++ second) = run (run inputmethod first) second := by
  induction first generalizing inputmethod with
  | nil => rfl
  | cons event rest ih => exact ih _

theorem returned_paths_append (first second : List Event) (inputmethod : GInputMethod) :
    returned_paths inputmethod (first ++ second) =
      returned_paths inputmethod first ++ returned_paths (run inputmethod first) second := by
  induction first generalizing inputmethod with
  | nil => rfl
  | cons event rest ih =>
    show (returned_path (step inputmethod event)).toList ++
        returned_paths (step inputmethod event).inputmethod (rest ++ second) = _
    rw [ih]
    simp only [returned_paths, run, List.append_assoc]

/-- Along `CreateEngine` calls alone the use count grows by the number of paths
returned. -/
theorem creations_hold_count (calls : List (CreateEngineEnv × String))
    (inputmethod : GInputMethod) :
    (run inputmethod (calls.map fun call => Event.create_engine call.1 call.2)).use_count =
      inputmethod.use_count +
        (returned_paths inputmethod
          (calls.map fun call => Event.create_engine call.1 call.2)).length := by
  induction calls generalizing inputmethod with
  | nil => simp [run, returned_paths]
  | cons call rest ih =>
    simp only [List.map_cons, run, returned_paths, step, List.length_append, ih,
      (create_engine_accounts call.1 inputmethod call.2).1, Nat.cast_add]
    ring

/-- The hold invariant: the use count is one for an owned name plus one per
listed engine, and an activation is in flight only under an owner id. -/
theorem orderly_step_invariant (inputmethod : GInputMethod) (event : Event)
    (hcount : inputmethod.use_count = (owned inputmethod + live_engines inputmethod : Nat))
    (hflag : inputmethod.activating = true → inputmethod.owner_id ≠ 0)
    (horderly : orderly inputmethod event = true) :
    (step inputmethod event).inputmethod.use_count =
      (owned (step inputmethod event).inputmethod +
        live_engines (step inputmethod event).inputmethod : Nat) ∧
    ((step inputmethod event).inputmethod.activating = true →
      (step inputmethod event).inputmethod.owner_id ≠ 0) := by
  cases event with
  | activate bus owner_id =>
    cases bus with
    | none => simp [orderly] at horderly
    | some connection =>
      simp [orderly] at horderly
      obtain ⟨hfree, hid⟩ := horderly
      have hidle : inputmethod.activating = false := by
        cases h : inputmethod.activating with
        | false => rfl
        | true => exact absurd hfree (hflag h)
      simp [step, g_input_method_real_activate, g_application_hold, hidle, owned,
        live_engines, hid, hcount, hfree]
      ring
  | name_acquired bus exported =>
    cases exported with
    | error error => simp [orderly] at horderly
    | ok done => simp [step, on_name_acquired, owned, live_engines, hcount]
  | name_lost =>
    simp [orderly] at horderly
    simp [step, on_name_lost, g_application_release, owned, live_engines, hcount, horderly]
  | get_address => exact ⟨by simpa [step, on_handle_get_address] using hcount, hflag⟩
  | create_engine env sender =>
    obtain ⟨huse, hlive, howner, hactive, -, -⟩ := create_engine_accounts env inputmethod sender
    simp only [step]
    refine ⟨?_, ?_⟩
    · rw [huse, hlive, hcount]
      simp only [owned, howner]
      push_cast
      ring
    · rw [hactive, howner]
      exact hflag
  | engine_destroy engine =>
    simp only [orderly, engines_of, decide_eq_true_eq] at horderly
    cases hlook : g_hash_table_lookup inputmethod.clients engine.client_id with
    | none => simp [hlook] at horderly
    | some client =>
      simp only [hlook] at horderly
      have hset := listed_set_engines inputmethod.clients engine.client_id
        (client.engines.erase engine) client hlook
      have hlen := List.length_erase_of_mem horderly
      have hpos : 0 < client.engines.length := List.length_pos_of_mem horderly
      simp only [step, engine_destroy_known inputmethod engine client hlook, owned,
        live_engines] at hcount ⊢
      refine ⟨?_, hflag⟩
      rw [hcount]
      have : listed_engines inputmethod.clients =
          listed_engines (client_set_engines inputmethod.clients engine.client_id
            (client.engines.erase engine)) + 1 := by omega
      rw [this]
      push_cast
      ring
  | client_name_vanished name =>
    cases hlook : g_hash_table_lookup inputmethod.clients name with
    | none =>
      simpa [step, client_name_vanished_unknown inputmethod name hlook] using ⟨hcount, hflag⟩
    | some client =>
      have hsteal := listed_steal inputmethod.clients name client hlook
      simp only [step, client_name_vanished_known inputmethod name client hlook, owned,
        live_engines] at hcount ⊢
      refine ⟨?_, hflag⟩
      rw [hcount, ← hsteal]
      push_cast
      ring

theorem orderly_run_invariant (events : List Event) (inputmethod : GInputMethod)
    (hcount : inputmethod.use_count = (owned inputmethod + live_engines inputmethod : Nat))
    (hflag : inputmethod.activating = true → inputmethod.owner_id ≠ 0)
    (horderly : orderly_run inputmethod events = true) :
    (run inputmethod events).use_count =
      (owned (run inputmethod events) + live_engines (run inputmethod events) : Nat) := by
  induction events generalizing inputmethod with
  | nil => exact hcount
  | cons event rest ih =>
    simp only [orderly_run, Bool.and_eq_true] at horderly
    obtain ⟨h1, h2⟩ := orderly_step_invariant inputmethod event hcount hflag horderly.1
    exact ih _ h1 h2 horderly.2

/-! ## The engine serial along sequences of events -/

theorem export_calls_append (first second : List Call) :
    export_calls (first ++ second) = export_calls first + export_calls second := by
  simp [export_calls, List.countP_append]

/-- A `CreateEngine` call either stays short of the export step, and then
leaves the serial alone and returns no path, or reaches it once, and then moves
the serial on by one (`gulong` arithmetic) and returns no other path than the
one of the serial it found. -/
theorem create_engine_serial (env : CreateEngineEnv) (inputmethod : GInputMethod)
    (sender : String) :
    (export_calls (on_handle_create_engine env inputmethod sender).calls = 0 ∧
      (on_handle_create_engine env inputmethod sender).inputmethod.engine_serial =
        inputmethod.engine_serial ∧
      returned_path (on_handle_create_engine env inputmethod sender) = none) ∨
    (export_calls (on_handle_create_engine env inputmethod sender).calls = 1 ∧
      (on_handle_create_engine env inputmethod sender).inputmethod.engine_serial =
        (inputmethod.engine_serial + 1) % (G_MAXULONG + 1) ∧
      (returned_path (on_handle_create_engine env inputmethod sender) = none ∨
        returned_path (on_handle_create_engine env inputmethod sender) =
          some (engine_object_path inputmethod.dbus_object_path inputmethod.engine_serial))) := by
  cases hemit : emit_create_engine env sender with
  | none =>
    left
    simp [create_engine_declined env inputmethod sender hemit, returned_path, export_calls]
  | some engine =>
    cases hres : resolve_connection env inputmethod engine with
    | mk outcome calls =>
      cases outcome with
      | error reply =>
        left
        rw [create_engine_unresolved env inputmethod sender engine reply calls hemit hres]
        obtain ⟨-, h | h | h⟩ := resolve_connection_error env inputmethod engine reply calls hres
        · simp [returned_path, export_calls, h.2.2.1, h.2.2.2]
        · simp [returned_path, export_calls, h.2.2.2.1, h.2.2.2.2]
        · obtain ⟨address, error, -, -, -, hr, hc⟩ := h
          simp [returned_path, export_calls, hr, hc]
      | ok connection =>
        right
        have hcalls : export_calls (Call.before_emit :: Call.after_emit :: calls) = 0 := by
          obtain h | h | h := resolve_connection_ok env inputmethod engine connection calls hres
          · simp [export_calls, h.2]
          · simp [export_calls, h.2.2.2.2]
          · obtain ⟨address, -, -, -, -, hc⟩ := h
            simp [export_calls, hc]
        cases hexp : env.engine_export engine connection
            (engine_object_path inputmethod.dbus_object_path inputmethod.engine_serial) with
        | error error =>
          rw [create_engine_unexported env inputmethod sender engine connection calls error
            hemit hres hexp]
          simp only [export_calls_append, hcalls]
          simp [returned_path, export_calls]
        | ok done =>
          cases hlook : g_hash_table_lookup inputmethod.clients sender with
          | none =>
            rw [create_engine_new_client env inputmethod sender engine connection calls done
              hemit hres hexp hlook]
            simp only [export_calls_append, hcalls]
            simp [returned_path, export_calls]
          | some client =>
            rw [create_engine_known_client env inputmethod sender engine connection calls done
              client hemit hres hexp hlook]
            simp only [export_calls_append, hcalls]
            simp [returned_path, export_calls]

/-- Every event keeps the application object path, and moves the serial and
returns a path only as a `CreateEngine` call does. -/
theorem step_serial (inputmethod : GInputMethod) (event : Event) :
    (step inputmethod event).inputmethod.dbus_object_path = inputmethod.dbus_object_path ∧
    ((export_calls (step inputmethod event).calls = 0 ∧
        (step inputmethod event).inputmethod.engine_serial = inputmethod.engine_serial ∧
        returned_path (step inputmethod event) = none) ∨
      (export_calls (step inputmethod event).calls = 1 ∧
        (step inputmethod event).inputmethod.engine_serial =
          (inputmethod.engine_serial + 1) % (G_MAXULONG + 1) ∧
        (returned_path (step inputmethod event) = none ∨
          returned_path (step inputmethod event) =
            some (engine_object_path inputmethod.dbus_object_path
              inputmethod.engine_serial)))) := by
  cases event with
  | activate bus owner_id =>
    cases bus with
    | none =>
      simp [step, g_input_method_real_activate, g_application_hold, export_calls, returned_path]
    | some connection =>
      by_cases hactive : inputmethod.activating = true
      · simp [step, g_input_method_real_activate, g_application_hold, export_calls,
          returned_path, hactive]
      · by_cases howner : 0 < inputmethod.owner_id <;>
          simp [step, g_input_method_real_activate, g_application_hold, export_calls,
            returned_path, hactive, howner]
  | name_acquired bus exported =>
    cases exported <;>
      simp [step, on_name_acquired, g_application_release, export_calls, returned_path]
  | name_lost => simp [step, on_name_lost, g_application_release, export_calls, returned_path]
  | get_address => simp [step, on_handle_get_address, export_calls, returned_path]
  | create_engine env sender =>
    exact ⟨(create_engine_accounts env inputmethod sender).2.2.2.2.1,
      create_engine_serial env inputmethod sender⟩
  | engine_destroy engine =>
    cases hlook : g_hash_table_lookup inputmethod.clients engine.client_id with
    | none =>
      simp [step, engine_destroy_unknown inputmethod engine hlook, export_calls, returned_path]
    | some client =>
      simp [step, engine_destroy_known inputmethod engine client hlook, export_calls,
        returned_path]
  | client_name_vanished name =>
    cases hlook : g_hash_table_lookup inputmethod.clients name with
    | none =>
      simp [step, client_name_vanished_unknown inputmethod name hlook, export_calls,
        returned_path]
    | some client =>
      simp [step, client_name_vanished_known inputmethod name client hlook, export_calls,
        returned_path]

/-- As long as the serial does not wrap, the returned paths are the paths of a
strictly increasing list of serials, all between the serial at the start and
the serial at the start plus the number of export attempts. -/
theorem returned_paths_serials (events : List Event) :
    ∀ inputmethod : GInputMethod,
      inputmethod.engine_serial + export_attempts inputmethod events ≤ G_MAXULONG + 1 →
      ∃ serials : List Nat,
        returned_paths inputmethod events =
          serials.map (engine_object_path inputmethod.dbus_object_path) ∧
        serials.Pairwise (fun a b => a < b) ∧
        ∀ n ∈ serials, inputmethod.engine_serial ≤ n ∧
          n < inputmethod.engine_serial + export_attempts inputmethod events := by
  induction events with
  | nil => intro inputmethod _; exact ⟨[], by simp [returned_paths]⟩
  | cons event rest ih =>
    intro inputmethod hbound
    obtain ⟨hpath, hstep⟩ := step_serial inputmethod event
    simp only [export_attempts] at hbound ⊢
    simp only [returned_paths]
    rcases hstep with ⟨hcalls, hserial, hreturned⟩ | ⟨hcalls, hserial, hreturned⟩
    · obtain ⟨serials, hs1, hs2, hs3⟩ := ih (step inputmethod event).inputmethod (by
        rw [hserial]; omega)
      refine ⟨serials, ?_, hs2, ?_⟩
      · rw [hreturned, hs1, hpath]; rfl
      · intro n hn
        have := hs3 n hn
        rw [hserial] at this
        omega
    · rw [hcalls] at hbound ⊢
      by_cases hwrap : inputmethod.engine_serial + 1 = G_MAXULONG + 1
      · have hnone : export_attempts (step inputmethod event).inputmethod rest = 0 := by omega
        have hzero : (step inputmethod event).inputmethod.engine_serial = 0 := by
          rw [hserial, hwrap]; exact Nat.mod_self _
        obtain ⟨serials, hs1, -, hs3⟩ := ih (step inputmethod event).inputmethod (by
          rw [hzero, hnone]; omega)
        have hempty : serials = [] := by
          cases serials with
          | nil => rfl
          | cons n tail =>
            have := hs3 n (List.mem_cons_self _ _)
            omega
        subst hempty
        rcases hreturned with hr | hr
        · exact ⟨[], by simp [hr, hs1], List.Pairwise.nil, by simp⟩
        · refine ⟨[inputmethod.engine_serial], by simp [hr, hs1], List.pairwise_singleton _ _, ?_⟩
          intro n hn
          simp at hn
          omega
      · have hnext : (step inputmethod event).inputmethod.engine_serial =
            inputmethod.engine_serial + 1 := by
          rw [hserial]; exact Nat.mod_eq_of_lt (by omega)
        obtain ⟨serials, hs1, hs2, hs3⟩ := ih (step inputmethod event).inputmethod (by
          rw [hnext]; omega)
        rw [hnext] at hs3
        rcases hreturned with hr | hr
        · refine ⟨serials, by rw [hr, hs1, hpath]; rfl, hs2, ?_⟩
          intro n hn
          have := hs3 n hn
          omega
        · refine ⟨inputmethod.engine_serial :: serials, by rw [hr, hs1, hpath]; rfl, ?_, ?_⟩
          · refine List.Pairwise.cons ?_ hs2
            intro n hn
            have := hs3 n hn
            omega
          · intro n hn
            rcases List.mem_cons.1 hn with h | h
            · omega
            · have := hs3 n h
              omega

/-! ## Creation and destruction past the last `gulong` -/

theorem churned_round (serial : Nat) :
    run (churned serial)
        [Event.create_engine (test_env 1) ":1.7", Event.engine_destroy test_engine] =
      churned ((serial + 1) % (G_MAXULONG + 1)) ∧
    returned_paths (churned serial)
        [Event.create_engine (test_env 1) ":1.7", Event.engine_destroy test_engine] =
      [engine_object_path "/org/gtk/UnimportantInputMethod" serial] := by
  have hemit : emit_create_engine (test_env 1) ":1.7" = some test_engine := by decide
  have hres : resolve_connection (test_env 1) (churned serial) test_engine =
      (Except.ok 1, []) :=
    resolve_connection_cached (test_env 1) (churned serial) test_engine 1 rfl
  have hlook : g_hash_table_lookup (churned serial).clients ":1.7" =
      some { engines := [], watcher_id := 1 } := by
    simp [churned, g_hash_table_lookup]
  have hcreate := create_engine_known_client (test_env 1) (churned serial) ":1.7" test_engine 1
    [] () { engines := [], watcher_id := 1 } hemit hres rfl hlook
  have hfound : g_hash_table_lookup
      (client_set_engines (churned serial).clients ":1.7" [test_engine]) test_engine.client_id =
      some { engines := [test_engine], watcher_id := 1 } := by
    simp [churned, client_set_engines, g_hash_table_lookup, test_engine]
  constructor
  · simp only [run, step, hcreate]
    rw [engine_destroy_known _ test_engine _ hfound]
    simp [churned, test_inputmethod, g_input_method_new, client_set_engines, test_engine]
  · simp only [returned_paths, step, hcreate]
    rw [engine_destroy_known _ test_engine _ hfound]
    simp [returned_path, churned, test_inputmethod, g_input_method_new]

theorem churned_run (rounds : Nat) :
    ∀ serial, serial < G_MAXULONG + 1 →
      run (churned serial) (churn rounds) = churned ((serial + rounds) % (G_MAXULONG + 1)) := by
  induction rounds with
  | zero =>
    intro serial hlt
    simp [churn, run, Nat.mod_eq_of_lt hlt]
  | succ rounds ih =>
    intro serial hlt
    have hround := (churned_round serial).1
    simp only [run] at hround
    simp only [churn, run, hround]
    rw [ih _ (Nat.mod_lt _ (by norm_num [G_MAXULONG]))]
    congr 1
    rw [Nat.mod_add_mod]
    congr 1
    ring

theorem first_round :
    run test_inputmethod
        [Event.create_engine (test_env 1) ":1.7", Event.engine_destroy test_engine] =
      churned 1 ∧
    returned_paths test_inputmethod
        [Event.create_engine (test_env 1) ":1.7", Event.engine_destroy test_engine] =
      ["/org/gtk/UnimportantInputMethod/Engine_0"] := by
  decide

theorem wrap_events_paths :
    ∃ between : List String,
      returned_paths test_inputmethod wrap_events =
        "/org/gtk/UnimportantInputMethod/Engine_0" ::
          (between ++ ["/org/gtk/UnimportantInputMethod/Engine_0"]) := by
  have hsplit : wrap_events =
      [Event.create_engine (test_env 1) ":1.7", Event.engine_destroy test_engine] ++
        (churn G_MAXULONG ++ [Event.create_engine (test_env 1) ":1.7"]) := by
    rfl
  have hback : run (churned 1) (churn G_MAXULONG) = churned 0 := by
    rw [churned_run G_MAXULONG 1 (by norm_num [G_MAXULONG])]
    congr 1
  have hlast : returned_paths (churned 0) [Event.create_engine (test_env 1) ":1.7"] =
      ["/org/gtk/UnimportantInputMethod/Engine_0"] := by decide
  refine ⟨returned_paths (churned 1) (churn G_MAXULONG), ?_⟩
  rw [hsplit, returned_paths_append, first_round.2, first_round.1, returned_paths_append,
    hback, hlast]
  rfl

/-! ## The emission of "key-event" -/

/-- Under `key_event_accumulator`, from `FALSE`, the emission yields whether
some handler handled the event, and runs the handlers that did not handle it up
to the first that did, that one included. -/
theorem g_signal_emit_key_event (arg : Nat × Bool) (handlers : List (Nat × Bool → Bool)) :
    (g_signal_emit key_event_accumulator arg handlers false).1 =
      handlers.any (fun handler => handler arg) ∧
    (g_signal_emit key_event_accumulator arg handlers false).2 =
      (handlers.takeWhile fun handler => !handler arg).length +
        (if handlers.any (fun handler => handler arg) then 1 else 0) := by
  induction handlers with
  | nil => simp [g_signal_emit]
  | cons handler rest ih =>
    by_cases h : handler arg = true
    · simp [g_signal_emit, key_event_accumulator, h, List.takeWhile_cons]
    · have hfalse : handler arg = false := by simpa using h
      obtain ⟨ih1, ih2⟩ := ih
      refine ⟨?_, ?_⟩
      · simp [g_signal_emit, key_event_accumulator, hfalse, ih1]
      · simp only [g_signal_emit, key_event_accumulator, hfalse, Bool.false_eq_true, if_false,
          if_true, ih2, List.takeWhile_cons, Bool.not_false, List.length_cons, List.any_cons,
          Bool.false_or]
        exact Nat.add_right_comm _ _ _

/-! ## The export step of `on_handle_create_engine` -/

/-- A `CreateEngine` call whose calls include an export is a call whose factory
produced the exported engine, whose resolution gave the connection exported on
(with calls that neither export, nor connect a destroy hook, nor watch a name),
and whose path is the path of the serial found. -/
theorem create_engine_export_call (env : CreateEngineEnv) (inputmethod : GInputMethod)
    (sender : String) (engine : GInputMethodEngine) (connection : GDBusConnection)
    (path : String)
    (hcall : Call.g_input_method_engine_export engine connection path ∈
      (on_handle_create_engine env inputmethod sender).calls) :
    emit_create_engine env sender = some engine ∧
    path = engine_object_path inputmethod.dbus_object_path inputmethod.engine_serial ∧
    ∃ calls, resolve_connection env inputmethod engine = (Except.ok connection, calls) ∧
      (∀ call ∈ calls,
        (∀ e c p, call ≠ Call.g_input_method_engine_export e c p) ∧
        (∀ e, call ≠ Call.g_signal_connect_destroy e) ∧
        (∀ e, call ≠ Call.g_object_unref e) ∧
        (∀ c n, call ≠ Call.g_bus_watch_name_on_connection c n)) := by
  cases hemit : emit_create_engine env sender with
  | none => simp [create_engine_declined env inputmethod sender hemit] at hcall
  | some created =>
    cases hres : resolve_connection env inputmethod created with
    | mk outcome calls =>
      cases outcome with
      | error reply =>
        rw [create_engine_unresolved env inputmethod sender created reply calls hemit hres]
          at hcall
        obtain ⟨-, h | h | h⟩ := resolve_connection_error env inputmethod created reply calls hres
        · simp [h.2.2.2] at hcall
        · simp [h.2.2.2.2] at hcall
        · obtain ⟨address, error, -, -, -, -, hc⟩ := h
          simp [hc] at hcall
      | ok resolved =>
        have hquiet : ∀ call ∈ calls,
            (∀ e c p, call ≠ Call.g_input_method_engine_export e c p) ∧
            (∀ e, call ≠ Call.g_signal_connect_destroy e) ∧
            (∀ e, call ≠ Call.g_object_unref e) ∧
            (∀ c n, call ≠ Call.g_bus_watch_name_on_connection c n) := by
          intro call hmem
          obtain h | h | h := resolve_connection_ok env inputmethod created resolved calls hres
          · simp [h.2] at hmem
          · rw [h.2.2.2.2] at hmem
            simp at hmem
            rcases hmem with h | h | h <;> simp [h]
          · obtain ⟨address, -, -, -, -, hc⟩ := h
            rw [hc] at hmem
            simp at hmem
            simp [hmem]
        have hnot : Call.g_input_method_engine_export engine connection path ∉ calls :=
          fun hmem => (hquiet _ hmem).1 engine connection path rfl
        cases hexp : env.engine_export created resolved
            (engine_object_path inputmethod.dbus_object_path inputmethod.engine_serial) with
        | error error =>
          rw [create_engine_unexported env inputmethod sender created resolved calls error
            hemit hres hexp] at hcall
          simp [hnot] at hcall
          obtain ⟨h1, h2, h3⟩ := hcall
          subst h1 h2 h3
          exact ⟨rfl, rfl, calls, hres, hquiet⟩
        | ok done =>
          cases hlook : g_hash_table_lookup inputmethod.clients sender with
          | none =>
            rw [create_engine_new_client env inputmethod sender created resolved calls done
              hemit hres hexp hlook] at hcall
            simp [hnot] at hcall
            obtain ⟨h1, h2, h3⟩ := hcall
            subst h1 h2 h3
            exact ⟨rfl, rfl, calls, hres, hquiet⟩
          | some client =>
            rw [create_engine_known_client env inputmethod sender created resolved calls done
              client hemit hres hexp hlook] at hcall
            simp [hnot] at hcall
            obtain ⟨h1, h2, h3⟩ := hcall
            subst h1 h2 h3
            exact ⟨rfl, rfl, calls, hres, hquiet⟩

/-! ## Keys and records of the client table -/

theorem lookup_none_not_key (table : List (String × Client)) (key : String)
    (hlookup : g_hash_table_lookup table key = none) : key ∉ table.map Prod.fst := by
  induction table with
  | nil => simp
  | cons entry rest ih =>
    obtain ⟨k, v⟩ := entry
    by_cases hk : k = key
    · simp [g_hash_table_lookup, hk] at hlookup
    · simp only [g_hash_table_lookup, hk, if_false] at hlookup
      simp only [List.map_cons, List.mem_cons, not_or]
      exact ⟨fun h => hk h.symm, ih hlookup⟩

theorem lookup_some_mem (table : List (String × Client)) (key : String) (client : Client)
    (hlookup : g_hash_table_lookup table key = some client) : (key, client) ∈ table := by
  induction table with
  | nil => simp [g_hash_table_lookup] at hlookup
  | cons entry rest ih =>
    obtain ⟨k, v⟩ := entry
    by_cases hk : k = key
    · simp [g_hash_table_lookup, hk] at hlookup
      simp [hk, hlookup]
    · simp only [g_hash_table_lookup, hk, if_false] at hlookup
      exact List.mem_cons_of_mem _ (ih hlookup)

theorem mem_lookup_of_nodup (table : List (String × Client)) (key : String) (client : Client)
    (hkeys : (table.map Prod.fst).Nodup) (hmem : (key, client) ∈ table) :
    g_hash_table_lookup table key = some client := by
  induction table with
  | nil => simp at hmem
  | cons entry rest ih =>
    obtain ⟨k, v⟩ := entry
    simp only [List.map_cons, List.nodup_cons] at hkeys
    rcases List.mem_cons.1 hmem with h | h
    · simp only [Prod.mk.injEq] at h
      simp [g_hash_table_lookup, h.1, h.2]
    · have hne : k ≠ key := by
        intro hk
        apply hkeys.1
        rw [hk]
        exact List.mem_map_of_mem Prod.fst h
      simp only [g_hash_table_lookup, hne, if_false]
      exact ih hkeys.2 h

theorem keys_set_engines (table : List (String × Client)) (key : String)
    (engines : List GInputMethodEngine) :
    (client_set_engines table key engines).map Prod.fst = table.map Prod.fst := by
  induction table with
  | nil => rfl
  | cons entry rest ih =>
    obtain ⟨k, v⟩ := entry
    by_cases hk : k = key
    · simp [client_set_engines, hk]
    · simp [client_set_engines, hk, ih]

theorem mem_set_engines (table : List (String × Client)) (key : String)
    (engines : List GInputMethodEngine) (k : String) (c : Client)
    (hmem : (k, c) ∈ client_set_engines table key engines) :
    (k, c) ∈ table ∨
      (k = key ∧ c.engines = engines ∧
        ∃ old, g_hash_table_lookup table key = some old ∧ c.watcher_id = old.watcher_id) := by
  induction table with
  | nil => simp [client_set_engines] at hmem
  | cons entry rest ih =>
    obtain ⟨k0, v0⟩ := entry
    by_cases hk : k0 = key
    · simp only [client_set_engines, hk, if_true, List.mem_cons, Prod.mk.injEq] at hmem
      rcases hmem with h | h
      · right
        refine ⟨h.1, by rw [h.2], v0, by simp [g_hash_table_lookup, hk], by rw [h.2]⟩
      · left
        exact List.mem_cons_of_mem _ h
    · simp only [client_set_engines, hk, if_false, List.mem_cons] at hmem
      rcases hmem with h | h
      · left
        rw [h]
        exact List.mem_cons_self _ _
      · rcases ih h with h1 | ⟨h1, h2, old, h3, h4⟩
        · left
          exact List.mem_cons_of_mem _ h1
        · right
          exact ⟨h1, h2, old, by simp [g_hash_table_lookup, hk, h3], h4⟩

theorem steal_sublist (table : List (String × Client)) (key : String) :
    (g_hash_table_steal table key).Sublist table := by
  induction table with
  | nil => exact List.Sublist.refl _
  | cons entry rest ih =>
    obtain ⟨k, v⟩ := entry
    by_cases hk : k = key
    · simp only [g_hash_table_steal, hk, if_true]
      exact List.sublist_cons_self _ _
    · simp only [g_hash_table_steal, hk, if_false]
      exact ih.cons₂ _

theorem lookup_steal_other (table : List (String × Client)) (key other : String)
    (hne : other ≠ key) :
    g_hash_table_lookup (g_hash_table_steal table key) other =
      g_hash_table_lookup table other := by
  induction table with
  | nil => rfl
  | cons entry rest ih =>
    obtain ⟨k, v⟩ := entry
    by_cases hk : k = key
    · subst hk
      have hko : ¬k = other := fun h => hne h.symm
      simp [g_hash_table_steal, g_hash_table_lookup, hko]
    · by_cases ho : k = other
      · subst ho
        simp [g_hash_table_steal, g_hash_table_lookup, hk]
      · simp [g_hash_table_steal, g_hash_table_lookup, hk, ho, ih]

theorem lookup_steal_self (table : List (String × Client)) (key : String)
    (hkeys : (table.map Prod.fst).Nodup) :
    g_hash_table_lookup (g_hash_table_steal table key) key = none := by
  induction table with
  | nil => rfl
  | cons entry rest ih =>
    obtain ⟨k, v⟩ := entry
    simp only [List.map_cons, List.nodup_cons] at hkeys
    by_cases hk : k = key
    · subst hk
      simp only [g_hash_table_steal, if_true]
      cases hrest : g_hash_table_lookup rest k with
      | none => rfl
      | some client =>
        exact absurd (List.mem_map_of_mem Prod.fst (lookup_some_mem rest k client hrest))
          hkeys.1
    · simp only [g_hash_table_steal, g_hash_table_lookup, hk, if_false]
      exact ih hkeys.2

/-! ## Well-owned tables -/

theorem well_owned_insert (table : List (String × Client)) (key : String)
    (engine : GInputMethodEngine) (watcher_id : Nat) (hwell : well_owned table)
    (hlookup : g_hash_table_lookup table key = none) (hid : engine.client_id = key) :
    well_owned ((key, { engines := [engine], watcher_id := watcher_id }) :: table) := by
  refine ⟨?_, ?_⟩
  · simp only [List.map_cons, List.nodup_cons]
    exact ⟨lookup_none_not_key table key hlookup, hwell.1⟩
  · intro k c hmem
    rcases List.mem_cons.1 hmem with h | h
    · simp only [Prod.mk.injEq] at h
      rw [h.1, h.2]
      simp [hid]
    · exact hwell.2 k c h

theorem well_owned_set_engines (table : List (String × Client)) (key : String)
    (engines : List GInputMethodEngine) (hwell : well_owned table)
    (hnodup : engines.Nodup) (hids : ∀ engine ∈ engines, engine.client_id = key) :
    well_owned (client_set_engines table key engines) := by
  refine ⟨?_, ?_⟩
  · rw [keys_set_engines]
    exact hwell.1
  · intro k c hmem
    rcases mem_set_engines table key engines k c hmem with h | ⟨h1, h2, -⟩
    · exact hwell.2 k c h
    · rw [h1, h2]
      exact ⟨hnodup, hids⟩

theorem well_owned_steal (table : List (String × Client)) (key : String)
    (hwell : well_owned table) : well_owned (g_hash_table_steal table key) := by
  have hsub := steal_sublist table key
  refine ⟨(hsub.map Prod.fst).nodup hwell.1, ?_⟩
  intro k c hmem
  exact hwell.2 k c (hsub.subset hmem)

/-! ## What each callback does to the client table -/

/-- The resolution of the connection neither exports, nor connects a destroy
hook, nor touches a name watcher or the lock. -/
theorem resolve_connection_quiet (env : CreateEngineEnv) (inputmethod : GInputMethod)
    (engine : GInputMethodEngine) :
    ∀ call ∈ (resolve_connection env inputmethod engine).2,
      (∀ e c p, call ≠ Call.g_input_method_engine_export e c p) ∧
      (∀ e, call ≠ Call.g_signal_connect_destroy e) ∧
      (∀ c n, call ≠ Call.g_bus_watch_name_on_connection c n) ∧
      (∀ id, call ≠ Call.g_bus_unwatch_name id) ∧
      call ≠ Call.g_mutex_lock ∧ call ≠ Call.g_mutex_unlock := by
  intro call hmem
  cases hres : resolve_connection env inputmethod engine with
  | mk outcome calls =>
    rw [hres] at hmem
    simp only at hmem
    cases outcome with
    | error reply =>
      obtain ⟨-, h | h | h⟩ := resolve_connection_error env inputmethod engine reply calls hres
      · rw [h.2.2.2] at hmem
        simp at hmem
        rcases hmem with h | h <;> simp [h]
      · rw [h.2.2.2.2] at hmem
        simp at hmem
        rcases hmem with h | h | h <;> simp [h]
      · obtain ⟨address, error, -, -, -, -, hc⟩ := h
        rw [hc] at hmem
        simp at hmem
        rcases hmem with h | h <;> simp [h]
    | ok connection =>
      obtain h | h | h := resolve_connection_ok env inputmethod engine connection calls hres
      · simp [h.2] at hmem
      · rw [h.2.2.2.2] at hmem
        simp at hmem
        rcases hmem with h | h | h <;> simp [h]
      · obtain ⟨address, -, -, -, -, hc⟩ := h
        rw [hc] at hmem
        simp at hmem
        simp [hmem]

/-- What a `CreateEngine` call does to the client table: nothing, when it
returns no path; a new record with a name watcher for a caller that has none;
one more engine at the head of the caller's list, and no watcher, for a caller
that has one.  It never removes a watcher. -/
theorem create_engine_registry (env : CreateEngineEnv) (inputmethod : GInputMethod)
    (sender : String) :
    (∀ id, Call.g_bus_unwatch_name id ∉
      (on_handle_create_engine env inputmethod sender).calls) ∧
    (((on_handle_create_engine env inputmethod sender).inputmethod.clients =
          inputmethod.clients ∧
        returned_path (on_handle_create_engine env inputmethod sender) = none ∧
        ∀ bus name, Call.g_bus_watch_name_on_connection bus name ∉
          (on_handle_create_engine env inputmethod sender).calls) ∨
      (∃ engine, emit_create_engine env sender = some engine ∧
        returned_path (on_handle_create_engine env inputmethod sender) =
          some (engine_object_path inputmethod.dbus_object_path inputmethod.engine_serial) ∧
        g_hash_table_lookup inputmethod.clients sender = none ∧
        (on_handle_create_engine env inputmethod sender).inputmethod.clients =
          (sender, { engines := [engine], watcher_id := env.watcher_id }) ::
            inputmethod.clients ∧
        (on_handle_create_engine env inputmethod sender).calls.count
          (Call.g_bus_watch_name_on_connection env.invocation_connection sender) = 1) ∨
      (∃ engine client, emit_create_engine env sender = some engine ∧
        returned_path (on_handle_create_engine env inputmethod sender) =
          some (engine_object_path inputmethod.dbus_object_path inputmethod.engine_serial) ∧
        g_hash_table_lookup inputmethod.clients sender = some client ∧
        (on_handle_create_engine env inputmethod sender).inputmethod.clients =
          client_set_engines inputmethod.clients sender (engine :: client.engines) ∧
        ∀ bus name, Call.g_bus_watch_name_on_connection bus name ∉
          (on_handle_create_engine env inputmethod sender).calls)) := by
  cases hemit : emit_create_engine env sender with
  | none =>
    rw [create_engine_declined env inputmethod sender hemit]
    exact ⟨by simp, Or.inl ⟨rfl, rfl, by simp⟩⟩
  | some engine =>
    have hquiet := resolve_connection_quiet env inputmethod engine
    cases hres : resolve_connection env inputmethod engine with
    | mk outcome calls =>
      rw [hres] at hquiet
      simp only at hquiet
      have hwatch : ∀ bus name, Call.g_bus_watch_name_on_connection bus name ∉ calls :=
        fun bus name hmem => (hquiet _ hmem).2.2.1 bus name rfl
      have hunwatch : ∀ id, Call.g_bus_unwatch_name id ∉ calls :=
        fun id hmem => (hquiet _ hmem).2.2.2.1 id rfl
      cases outcome with
      | error reply =>
        rw [create_engine_unresolved env inputmethod sender engine reply calls hemit hres]
        refine ⟨by simpa using hunwatch, Or.inl ⟨rfl, ?_, by simpa using hwatch⟩⟩
        obtain ⟨-, h | h | h⟩ := resolve_connection_error env inputmethod engine reply calls hres
        · simp [returned_path, h.2.2.1]
        · simp [returned_path, h.2.2.2.1]
        · obtain ⟨address, error, -, -, -, hr, -⟩ := h
          simp [returned_path, hr]
      | ok connection =>
        cases hexp : env.engine_export engine connection
            (engine_object_path inputmethod.dbus_object_path inputmethod.engine_serial) with
        | error error =>
          rw [create_engine_unexported env inputmethod sender engine connection calls error
            hemit hres hexp]
          exact ⟨by simpa using hunwatch, Or.inl ⟨rfl, rfl, by simpa using hwatch⟩⟩
        | ok done =>
          cases hlook : g_hash_table_lookup inputmethod.clients sender with
          | none =>
            rw [create_engine_new_client env inputmethod sender engine connection calls done
              hemit hres hexp hlook]
            refine ⟨by simpa using hunwatch, Or.inr (Or.inl ⟨engine, rfl, rfl, rfl, rfl, ?_⟩)⟩
            have hzero : calls.count
                (Call.g_bus_watch_name_on_connection env.invocation_connection sender) = 0 :=
              List.count_eq_zero.2 (hwatch _ _)
            simp [List.count_cons, List.count_append, hzero]
          | some client =>
            rw [create_engine_known_client env inputmethod sender engine connection calls done
              client hemit hres hexp hlook]
            exact ⟨by simpa using hunwatch,
              Or.inr (Or.inr ⟨engine, client, rfl, rfl, rfl, rfl, by simpa using hwatch⟩)⟩

/-! ## Records persist, tables stay well owned -/

/-- The callbacks of the name ownership and `GetAddress` leave the client table
alone. -/
theorem step_other_clients (inputmethod : GInputMethod) (event : Event)
    (hcreate : ∀ env sender, event ≠ Event.create_engine env sender)
    (hdestroy : ∀ engine, event ≠ Event.engine_destroy engine)
    (hvanish : ∀ name, event ≠ Event.client_name_vanished name) :
    (step inputmethod event).inputmethod.clients = inputmethod.clients := by
  cases event with
  | activate bus owner_id =>
    cases bus with
    | none => simp [step, g_input_method_real_activate, g_application_hold]
    | some connection =>
      by_cases hactive : inputmethod.activating = true <;>
        simp [step, g_input_method_real_activate, g_application_hold, hactive]
  | name_acquired bus exported =>
    cases exported <;> simp [step, on_name_acquired, g_application_release]
  | name_lost => simp [step, on_name_lost, g_application_release]
  | get_address => simp [step, on_handle_get_address]
  | create_engine env sender => exact absurd rfl (hcreate env sender)
  | engine_destroy engine => exact absurd rfl (hdestroy engine)
  | client_name_vanished name => exact absurd rfl (hvanish name)

/-- A record of the client table is still there, with its watcher, after every
event but the vanishing of its own key. -/
theorem step_keeps_client (inputmethod : GInputMethod) (event : Event) (key : String)
    (client : Client)
    (hlookup : g_hash_table_lookup inputmethod.clients key = some client)
    (hstay : ∀ name, event = Event.client_name_vanished name → name ≠ key) :
    ∃ kept, g_hash_table_lookup (step inputmethod event).inputmethod.clients key = some kept ∧
      kept.watcher_id = client.watcher_id := by
  cases event with
  | create_engine env sender =>
    obtain ⟨-, h | h | h⟩ := create_engine_registry env inputmethod sender
    · exact ⟨client, by simp only [step]; rw [h.1]; exact hlookup, rfl⟩
    · obtain ⟨engine, -, -, hnone, hclients, -⟩ := h
      have hne : ¬sender = key := by
        intro heq
        rw [heq, hlookup] at hnone
        cases hnone
      exact ⟨client, by simp only [step]; rw [hclients]; simp [g_hash_table_lookup, hne, hlookup],
        rfl⟩
    · obtain ⟨engine, old, -, -, hsome, hclients, -⟩ := h
      by_cases heq : sender = key
      · subst heq
        rw [hlookup] at hsome
        cases hsome
        exact ⟨{ client with engines := engine :: client.engines }, by
          simp only [step]; rw [hclients]; exact lookup_set_engines _ _ _ _ hlookup, rfl⟩
      · exact ⟨client, by
          simp only [step]
          rw [hclients, lookup_set_engines_other _ _ _ _ (fun h => heq h.symm)]
          exact hlookup, rfl⟩
  | engine_destroy engine =>
    cases hlook : g_hash_table_lookup inputmethod.clients engine.client_id with
    | none =>
      exact ⟨client, by
        simp only [step, engine_destroy_unknown inputmethod engine hlook]
        exact hlookup, rfl⟩
    | some owner =>
      by_cases heq : engine.client_id = key
      · rw [heq, hlookup] at hlook
        cases hlook
        exact ⟨{ client with engines := client.engines.erase engine }, by
          simp only [step, engine_destroy_known inputmethod engine client (heq ▸ hlookup)]
          rw [heq]
          exact lookup_set_engines _ _ _ _ hlookup, rfl⟩
      · exact ⟨client, by
          simp only [step, engine_destroy_known inputmethod engine owner hlook]
          rw [lookup_set_engines_other _ _ _ _ (fun h => heq h.symm)]
          exact hlookup, rfl⟩
  | client_name_vanished name =>
    have hne : name ≠ key := hstay name rfl
    cases hlook : g_hash_table_lookup inputmethod.clients name with
    | none =>
      exact ⟨client, by
        simp only [step, client_name_vanished_unknown inputmethod name hlook]
        exact hlookup, rfl⟩
    | some gone =>
      exact ⟨client, by
        simp only [step, client_name_vanished_known inputmethod name gone hlook]
        rw [lookup_steal_other _ _ _ (fun h => hne h.symm)]
        exact hlookup, rfl⟩
  | activate bus owner_id =>
    exact ⟨client, by
      rw [step_other_clients inputmethod _ (by simp) (by simp) (by simp)]
      exact hlookup, rfl⟩
  | name_acquired bus exported =>
    exact ⟨client, by
      rw [step_other_clients inputmethod _ (by simp) (by simp) (by simp)]
      exact hlookup, rfl⟩
  | name_lost =>
    exact ⟨client, by
      rw [step_other_clients inputmethod _ (by simp) (by simp) (by simp)]
      exact hlookup, rfl⟩
  | get_address =>
    exact ⟨client, by
      rw [step_other_clients inputmethod _ (by simp) (by simp) (by simp)]
      exact hlookup, rfl⟩

theorem run_keeps_client (events : List Event) (inputmethod : GInputMethod) (key : String)
    (client : Client)
    (hlookup : g_hash_table_lookup inputmethod.clients key = some client)
    (hstay : ∀ name, Event.client_name_vanished name ∈ events → name ≠ key) :
    ∃ kept, g_hash_table_lookup (run inputmethod events).clients key = some kept ∧
      kept.watcher_id = client.watcher_id := by
  induction events generalizing inputmethod client with
  | nil => exact ⟨client, hlookup, rfl⟩
  | cons event rest ih =>
    obtain ⟨kept, hkept, hwatch⟩ := step_keeps_client inputmethod event key client hlookup
      (fun name h => hstay name (h ▸ List.mem_cons_self _ _))
    obtain ⟨last, hlast, hwatch2⟩ := ih (step inputmethod event).inputmethod kept hkept
      (fun name h => hstay name (List.mem_cons_of_mem _ h))
    exact ⟨last, hlast, hwatch2.trans hwatch⟩

/-- Destroying, one after the other, the engines a client lists, each carrying
the key of the client as its client id, leaves the client registered with an
empty list. -/
theorem destroy_all_listed (engines : List GInputMethodEngine) :
    ∀ (inputmethod : GInputMethod) (key : String) (client : Client),
      g_hash_table_lookup inputmethod.clients key = some client →
      client.engines = engines →
      (∀ engine ∈ engines, engine.client_id = key) →
      g_hash_table_lookup
          (run inputmethod (engines.map Event.engine_destroy)).clients key =
        some { client with engines := [] } := by
  induction engines with
  | nil =>
    intro inputmethod key client hlookup hlist _
    simp only [List.map_nil, run, hlookup]
    rw [← hlist]
  | cons engine rest ih =>
    intro inputmethod key client hlookup hlist hids
    have hid : engine.client_id = key := hids engine (List.mem_cons_self _ _)
    simp only [List.map_cons, run, step]
    rw [engine_destroy_known inputmethod engine client (hid ▸ hlookup)]
    have hnext := lookup_set_engines inputmethod.clients key (client.engines.erase engine)
      client hlookup
    rw [hlist, List.erase_cons_head] at hnext
    have := ih
      { inputmethod with
        use_count := inputmethod.use_count - 1
        clients :=
          client_set_engines inputmethod.clients engine.client_id
            (client.engines.erase engine) } key
      { client with engines := rest }
      (by simp only [hid, hlist, List.erase_cons_head]; exact hnext) rfl
      (fun e he => hids e (List.mem_cons_of_mem _ he))
    simpa using this

/-- Under the contract of the factory a well-owned client table stays well
owned. -/
theorem step_well_owned (inputmethod : GInputMethod) (event : Event)
    (hwell : well_owned inputmethod.clients)
    (hcontract : factory_contract inputmethod event = true) :
    well_owned (step inputmethod event).inputmethod.clients := by
  cases event with
  | create_engine env sender =>
    simp only [step]
    obtain ⟨-, h | h | h⟩ := create_engine_registry env inputmethod sender
    · rw [h.1]; exact hwell
    · obtain ⟨engine, hemit, -, hnone, hclients, -⟩ := h
      simp only [factory_contract, hemit, Bool.and_eq_true, beq_iff_eq,
        decide_eq_true_eq] at hcontract
      rw [hclients]
      exact well_owned_insert _ _ _ _ hwell hnone hcontract.1
    · obtain ⟨engine, client, hemit, -, hsome, hclients, -⟩ := h
      simp only [factory_contract, hemit, Bool.and_eq_true, beq_iff_eq,
        decide_eq_true_eq, engines_of, hsome] at hcontract
      obtain ⟨hnodup, hids⟩ := hwell.2 sender client (lookup_some_mem _ _ _ hsome)
      rw [hclients]
      apply well_owned_set_engines _ _ _ hwell
      · exact List.nodup_cons.2 ⟨hcontract.2, hnodup⟩
      · intro e he
        rcases List.mem_cons.1 he with h | h
        · rw [h]; exact hcontract.1
        · exact hids e h
  | engine_destroy engine =>
    cases hlook : g_hash_table_lookup inputmethod.clients engine.client_id with
    | none =>
      simp only [step, engine_destroy_unknown inputmethod engine hlook]
      exact hwell
    | some client =>
      simp only [step, engine_destroy_known inputmethod engine client hlook]
      obtain ⟨hnodup, hids⟩ := hwell.2 _ client (lookup_some_mem _ _ _ hlook)
      apply well_owned_set_engines _ _ _ hwell
      · exact hnodup.erase _
      · intro e he
        exact hids e (List.mem_of_mem_erase he)
  | client_name_vanished name =>
    cases hlook : g_hash_table_lookup inputmethod.clients name with
    | none =>
      simp only [step, client_name_vanished_unknown inputmethod name hlook]
      exact hwell
    | some gone =>
      simp only [step, client_name_vanished_known inputmethod name gone hlook]
      exact well_owned_steal _ _ hwell
  | activate bus owner_id =>
    rw [step_other_clients inputmethod _ (by simp) (by simp) (by simp)]
    exact hwell
  | name_acquired bus exported =>
    rw [step_other_clients inputmethod _ (by simp) (by simp) (by simp)]
    exact hwell
  | name_lost =>
    rw [step_other_clients inputmethod _ (by simp) (by simp) (by simp)]
    exact hwell
  | get_address =>
    rw [step_other_clients inputmethod _ (by simp) (by simp) (by simp)]
    exact hwell

theorem run_well_owned (events : List Event) (inputmethod : GInputMethod)
    (hwell : well_owned inputmethod.clients)
    (hcontract : factory_contract_run inputmethod events = true) :
    well_owned (run inputmethod events).clients := by
  induction events generalizing inputmethod with
  | nil => exact hwell
  | cons event rest ih =>
    simp only [factory_contract_run, Bool.and_eq_true] at hcontract
    exact ih _ (step_well_owned inputmethod event hwell hcontract.1) hcontract.2

/-- Whatever the factory does, no event makes a key occur twice in the client
table. -/
theorem step_keys_nodup (inputmethod : GInputMethod) (event : Event)
    (hkeys : (inputmethod.clients.map Prod.fst).Nodup) :
    ((step inputmethod event).inputmethod.clients.map Prod.fst).Nodup := by
  cases event with
  | create_engine env sender =>
    simp only [step]
    obtain ⟨-, h | h | h⟩ := create_engine_registry env inputmethod sender
    · rw [h.1]; exact hkeys
    · obtain ⟨engine, -, -, hnone, hclients, -⟩ := h
      rw [hclients]
      simp only [List.map_cons, List.nodup_cons]
      exact ⟨lookup_none_not_key _ _ hnone, hkeys⟩
    · obtain ⟨engine, client, -, -, -, hclients, -⟩ := h
      rw [hclients, keys_set_engines]
      exact hkeys
  | engine_destroy engine =>
    cases hlook : g_hash_table_lookup inputmethod.clients engine.client_id with
    | none =>
      simp only [step, engine_destroy_unknown inputmethod engine hlook]
      exact hkeys
    | some client =>
      simp only [step, engine_destroy_known inputmethod engine client hlook]
      rw [keys_set_engines]
      exact hkeys
  | client_name_vanished name =>
    cases hlook : g_hash_table_lookup inputmethod.clients name with
    | none =>
      simp only [step, client_name_vanished_unknown inputmethod name hlook]
      exact hkeys
    | some gone =>
      simp only [step, client_name_vanished_known inputmethod name gone hlook]
      exact ((steal_sublist _ _).map Prod.fst).nodup hkeys
  | activate bus owner_id =>
    rw [step_other_clients inputmethod _ (by simp) (by simp) (by simp)]
    exact hkeys
  | name_acquired bus exported =>
    rw [step_other_clients inputmethod _ (by simp) (by simp) (by simp)]
    exact hkeys
  | name_lost =>
    rw [step_other_clients inputmethod _ (by simp) (by simp) (by simp)]
    exact hkeys
  | get_address =>
    rw [step_other_clients inputmethod _ (by simp) (by simp) (by simp)]
    exact hkeys

theorem run_keys_nodup (events : List Event) (inputmethod : GInputMethod)
    (hkeys : (inputmethod.clients.map Prod.fst).Nodup) :
    ((run inputmethod events).clients.map Prod.fst).Nodup := by
  induction events generalizing inputmethod with
  | nil => exact hkeys
  | cons event rest ih => exact ih _ (step_keys_nodup inputmethod event hkeys)

/-! ## The builder loop of the preedit signal -/

theorem preedit_builder_eq (styling : Nat → GInputMethodStyling) (n : Nat) :
    preedit_builder styling n =
      (List.range n).map fun i => ((styling i).start, (styling i).end_, (styling i).type) := by
  induction n with
  | zero => rfl
  | succ n ih => simp [preedit_builder, ih, List.range_succ]

theorem map_range_getD (array : List GInputMethodStyling) (fallback : GInputMethodStyling)
    (f : GInputMethodStyling → Nat × Nat × Nat) :
    ((List.range array.length).map fun i => f (array.getD i fallback)) = array.map f := by
  apply List.ext_getElem
  · simp
  · intro i h1 h2
    simp only [List.length_map, List.length_range] at h1
    simp [List.getElem?_eq_getElem h1]

/-! ## The serial as a count of export attempts -/

theorem export_attempts_append (first second : List Event) (inputmethod : GInputMethod) :
    export_attempts inputmethod (first ++ second) =
      export_attempts inputmethod first + export_attempts (run inputmethod first) second := by
  induction first generalizing inputmethod with
  | nil => simp [export_attempts, run]
  | cons event rest ih =>
    show export_calls (step inputmethod event).calls +
        export_attempts (step inputmethod event).inputmethod (rest ++ second) = _
    rw [ih]
    simp only [export_attempts, run, Nat.add_assoc]

/-- The serial after a sequence of events is the serial before plus the number
of export attempts, in `gulong` arithmetic. -/
theorem run_engine_serial (events : List Event) :
    ∀ inputmethod : GInputMethod, inputmethod.engine_serial < G_MAXULONG + 1 →
      (run inputmethod events).engine_serial =
        (inputmethod.engine_serial + export_attempts inputmethod events) % (G_MAXULONG + 1) := by
  induction events with
  | nil =>
    intro inputmethod hlt
    simp [run, export_attempts, Nat.mod_eq_of_lt hlt]
  | cons event rest ih =>
    intro inputmethod hlt
    simp only [run, export_attempts]
    rcases (step_serial inputmethod event).2 with ⟨hcalls, hserial, -⟩ | ⟨hcalls, hserial, -⟩
    · rw [ih _ (by rw [hserial]; exact hlt), hserial, hcalls, Nat.zero_add]
    · rw [ih _ (by rw [hserial]; exact Nat.mod_lt _ (by norm_num [G_MAXULONG])), hserial, hcalls,
        Nat.mod_add_mod, Nat.add_assoc]

/-- A sequence of events that ends with a successful `CreateEngine` call, in
which the serial has not wrapped, and whose returned paths are the paths of the
serials 0, 1, ... in order, is a sequence in which every export attempt
succeeded: there are as many attempts as returned paths. -/
theorem consecutive_serials_no_failure (root : String) (address : Option String)
    (before : List Event) (env : CreateEngineEnv) (sender : String) (path : String)
    (hlast : (on_handle_create_engine env (run (g_input_method_new root address) before)
      sender).reply = some (Reply.object_path path))
    (hbound : export_attempts (g_input_method_new root address)
      (before ++ [Event.create_engine env sender]) ≤ G_MAXULONG + 1)
    (hserials : returned_paths (g_input_method_new root address)
        (before ++ [Event.create_engine env sender]) =
      (List.range (returned_paths (g_input_method_new root address)
        (before ++ [Event.create_engine env sender])).length).map (engine_object_path root)) :
    export_attempts (g_input_method_new root address)
        (before ++ [Event.create_engine env sender]) =
      (returned_paths (g_input_method_new root address)
        (before ++ [Event.create_engine env sender])).length := by
  have hpath : returned_path (on_handle_create_engine env
      (run (g_input_method_new root address) before) sender) = some path := by
    simp [returned_path, hlast]
  have hone : export_calls (on_handle_create_engine env
      (run (g_input_method_new root address) before) sender).calls = 1 ∧
      path = engine_object_path
        (run (g_input_method_new root address) before).dbus_object_path
        (run (g_input_method_new root address) before).engine_serial := by
    rcases create_engine_serial env (run (g_input_method_new root address) before) sender with
      h | h
    · rw [h.2.2] at hpath
      cases hpath
    · refine ⟨h.1, ?_⟩
      rcases h.2.2 with h2 | h2
      · rw [h2] at hpath
        cases hpath
      · rw [h2] at hpath
        exact (Option.some.inj hpath).symm
  have hroot : (run (g_input_method_new root address) before).dbus_object_path = root := by
    have : ∀ (events : List Event) (inputmethod : GInputMethod),
        (run inputmethod events).dbus_object_path = inputmethod.dbus_object_path := by
      intro events
      induction events with
      | nil => intro inputmethod; rfl
      | cons event rest ih =>
        intro inputmethod
        simp only [run]
        rw [ih, (step_serial inputmethod event).1]
    rw [this]
    rfl
  have hattempts : export_attempts (g_input_method_new root address)
      (before ++ [Event.create_engine env sender]) =
        export_attempts (g_input_method_new root address) before + 1 := by
    rw [export_attempts_append]
    simp [export_attempts, step, hone.1]
  have hpaths : returned_paths (g_input_method_new root address)
      (before ++ [Event.create_engine env sender]) =
        returned_paths (g_input_method_new root address) before ++ [path] := by
    rw [returned_paths_append]
    simp [returned_paths, step, hpath]
  have hserial : (run (g_input_method_new root address) before).engine_serial =
      export_attempts (g_input_method_new root address) before := by
    rw [run_engine_serial before _ (by simp [g_input_method_new])]
    have hzero : (g_input_method_new root address).engine_serial = 0 := rfl
    rw [hzero, Nat.zero_add]
    apply Nat.mod_eq_of_lt
    rw [hattempts] at hbound
    omega
  rw [hpaths] at hserials ⊢
  rw [hattempts]
  simp only [List.length_append, List.length_singleton, List.range_succ, List.map_append,
    List.map_cons, List.map_nil] at hserials ⊢
  have hlen : (returned_paths (g_input_method_new root address) before).length =
      ((List.range (returned_paths (g_input_method_new root address) before).length).map
        (engine_object_path root)).length := by simp
  have htail := (List.append_inj hserials hlen).2
  simp only [List.cons.injEq, and_true] at htail
  rw [hone.2, hroot, hserial] at htail
  have := engine_object_path_injective root htail
  omega

/-! ## Failed exports past the last `gulong` -/

theorem listed_stall (serial : Nat) :
    on_handle_create_engine failing_export_env (listed serial) ":1.7" =
      { inputmethod := listed ((serial + 1) % (G_MAXULONG + 1))
        reply :=
          some (Reply.return_gerror
            { message := "An object is already exported at this path" })
        calls :=
          [Call.before_emit, Call.after_emit,
           Call.g_input_method_engine_export test_engine 1
             (engine_object_path "/org/gtk/UnimportantInputMethod" serial),
           Call.g_object_unref test_engine] } := by
  have hemit : emit_create_engine failing_export_env ":1.7" = some test_engine := by decide
  have hres : resolve_connection failing_export_env (listed serial) test_engine =
      (Except.ok 1, []) :=
    resolve_connection_cached failing_export_env (listed serial) test_engine 1 rfl
  rw [create_engine_unexported failing_export_env (listed serial) ":1.7" test_engine 1 []
    { message := "An object is already exported at this path" } hemit hres rfl]
  simp [listed, test_inputmethod, g_input_method_new]

theorem stalled_run (rounds : Nat) :
    ∀ serial, serial < G_MAXULONG + 1 →
      run (listed serial) (stalled rounds) =
        listed ((serial + rounds) % (G_MAXULONG + 1)) ∧
      returned_paths (listed serial) (stalled rounds) = [] ∧
      export_attempts (listed serial) (stalled rounds) = rounds := by
  induction rounds with
  | zero =>
    intro serial hlt
    simp [stalled, run, returned_paths, export_attempts, Nat.mod_eq_of_lt hlt]
  | succ rounds ih =>
    intro serial hlt
    obtain ⟨h1, h2, h3⟩ := ih ((serial + 1) % (G_MAXULONG + 1))
      (Nat.mod_lt _ (by norm_num [G_MAXULONG]))
    simp only [stalled, run, returned_paths, export_attempts, step, listed_stall, h1, h2, h3]
    refine ⟨?_, ?_, ?_⟩
    · congr 1
      rw [Nat.mod_add_mod]
      congr 1
      ring
    · simp [returned_path]
    · simp [export_calls]
      ring

theorem wrap_failures_outcome :
    returned_paths test_inputmethod wrap_failures =
      ["/org/gtk/UnimportantInputMethod/Engine_0",
       "/org/gtk/UnimportantInputMethod/Engine_1"] ∧
    export_attempts test_inputmethod wrap_failures = G_MAXULONG + 1 + 2 := by
  have hsplit : wrap_failures =
      [Event.create_engine (test_env 1) ":1.7"] ++
        (stalled (G_MAXULONG + 1) ++ [Event.create_engine (test_env 2) ":1.7"]) := rfl
  have hfirst : run test_inputmethod [Event.create_engine (test_env 1) ":1.7"] = listed 1 := by
    decide
  have hpath : returned_paths test_inputmethod [Event.create_engine (test_env 1) ":1.7"] =
      ["/org/gtk/UnimportantInputMethod/Engine_0"] := by decide
  have hcalls : export_attempts test_inputmethod [Event.create_engine (test_env 1) ":1.7"] =
      1 := by decide
  obtain ⟨h1, h2, h3⟩ := stalled_run (G_MAXULONG + 1) 1 (by norm_num [G_MAXULONG])
  have hback : (1 + (G_MAXULONG + 1)) % (G_MAXULONG + 1) = 1 := by norm_num [G_MAXULONG]
  rw [hback] at h1
  have hlast : returned_paths (listed 1) [Event.create_engine (test_env 2) ":1.7"] =
      ["/org/gtk/UnimportantInputMethod/Engine_1"] := by decide
  have hlast2 : export_attempts (listed 1) [Event.create_engine (test_env 2) ":1.7"] = 1 := by
    decide
  constructor
  · rw [hsplit, returned_paths_append, hpath, hfirst, returned_paths_append, h1, h2, hlast]
    rfl
  · rw [hsplit, export_attempts_append, hcalls, hfirst, export_attempts_append, h1, h3, hlast2]
    ring

/-! ## The lock around the client table -/

/-- The callback `on_client_name_vanished` never takes or releases the lock. -/
theorem client_name_vanished_never_locks (inputmethod : GInputMethod) (name : String) :
    Call.g_mutex_lock ∉ (on_client_name_vanished inputmethod name).calls ∧
    Call.g_mutex_unlock ∉ (on_client_name_vanished inputmethod name).calls := by
  cases hlook : g_hash_table_lookup inputmethod.clients name with
  | none => simp [client_name_vanished_unknown inputmethod name hlook]
  | some client => simp [client_name_vanished_known inputmethod name client hlook]

/-! ## The first returned path -/

/-- No event changes the application object path. -/
theorem run_dbus_object_path (events : List Event) :
    ∀ inputmethod : GInputMethod,
      (run inputmethod events).dbus_object_path = inputmethod.dbus_object_path := by
  induction events with
  | nil => intro inputmethod; rfl
  | cons event rest ih =>
    intro inputmethod
    simp only [run]
    rw [ih, (step_serial inputmethod event).1]

/-- A sequence of events without an export attempt returns no path. -/
theorem no_attempt_no_path (events : List Event) :
    ∀ inputmethod : GInputMethod, export_attempts inputmethod events = 0 →
      returned_paths inputmethod events = [] := by
  induction events with
  | nil => intro inputmethod _; rfl
  | cons event rest ih =>
    intro inputmethod hzero
    simp only [export_attempts, Nat.add_eq_zero] at hzero
    simp only [returned_paths]
    rcases (step_serial inputmethod event).2 with ⟨-, -, hnone⟩ | ⟨hone, -, -⟩
    · rw [hnone, ih _ hzero.2]
      rfl
    · rw [hone] at hzero
      exact absurd hzero.1 (by decide)

/-! ## The listings of one engine -/

/-- What an event does to the engine list of the client registered under a
key: nothing; or it is a `CreateEngine` call of that key and puts the engine of
the factory at the head; or it is the "destroy" signal of an engine built with
that key and takes the first listing of that engine out; or it is the
vanishing of the key. -/
theorem step_engines_of (inputmethod : GInputMethod) (event : Event) (key : String) :
    engines_of (step inputmethod event).inputmethod key = engines_of inputmethod key ∨
    (∃ env engine, event = Event.create_engine env key ∧
      emit_create_engine env key = some engine ∧
      engines_of (step inputmethod event).inputmethod key =
        engine :: engines_of inputmethod key) ∨
    (∃ engine, event = Event.engine_destroy engine ∧ engine.client_id = key ∧
      engines_of (step inputmethod event).inputmethod key =
        (engines_of inputmethod key).erase engine) ∨
    event = Event.client_name_vanished key := by
  cases event with
  | create_engine env sender =>
    obtain ⟨-, h | h | h⟩ := create_engine_registry env inputmethod sender
    · left
      simp only [step, engines_of]
      rw [h.1]
    · obtain ⟨engine, hemit, -, hnone, hclients, -⟩ := h
      by_cases heq : sender = key
      · subst heq
        right; left
        refine ⟨env, engine, rfl, hemit, ?_⟩
        simp only [step, engines_of]
        rw [hclients, hnone]
        simp [g_hash_table_lookup]
      · left
        simp only [step, engines_of]
        rw [hclients]
        simp [g_hash_table_lookup, heq]
    · obtain ⟨engine, client, hemit, -, hsome, hclients, -⟩ := h
      by_cases heq : sender = key
      · subst heq
        right; left
        refine ⟨env, engine, rfl, hemit, ?_⟩
        simp only [step, engines_of]
        rw [hclients, lookup_set_engines _ _ _ _ hsome, hsome]
      · left
        simp only [step, engines_of]
        rw [hclients, lookup_set_engines_other _ _ _ _ (fun h => heq h.symm)]
  | engine_destroy engine =>
    cases hlook : g_hash_table_lookup inputmethod.clients engine.client_id with
    | none =>
      left
      simp only [step, engine_destroy_unknown inputmethod engine hlook]
    | some owner =>
      by_cases heq : engine.client_id = key
      · right; right; left
        refine ⟨engine, rfl, heq, ?_⟩
        simp only [step, engine_destroy_known inputmethod engine owner hlook, engines_of]
        rw [← heq, lookup_set_engines _ _ _ _ hlook, hlook]
      · left
        simp only [step, engine_destroy_known inputmethod engine owner hlook, engines_of]
        rw [lookup_set_engines_other _ _ _ _ (fun h => heq h.symm)]
  | client_name_vanished name =>
    by_cases heq : name = key
    · right; right; right
      rw [heq]
    · left
      cases hlook : g_hash_table_lookup inputmethod.clients name with
      | none => simp only [step, client_name_vanished_unknown inputmethod name hlook]
      | some gone =>
        simp only [step, client_name_vanished_known inputmethod name gone hlook, engines_of]
        rw [lookup_steal_other _ _ _ (fun h => heq h.symm)]
  | activate bus owner_id =>
    left
    simp only [engines_of]
    rw [step_other_clients inputmethod _ (by simp) (by simp) (by simp)]
  | name_acquired bus exported =>
    left
    simp only [engines_of]
    rw [step_other_clients inputmethod _ (by simp) (by simp) (by simp)]
  | name_lost =>
    left
    simp only [engines_of]
    rw [step_other_clients inputmethod _ (by simp) (by simp) (by simp)]
  | get_address =>
    left
    simp only [engines_of]
    rw [step_other_clients inputmethod _ (by simp) (by simp) (by simp)]

/-- An event that cannot list an engine again does not raise the number of its
listings. -/
theorem step_listings_le (inputmethod : GInputMethod) (event : Event)
    (engine : GInputMethodEngine) (hevent : not_listing engine event = true) :
    listings (step inputmethod event).inputmethod engine ≤ listings inputmethod engine := by
  simp only [listings]
  rcases step_engines_of inputmethod event engine.client_id with
    h | ⟨env, made, hcreate, hemit, h⟩ | ⟨destroyed, -, -, h⟩ | hvanish
  · rw [h]
  · rw [hcreate] at hevent
    have hne : made ≠ engine := by
      intro heq
      rw [heq] at hemit
      simp [not_listing, hemit] at hevent
    rw [h, List.count_cons_of_ne (fun heq => hne heq.symm)]
  · rw [h]
    exact (List.erase_sublist _ _).count_le _
  · rw [hvanish] at hevent
    simp [not_listing] at hevent

/-- An event that leaves an engine alone keeps the number of its listings. -/
theorem step_listings_eq (inputmethod : GInputMethod) (event : Event)
    (engine : GInputMethodEngine) (hevent : leaves_alone engine event = true) :
    listings (step inputmethod event).inputmethod engine = listings inputmethod engine := by
  simp only [listings]
  rcases step_engines_of inputmethod event engine.client_id with
    h | ⟨env, made, hcreate, hemit, h⟩ | ⟨destroyed, hdestroy, -, h⟩ | hvanish
  · rw [h]
  · rw [hcreate] at hevent
    have hne : made ≠ engine := by
      intro heq
      rw [heq] at hemit
      simp [leaves_alone, not_listing, hemit] at hevent
    rw [h, List.count_cons_of_ne (fun heq => hne heq.symm)]
  · rw [hdestroy] at hevent
    have hne : destroyed ≠ engine := by
      simpa [leaves_alone] using hevent
    rw [h, List.count_erase_of_ne (fun heq => hne heq.symm)]
  · rw [hvanish] at hevent
    simp [leaves_alone, not_listing] at hevent

theorem run_listings_le (events : List Event) (engine : GInputMethodEngine) :
    ∀ inputmethod : GInputMethod, (∀ event ∈ events, not_listing engine event = true) →
      listings (run inputmethod events) engine ≤ listings inputmethod engine := by
  induction events with
  | nil => intro inputmethod _; exact Nat.le_refl _
  | cons event rest ih =>
    intro inputmethod hall
    simp only [run]
    exact Nat.le_trans (ih _ (fun later hmem => hall later (List.mem_cons_of_mem _ hmem)))
      (step_listings_le inputmethod event engine (hall event (List.mem_cons_self _ _)))

theorem run_listings_eq (events : List Event) (engine : GInputMethodEngine) :
    ∀ inputmethod : GInputMethod, (∀ event ∈ events, leaves_alone engine event = true) →
      listings (run inputmethod events) engine = listings inputmethod engine := by
  induction events with
  | nil => intro inputmethod _; rfl
  | cons event rest ih =>
    intro inputmethod hall
    simp only [run]
    rw [ih _ (fun later hmem => hall later (List.mem_cons_of_mem _ hmem)),
      step_listings_eq inputmethod event engine (hall event (List.mem_cons_self _ _))]

/-- The vanishing of a name releases one hold per engine its client lists, and
drops every one of them once. -/
theorem client_name_vanished_releases (inputmethod : GInputMethod) (name : String)
    (engine : GInputMethodEngine) :
    (on_client_name_vanished inputmethod name).inputmethod.use_count =
      inputmethod.use_count - (engines_of inputmethod name).length ∧
    (on_client_name_vanished inputmethod name).calls.count (Call.g_object_unref engine) =
      (engines_of inputmethod name).count engine := by
  cases hlook : g_hash_table_lookup inputmethod.clients name with
  | none =>
    rw [client_name_vanished_unknown inputmethod name hlook]
    simp [engines_of, hlook]
  | some client =>
    rw [client_name_vanished_known inputmethod name client hlook]
    simp only [engines_of, hlook, true_and]
    rw [List.count_cons_of_ne (by simp)]
    exact List.count_map_of_injective _ _ (fun a b h => by cases h; rfl) _

/-- C1, as amended. For every sequence of events on a fresh service in which at
most 2^64 `CreateEngine` calls reach the export step (the `gulong` serial has
not wrapped), the paths returned by the successful `CreateEngine` calls are, in
call order, the paths of a strictly increasing list of serials, and they are
pairwise distinct, whatever was destroyed or vanished in between. -/
theorem paths_increase_until_wrap (root : String) (address : Option String)
    (events : List Event)
    (hbound : export_attempts (g_input_method_new root address) events ≤ G_MAXULONG + 1) :
    (∃ serials : List Nat,
      returned_paths (g_input_method_new root address) events =
        serials.map (engine_object_path root) ∧
      serials.Pairwise (fun a b => a < b)) ∧
    (returned_paths (g_input_method_new root address) events).Nodup := by
  obtain ⟨serials, hs1, hs2, -⟩ :=
    returned_paths_serials events (g_input_method_new root address) (by
      simpa [g_input_method_new] using hbound)
  refine ⟨⟨serials, hs1, hs2⟩, ?_⟩
  rw [hs1]
  exact List.Nodup.map (engine_object_path_injective _) (hs2.imp (fun h => Nat.ne_of_lt h))

/-- C1, witness: two callers create one engine each on the test service. -/
theorem paths_increase_until_wrap_witness :
    (returned_paths test_inputmethod
      [Event.create_engine (test_env 1) ":1.7",
       Event.create_engine (test_env 2) ":1.8"]).Nodup :=
  (paths_increase_until_wrap "/org/gtk/UnimportantInputMethod" none
    [Event.create_engine (test_env 1) ":1.7", Event.create_engine (test_env 2) ":1.8"]
    (by decide)).2

/-- C1, counterexample: on the test service the caller ":1.7" creates an engine
and destroys it 2^64 times over, and then creates one more.  The first call
returns the path of serial 0, and so does the last: the serial has wrapped, the
path is used again, and the returned paths are not pairwise distinct. -/
theorem wrapped_serial_reuses_path :
    (∃ between : List String,
      returned_paths test_inputmethod wrap_events =
        "/org/gtk/UnimportantInputMethod/Engine_0" ::
          (between ++ ["/org/gtk/UnimportantInputMethod/Engine_0"])) ∧
    ¬ (returned_paths test_inputmethod wrap_events).Nodup := by
  obtain ⟨between, hpaths⟩ := wrap_events_paths
  refine ⟨⟨between, hpaths⟩, ?_⟩
  rw [hpaths]
  simp

/-- C2, as amended. A successful `CreateEngine` returns exactly the application
object path followed by "/Engine_" and the decimal digits of the value the
engine serial has when the call is made, and the application object path
followed by "/" is a prefix of it.  On a service that was fresh and has since
seen any sequence of events, that value is the number of earlier calls that
reached the export step (in `gulong` arithmetic), whether their export
succeeded or failed; so when no earlier call reached the export step, no path
was returned before and the path is the root followed by "/Engine_0". -/
theorem create_engine_returns_serial_path (env : CreateEngineEnv)
    (inputmethod : GInputMethod) (sender : String) (path : String)
    (hreply : (on_handle_create_engine env inputmethod sender).reply =
      some (Reply.object_path path)) :
    path = inputmethod.dbus_object_path ++ "/Engine_" ++ format_lu inputmethod.engine_serial ∧
    (inputmethod.dbus_object_path ++ "/").data <+: path.data ∧
    (∀ (root : String) (address : Option String) (before : List Event),
      inputmethod = run (g_input_method_new root address) before →
        path = root ++ "/Engine_" ++
          format_lu (export_attempts (g_input_method_new root address) before %
            (G_MAXULONG + 1)) ∧
        (export_attempts (g_input_method_new root address) before = 0 →
          returned_paths (g_input_method_new root address) before = [] ∧
          path = root ++ "/Engine_0")) := by
  have hpath : path =
      inputmethod.dbus_object_path ++ "/Engine_" ++ format_lu inputmethod.engine_serial :=
    (create_engine_reply_path env inputmethod sender path hreply).1
  refine ⟨hpath, ?_, ?_⟩
  · rw [hpath]
    exact ⟨("Engine_" ++ format_lu inputmethod.engine_serial).data, by simp [String.data_append]⟩
  · intro root address before hrun
    have hroot : inputmethod.dbus_object_path = root := by
      rw [hrun, run_dbus_object_path]
      rfl
    have hserial : inputmethod.engine_serial =
        export_attempts (g_input_method_new root address) before % (G_MAXULONG + 1) := by
      rw [hrun, run_engine_serial before (g_input_method_new root address)
        (by simp [g_input_method_new])]
      simp [g_input_method_new]
    have hgeneral : path = root ++ "/Engine_" ++
        format_lu (export_attempts (g_input_method_new root address) before %
          (G_MAXULONG + 1)) := by
      rw [hpath, hroot, hserial]
    refine ⟨hgeneral, ?_⟩
    intro hnone
    refine ⟨no_attempt_no_path before _ hnone, ?_⟩
    have hzero : format_lu (0 % (G_MAXULONG + 1)) = "0" := by decide
    have hjoin : "/Engine_" ++ "0" = "/Engine_0" := by decide
    rw [hgeneral, hnone, hzero, String.append_assoc, hjoin]

/-- C2, witness: the test service is activated, acquires its name, and a
factory declines one call; the next call, the first to reach the export step,
returns the path of the serial 0. -/
theorem create_engine_returns_serial_path_witness :
    (on_handle_create_engine (test_env 1)
      (run (g_input_method_new "/org/gtk/UnimportantInputMethod" none)
        [Event.activate (some 1) 1, Event.name_acquired 1 (Except.ok ()),
         Event.create_engine declining_env ":1.7"]) ":1.7").reply =
      some (Reply.object_path "/org/gtk/UnimportantInputMethod/Engine_0") ∧
    export_attempts (g_input_method_new "/org/gtk/UnimportantInputMethod" none)
      [Event.activate (some 1) 1, Event.name_acquired 1 (Except.ok ()),
       Event.create_engine declining_env ":1.7"] = 0 ∧
    "/org/gtk/UnimportantInputMethod/Engine_0" =
      "/org/gtk/UnimportantInputMethod" ++ "/Engine_0" :=
  ⟨by decide, by decide,
    (((create_engine_returns_serial_path (test_env 1)
      (run (g_input_method_new "/org/gtk/UnimportantInputMethod" none)
        [Event.activate (some 1) 1, Event.name_acquired 1 (Except.ok ()),
         Event.create_engine declining_env ":1.7"]) ":1.7"
      "/org/gtk/UnimportantInputMethod/Engine_0" (by decide)).2.2
      "/org/gtk/UnimportantInputMethod" none
      [Event.activate (some 1) 1, Event.name_acquired 1 (Except.ok ()),
       Event.create_engine declining_env ":1.7"] rfl).2 (by decide)).2⟩

/-- C2, counterexample: on the fresh test service the export of the first
`CreateEngine` call fails and the second call succeeds.  The first, and only,
path the service returns is the one of the serial 1, not "/Engine_0": the
failed call used up the serial 0. -/
theorem first_path_after_failed_export :
    returned_paths (g_input_method_new "/org/gtk/UnimportantInputMethod" none)
      [Event.create_engine failing_export_env ":1.7",
       Event.create_engine (test_env 1) ":1.7"] =
      ["/org/gtk/UnimportantInputMethod/Engine_1"] ∧
    returned_path (on_handle_create_engine failing_export_env
      (g_input_method_new "/org/gtk/UnimportantInputMethod" none) ":1.7") = none ∧
    (on_handle_create_engine (test_env 1)
      (run (g_input_method_new "/org/gtk/UnimportantInputMethod" none)
        [Event.create_engine failing_export_env ":1.7"]) ":1.7").reply =
      some (Reply.object_path "/org/gtk/UnimportantInputMethod/Engine_1") := by
  decide

/-- C3, as amended. In every state reached from a fresh service by a sequence
of events that arrive in order ("activate" only with a bus connection and while
the name is not owned, name-acquired only with a successful export of the root
object, name-lost only while the name is owned, "destroy" only for an engine
that the client registered under the engine's client id lists; `CreateEngine`
calls and client-vanish events are free), the use count equals one if the bus
name is owned, else zero, plus the number of engines the clients list. -/
theorem orderly_hold_count (root : String) (address : Option String) (events : List Event)
    (horderly : orderly_run (g_input_method_new root address) events = true) :
    (run (g_input_method_new root address) events).use_count =
      (owned (run (g_input_method_new root address) events) +
        live_engines (run (g_input_method_new root address) events) : Nat) :=
  orderly_run_invariant events (g_input_method_new root address)
    (by simp [g_input_method_new, owned, live_engines, listed_engines])
    (by simp [g_input_method_new]) horderly

/-- C3, witness: the test service is activated, acquires its name, serves one
`CreateEngine` call, sees the engine destroyed and its client vanish, and loses
the name. -/
theorem orderly_hold_count_witness :
    (run test_inputmethod
      [Event.activate (some 1) 1, Event.name_acquired 1 (Except.ok ()),
       Event.create_engine (test_env 1) ":1.7", Event.engine_destroy test_engine,
       Event.client_name_vanished ":1.7", Event.name_lost]).use_count =
      (owned (run test_inputmethod
        [Event.activate (some 1) 1, Event.name_acquired 1 (Except.ok ()),
         Event.create_engine (test_env 1) ":1.7", Event.engine_destroy test_engine,
         Event.client_name_vanished ":1.7", Event.name_lost]) +
       live_engines (run test_inputmethod
        [Event.activate (some 1) 1, Event.name_acquired 1 (Except.ok ()),
         Event.create_engine (test_env 1) ":1.7", Event.engine_destroy test_engine,
         Event.client_name_vanished ":1.7", Event.name_lost]) : Nat) :=
  orderly_hold_count "/org/gtk/UnimportantInputMethod" none
    [Event.activate (some 1) 1, Event.name_acquired 1 (Except.ok ()),
     Event.create_engine (test_env 1) ":1.7", Event.engine_destroy test_engine,
     Event.client_name_vanished ":1.7", Event.name_lost] (by decide)

/-- C3, counterexample: two "activate" signals in a row on the fresh test
service take two holds, while the name is owned once and no engine is listed:
the use count is 2, not 1 + 0. -/
theorem double_activation_hold_count :
    (run test_inputmethod [Event.activate (some 1) 1, Event.activate (some 1) 2]).use_count
        = 2 ∧
    owned (run test_inputmethod [Event.activate (some 1) 1, Event.activate (some 1) 2]) = 1 ∧
    live_engines
        (run test_inputmethod [Event.activate (some 1) 1, Event.activate (some 1) 2]) = 0 ∧
    ¬ (run test_inputmethod [Event.activate (some 1) 1, Event.activate (some 1) 2]).use_count =
      (owned (run test_inputmethod [Event.activate (some 1) 1, Event.activate (some 1) 2]) +
        live_engines
          (run test_inputmethod [Event.activate (some 1) 1, Event.activate (some 1) 2]) :
        Nat) := by
  decide

/-- C4. From a fresh service, after one "activate" with a bus connection
available, a name-acquired callback whose export of the root object succeeds,
and then any `CreateEngine` calls (no destruction, no vanished client), the use
count equals N + 1, where N is the number of those calls that succeeded (that
returned a path). -/
theorem hold_count_after_creations (root : String) (address : Option String)
    (bus acquired_on : GDBusConnection) (owner_id : Nat) (done : Unit)
    (calls : List (CreateEngineEnv × String)) :
    (run (g_input_method_new root address)
      (Event.activate (some bus) owner_id :: Event.name_acquired acquired_on (Except.ok done) ::
        calls.map fun call => Event.create_engine call.1 call.2)).use_count =
      ((returned_paths (g_input_method_new root address)
        (Event.activate (some bus) owner_id ::
          Event.name_acquired acquired_on (Except.ok done) ::
          calls.map fun call => Event.create_engine call.1 call.2)).length : Int) + 1 := by
  simp only [run, returned_paths, step]
  rw [creations_hold_count]
  simp [g_input_method_real_activate, on_name_acquired, g_application_hold,
    g_input_method_new, returned_path]
  ring

/-- C5, as amended. For every successfully created engine that the factory
built with the caller's identity as its client id, whatever events come between
the creation and the destroy (events that leave the engine alone) and between
the destroy and the vanishing of the caller (events that do not list the engine
again): the creation puts the engine at the head of the caller's list; at the
time of the destroy the engine is listed once more often than before the
creation; the destroy releases exactly one hold, takes the first listing of
that very engine out of the caller's list, wherever in the list it stands, and
leaves the records of all other identities as they are; the vanishing of the
caller releases exactly one hold per engine the caller still lists and drops
each listed engine once, the destroyed engine no more often than it was listed
before its creation.  So for a new engine object, one the caller did not list
yet, the destroy takes it off the list for good and the vanishing releases no
hold for it. -/
theorem destroy_then_vanish_releases_once (env : CreateEngineEnv)
    (inputmethod : GInputMethod) (sender : String) (engine : GInputMethodEngine)
    (path : String) (middle later : List Event)
    (created before_destroy destroyed before_vanish : GInputMethod)
    (hengine : emit_create_engine env sender = some engine)
    (hid : engine.client_id = sender)
    (hreply : (on_handle_create_engine env inputmethod sender).reply =
      some (Reply.object_path path))
    (hcreated : created = (on_handle_create_engine env inputmethod sender).inputmethod)
    (hmiddle : ∀ event ∈ middle, leaves_alone engine event = true)
    (hbefore_destroy : before_destroy = run created middle)
    (hdestroyed : destroyed = (on_engine_destroy before_destroy engine).inputmethod)
    (hlater : ∀ event ∈ later, not_listing engine event = true)
    (hbefore_vanish : before_vanish = run destroyed later) :
    engines_of created sender = engine :: engines_of inputmethod sender ∧
    listings before_destroy engine = listings inputmethod engine + 1 ∧
    destroyed.use_count = before_destroy.use_count - 1 ∧
    engines_of destroyed sender = (engines_of before_destroy sender).erase engine ∧
    listings destroyed engine = listings inputmethod engine ∧
    (∀ other, other ≠ sender →
      g_hash_table_lookup destroyed.clients other =
        g_hash_table_lookup before_destroy.clients other) ∧
    (on_client_name_vanished before_vanish sender).inputmethod.use_count =
      before_vanish.use_count - (engines_of before_vanish sender).length ∧
    (on_client_name_vanished before_vanish sender).calls.count (Call.g_object_unref engine) =
      listings before_vanish engine ∧
    listings before_vanish engine ≤ listings inputmethod engine ∧
    (engine ∉ engines_of inputmethod sender →
      engine ∉ engines_of destroyed sender ∧
      engine ∉ engines_of before_vanish sender ∧
      Call.g_object_unref engine ∉ (on_client_name_vanished before_vanish sender).calls) := by
  subst hid
  have hpath : returned_path (on_handle_create_engine env inputmethod engine.client_id) =
      some path := by
    simp [returned_path, hreply]
  have hhead : engines_of created engine.client_id =
      engine :: engines_of inputmethod engine.client_id := by
    rw [hcreated]
    obtain ⟨-, h | h | h⟩ := create_engine_registry env inputmethod engine.client_id
    · rw [h.2.1] at hpath
      cases hpath
    · obtain ⟨made, hemit, -, hnone, hclients, -⟩ := h
      rw [hengine] at hemit
      cases hemit
      simp only [engines_of]
      rw [hclients, hnone]
      simp [g_hash_table_lookup]
    · obtain ⟨made, client, hemit, -, hsome, hclients, -⟩ := h
      rw [hengine] at hemit
      cases hemit
      simp only [engines_of]
      rw [hclients, lookup_set_engines _ _ _ _ hsome, hsome]
  have hlisted : listings before_destroy engine = listings inputmethod engine + 1 := by
    rw [hbefore_destroy, run_listings_eq middle engine created hmiddle]
    simp only [listings]
    rw [hhead, List.count_cons_self]
  obtain ⟨client, hclient⟩ : ∃ client,
      g_hash_table_lookup before_destroy.clients engine.client_id = some client := by
    cases hlook : g_hash_table_lookup before_destroy.clients engine.client_id with
    | some client => exact ⟨client, rfl⟩
    | none =>
      simp only [listings, engines_of, hlook, List.count_nil] at hlisted
      exact absurd hlisted (Nat.succ_ne_zero _).symm
  have hbefore : engines_of before_destroy engine.client_id = client.engines := by
    simp only [engines_of, hclient]
  have hdestroy := engine_destroy_known before_destroy engine client hclient
  have herased : engines_of destroyed engine.client_id =
      (engines_of before_destroy engine.client_id).erase engine := by
    rw [hdestroyed, hdestroy, hbefore]
    simp only [engines_of]
    rw [lookup_set_engines _ _ _ _ hclient]
  have hafter : listings destroyed engine = listings inputmethod engine := by
    have hcount := hlisted
    simp only [listings] at hcount ⊢
    rw [herased, List.count_erase_self, hcount]
    rfl
  have hremains : listings before_vanish engine ≤ listings inputmethod engine := by
    rw [hbefore_vanish, ← hafter]
    exact run_listings_le later engine destroyed hlater
  have hvanish := client_name_vanished_releases before_vanish engine.client_id engine
  refine ⟨hhead, hlisted, ?_, herased, hafter, ?_, hvanish.1, hvanish.2, hremains, ?_⟩
  · rw [hdestroyed, hdestroy]
  · intro other hother
    rw [hdestroyed, hdestroy]
    exact lookup_set_engines_other _ _ _ _ hother
  · intro hnew
    have hzero : listings inputmethod engine = 0 := List.count_eq_zero.mpr hnew
    refine ⟨?_, ?_, ?_⟩
    · exact List.count_eq_zero.mp (by rw [← hzero]; exact hafter)
    · exact List.count_eq_zero.mp (Nat.le_zero.mp (by rw [← hzero]; exact hremains))
    · apply List.count_eq_zero.mp
      rw [hvanish.2]
      exact Nat.le_zero.mp (by rw [← hzero]; exact hremains)

/-- C5, witness: on the test service the caller ":1.7" creates the engine of
the test handler, whose client id is ":1.7", and then a second engine, which
becomes the head of its list; the service is activated; the first engine is
destroyed, which leaves the second one listed; another caller creates an
engine; ":1.7" vanishes, which releases the one hold of the second engine. -/
theorem destroy_then_vanish_releases_once_witness :
    engines_of
      (run (on_handle_create_engine (test_env 1) test_inputmethod ":1.7").inputmethod
        [Event.create_engine (test_env 2) ":1.7", Event.activate (some 1) 1]) ":1.7" =
      [{ addr := 2, client_id := ":1.7" }, test_engine] ∧
    engines_of
      (on_engine_destroy
        (run (on_handle_create_engine (test_env 1) test_inputmethod ":1.7").inputmethod
          [Event.create_engine (test_env 2) ":1.7", Event.activate (some 1) 1])
        test_engine).inputmethod ":1.7" =
      [{ addr := 2, client_id := ":1.7" }] ∧
    engines_of
      (on_engine_destroy
        (run (on_handle_create_engine (test_env 1) test_inputmethod ":1.7").inputmethod
          [Event.create_engine (test_env 2) ":1.7", Event.activate (some 1) 1])
        test_engine).inputmethod ":1.7" =
      (engines_of
        (run (on_handle_create_engine (test_env 1) test_inputmethod ":1.7").inputmethod
          [Event.create_engine (test_env 2) ":1.7", Event.activate (some 1) 1])
        ":1.7").erase test_engine ∧
    Call.g_object_unref test_engine ∉
      (on_client_name_vanished
        (run
          (on_engine_destroy
            (run (on_handle_create_engine (test_env 1) test_inputmethod ":1.7").inputmethod
              [Event.create_engine (test_env 2) ":1.7", Event.activate (some 1) 1])
            test_engine).inputmethod
          [Event.create_engine (test_env 3) ":1.8", Event.get_address]) ":1.7").calls :=
  ⟨by decide, by decide,
    (destroy_then_vanish_releases_once (test_env 1) test_inputmethod ":1.7" test_engine
      "/org/gtk/UnimportantInputMethod/Engine_0"
      [Event.create_engine (test_env 2) ":1.7", Event.activate (some 1) 1]
      [Event.create_engine (test_env 3) ":1.8", Event.get_address]
      _ _ _ _ (by decide) (by decide) (by decide) rfl (by decide) rfl rfl (by decide)
      rfl).2.2.2.1,
    ((destroy_then_vanish_releases_once (test_env 1) test_inputmethod ":1.7" test_engine
      "/org/gtk/UnimportantInputMethod/Engine_0"
      [Event.create_engine (test_env 2) ":1.7", Event.activate (some 1) 1]
      [Event.create_engine (test_env 3) ":1.8", Event.get_address]
      _ _ _ _ (by decide) (by decide) (by decide) rfl (by decide) rfl rfl (by decide)
      rfl).2.2.2.2.2.2.2.2.2 (by decide)).2.2⟩

/-- C5, counterexample: the factory builds the engine of caller ":1.7" with the
client id ":1.99", under which no client is registered.  The creation takes a
hold (use count 1) and lists the engine under ":1.7"; destroying the engine
releases nothing (use count still 1) and leaves it listed; only the vanishing
of ":1.7" releases the hold. -/
theorem foreign_client_id_destroy_releases_nothing :
    (on_handle_create_engine foreign_env test_inputmethod ":1.7").reply =
      some (Reply.object_path "/org/gtk/UnimportantInputMethod/Engine_0") ∧
    (on_handle_create_engine foreign_env test_inputmethod ":1.7").inputmethod.use_count = 1 ∧
    (on_engine_destroy (on_handle_create_engine foreign_env test_inputmethod ":1.7").inputmethod
      { addr := 1, client_id := ":1.99" }).inputmethod.use_count = 1 ∧
    engines_of
      (on_engine_destroy (on_handle_create_engine foreign_env test_inputmethod ":1.7").inputmethod
        { addr := 1, client_id := ":1.99" }).inputmethod ":1.7" =
      [{ addr := 1, client_id := ":1.99" }] ∧
    (on_client_name_vanished
      (on_engine_destroy (on_handle_create_engine foreign_env test_inputmethod ":1.7").inputmethod
        { addr := 1, client_id := ":1.99" }).inputmethod ":1.7").inputmethod.use_count = 0 := by
  decide

/-- C6, the code at the failing input: on the test service the caller ":1.7"
creates an engine (use count 1) and the engine's "destroy" signal is emitted
twice.  The first emission takes the engine off the list and releases the hold
(use count 0); the second finds the client of ":1.7" still registered with an
empty list, leaves the list as it is and releases once more (use count -1). -/
theorem second_destroy_releases_again :
    (run test_inputmethod [Event.create_engine (test_env 1) ":1.7"]).use_count = 1 ∧
    (run test_inputmethod
      [Event.create_engine (test_env 1) ":1.7", Event.engine_destroy test_engine]).use_count
        = 0 ∧
    engines_of (run test_inputmethod
      [Event.create_engine (test_env 1) ":1.7", Event.engine_destroy test_engine]) ":1.7"
        = [] ∧
    g_hash_table_lookup (run test_inputmethod
      [Event.create_engine (test_env 1) ":1.7", Event.engine_destroy test_engine]).clients
        ":1.7" = some { engines := [], watcher_id := 1 } ∧
    (run test_inputmethod
      [Event.create_engine (test_env 1) ":1.7", Event.engine_destroy test_engine,
       Event.engine_destroy test_engine]).use_count = -1 ∧
    (run test_inputmethod
      [Event.create_engine (test_env 1) ":1.7", Event.engine_destroy test_engine,
       Event.engine_destroy test_engine]).clients =
      (run test_inputmethod
        [Event.create_engine (test_env 1) ":1.7", Event.engine_destroy test_engine]).clients := by
  decide

/-- C7. When every connected "create-engine" handler and the class handler
return no engine (in particular when no handler is connected and the class
handler is the default one), `CreateEngine` replies with the error "Cannot
create engine", calls nothing but the two emission hooks of the application
class (nothing is exported, no connection is asked for) and leaves the service
exactly as it was: use count, engine serial, cached connection and client
registry included. -/
theorem create_engine_declined_leaves_service (env : CreateEngineEnv)
    (inputmethod : GInputMethod) (sender : String)
    (hhandlers : ∀ handler ∈ env.handlers, handler sender = none)
    (hclass : env.create_engine sender = none) :
    on_handle_create_engine env inputmethod sender =
      { inputmethod := inputmethod
        reply := some (Reply.return_error "Cannot create engine")
        calls := [Call.before_emit, Call.after_emit] } :=
  create_engine_declined env inputmethod sender
    (emit_create_engine_declined env sender hhandlers hclass)

/-- C7, witness: no handler is connected on the test service. -/
theorem create_engine_declined_leaves_service_witness :
    on_handle_create_engine declining_env test_inputmethod ":1.7" =
      { inputmethod := test_inputmethod
        reply := some (Reply.return_error "Cannot create engine")
        calls := [Call.before_emit, Call.after_emit] } :=
  create_engine_declined_leaves_service declining_env test_inputmethod ":1.7"
    (by simp [declining_env]) rfl

/-- C8. Connection resolution is memoized.  A `CreateEngine` call that reached
the export step leaves the connection it exported on cached; and once a
connection is cached, after any further sequence of events it is still the
cached one, and every later `CreateEngine` call keeps it, dials no address,
does not ask the application for its registration or connection, and exports
on the cached connection only. -/
theorem connection_resolution_memoized (inputmethod : GInputMethod)
    (connection : GDBusConnection) (hcached : inputmethod.connection = some connection)
    (events : List Event) (env : CreateEngineEnv) (sender : String) :
    (∀ (first : CreateEngineEnv) (before : GInputMethod) (caller : String)
        (engine : GInputMethodEngine) (resolved : GDBusConnection) (path : String),
      Call.g_input_method_engine_export engine resolved path ∈
          (on_handle_create_engine first before caller).calls →
        (on_handle_create_engine first before caller).inputmethod.connection =
          some resolved) ∧
    (run inputmethod events).connection = some connection ∧
    (on_handle_create_engine env (run inputmethod events) sender).inputmethod.connection =
      some connection ∧
    ∀ call ∈ (on_handle_create_engine env (run inputmethod events) sender).calls,
      call ≠ Call.g_application_get_dbus_connection ∧
      call ≠ Call.g_application_get_is_registered ∧
      (∀ address, call ≠ Call.g_dbus_connection_new_for_address_sync address) ∧
      (∀ engine other path, call = Call.g_input_method_engine_export engine other path →
        other = connection) :=
  ⟨fun first before caller engine resolved path hcall =>
      create_engine_caches_resolved first before caller engine resolved path hcall,
    run_keeps_connection events inputmethod connection hcached,
    create_engine_uses_cached env (run inputmethod events) sender connection
      (run_keeps_connection events inputmethod connection hcached)⟩

/-- C8, witness: the test service with connection 1 cached serves a creation, a
destruction, the vanishing of the client and the loss of the name. -/
theorem connection_resolution_memoized_witness :
    (run (churned 0)
      [Event.create_engine (test_env 1) ":1.7", Event.engine_destroy test_engine,
       Event.client_name_vanished ":1.7", Event.name_lost]).connection = some 1 :=
  (connection_resolution_memoized (churned 0) 1 rfl
    [Event.create_engine (test_env 1) ":1.7", Event.engine_destroy test_engine,
     Event.client_name_vanished ":1.7", Event.name_lost] (test_env 1) ":1.7").2.1

/-- C9. With no export address configured (`address` is `NULL` or empty) and
no connection cached, a `CreateEngine` call whose factory produced an engine
replies "Application has not yet been registered" exactly when the application
is not registered, replies "Application has no D-Bus connection" exactly when
it is registered but has no bus connection, and otherwise resolves to the
application's own connection: that connection is cached, the engine is
exported on it, and the reply is none of the two errors. -/
theorem create_engine_default_connection (env : CreateEngineEnv)
    (inputmethod : GInputMethod) (sender : String) (engine : GInputMethodEngine)
    (hengine : emit_create_engine env sender = some engine)
    (hcached : inputmethod.connection = none)
    (haddress : inputmethod.address = none ∨ inputmethod.address = some "") :
    ((on_handle_create_engine env inputmethod sender).reply =
        some (Reply.return_error "Application has not yet been registered") ↔
      env.is_registered = false) ∧
    ((on_handle_create_engine env inputmethod sender).reply =
        some (Reply.return_error "Application has no D-Bus connection") ↔
      env.is_registered = true ∧ env.dbus_connection = none) ∧
    (∀ connection, env.is_registered = true → env.dbus_connection = some connection →
      (on_handle_create_engine env inputmethod sender).inputmethod.connection =
        some connection ∧
      Call.g_input_method_engine_export engine connection
          (engine_object_path inputmethod.dbus_object_path inputmethod.engine_serial) ∈
        (on_handle_create_engine env inputmethod sender).calls ∧
      ∀ message, (on_handle_create_engine env inputmethod sender).reply ≠
        some (Reply.return_error message)) := by
  cases hres : resolve_connection env inputmethod engine with
  | mk outcome calls =>
    cases outcome with
    | error reply =>
      rw [create_engine_unresolved env inputmethod sender engine reply calls hengine hres]
      obtain ⟨-, h | h | h⟩ := resolve_connection_error env inputmethod engine reply calls hres
      · obtain ⟨-, hreg, hreply, -⟩ := h
        simp [hreg, hreply]
      · obtain ⟨-, hreg, hbus, hreply, -⟩ := h
        simp [hreg, hbus, hreply]
      · obtain ⟨address, error, ha, hne, -⟩ := h
        rcases haddress with h0 | h0 <;> simp_all
    | ok connection =>
      obtain h | h | h := resolve_connection_ok env inputmethod engine connection calls hres
      · simp [hcached] at h
      · obtain ⟨-, -, hreg, hbus, hcalls⟩ := h
        cases hexp : env.engine_export engine connection
            (engine_object_path inputmethod.dbus_object_path inputmethod.engine_serial) with
        | error error =>
          rw [create_engine_unexported env inputmethod sender engine connection calls error
            hengine hres hexp]
          simp [hreg, hbus]
        | ok done =>
          cases hlook : g_hash_table_lookup inputmethod.clients sender with
          | none =>
            rw [create_engine_new_client env inputmethod sender engine connection calls done
              hengine hres hexp hlook]
            simp [hreg, hbus]
          | some client =>
            rw [create_engine_known_client env inputmethod sender engine connection calls done
              client hengine hres hexp hlook]
            simp [hreg, hbus]
      · obtain ⟨address, -, ha, hne, -⟩ := h
        rcases haddress with h0 | h0 <;> simp_all


/-- C9, witness: the registered test service resolves to its own connection. -/
theorem create_engine_default_connection_witness :
    (on_handle_create_engine (test_env 1) test_inputmethod ":1.7").inputmethod.connection =
      some 1 :=
  ((create_engine_default_connection (test_env 1) test_inputmethod ":1.7" test_engine
    (by decide) rfl (Or.inl rfl)).2.2 1 rfl rfl).1

/-- C10. When the factory produced an engine, no connection is cached and the
resolution of the export connection fails, `CreateEngine` replies with exactly
the error of the failing step ("Application has not yet been registered",
"Application has no D-Bus connection", or the error of the dial of the
configured address), drops the engine (`g_object_unref`) without an export
call or a destroy hook, and leaves the service exactly as it was: no hold, no
serial, no change of the client registry, and the cached connection still
unset. -/
theorem create_engine_resolution_failure (env : CreateEngineEnv)
    (inputmethod : GInputMethod) (sender : String) (engine : GInputMethodEngine)
    (hengine : emit_create_engine env sender = some engine)
    (hcached : inputmethod.connection = none) :
    ((inputmethod.address = none ∨ inputmethod.address = some "") →
      env.is_registered = false →
      on_handle_create_engine env inputmethod sender =
        { inputmethod := inputmethod
          reply := some (Reply.return_error "Application has not yet been registered")
          calls :=
            [Call.before_emit, Call.after_emit, Call.g_application_get_is_registered,
             Call.g_object_unref engine] }) ∧
    ((inputmethod.address = none ∨ inputmethod.address = some "") →
      env.is_registered = true → env.dbus_connection = none →
      on_handle_create_engine env inputmethod sender =
        { inputmethod := inputmethod
          reply := some (Reply.return_error "Application has no D-Bus connection")
          calls :=
            [Call.before_emit, Call.after_emit, Call.g_application_get_is_registered,
             Call.g_application_get_dbus_connection, Call.g_object_unref engine] }) ∧
    (∀ address error, inputmethod.address = some address → address ≠ "" →
      env.new_for_address_sync address = Except.error error →
      on_handle_create_engine env inputmethod sender =
        { inputmethod := inputmethod
          reply := some (Reply.return_gerror error)
          calls :=
            [Call.before_emit, Call.after_emit,
             Call.g_dbus_connection_new_for_address_sync address,
             Call.g_object_unref engine] }) := by
  refine ⟨?_, ?_, ?_⟩
  · intro haddress hreg
    apply create_engine_unresolved env inputmethod sender engine _ _ hengine
    rcases haddress with ha | ha <;> simp [resolve_connection, hcached, ha, hreg]
  · intro haddress hreg hbus
    apply create_engine_unresolved env inputmethod sender engine _ _ hengine
    rcases haddress with ha | ha <;> simp [resolve_connection, hcached, ha, hreg, hbus]
  · intro address error ha hne hdial
    apply create_engine_unresolved env inputmethod sender engine _ _ hengine
    simp [resolve_connection, hcached, ha, hne, hdial]

/-- C10, witness: a `CreateEngine` call before the test service is registered. -/
theorem create_engine_resolution_failure_witness :
    on_handle_create_engine unregistered_env test_inputmethod ":1.7" =
      { inputmethod := test_inputmethod
        reply := some (Reply.return_error "Application has not yet been registered")
        calls :=
          [Call.before_emit, Call.after_emit, Call.g_application_get_is_registered,
           Call.g_object_unref test_engine] } :=
  (create_engine_resolution_failure unregistered_env test_inputmethod ":1.7" test_engine
    (by decide) rfl).1 (Or.inl rfl) rfl

/-- C11. When a `CreateEngine` call reaches the export step and the export of
the engine at its path fails, the call replies with the error of the export and
returns no path, drops the engine (`g_object_unref`), takes no hold, connects
no destroy hook, installs no name watcher, and leaves the client registry (and
the owner id and the activation flag) as it was. -/
theorem create_engine_export_failure (env : CreateEngineEnv) (inputmethod : GInputMethod)
    (sender : String) (engine : GInputMethodEngine) (connection : GDBusConnection)
    (path : String) (error : GError)
    (hcall : Call.g_input_method_engine_export engine connection path ∈
      (on_handle_create_engine env inputmethod sender).calls)
    (hexport : env.engine_export engine connection path = Except.error error) :
    (on_handle_create_engine env inputmethod sender).reply =
      some (Reply.return_gerror error) ∧
    returned_path (on_handle_create_engine env inputmethod sender) = none ∧
    Call.g_object_unref engine ∈ (on_handle_create_engine env inputmethod sender).calls ∧
    (on_handle_create_engine env inputmethod sender).inputmethod.use_count =
      inputmethod.use_count ∧
    (∀ hooked, Call.g_signal_connect_destroy hooked ∉
      (on_handle_create_engine env inputmethod sender).calls) ∧
    (∀ bus name, Call.g_bus_watch_name_on_connection bus name ∉
      (on_handle_create_engine env inputmethod sender).calls) ∧
    (on_handle_create_engine env inputmethod sender).inputmethod.clients =
      inputmethod.clients ∧
    (on_handle_create_engine env inputmethod sender).inputmethod.owner_id =
      inputmethod.owner_id ∧
    (on_handle_create_engine env inputmethod sender).inputmethod.activating =
      inputmethod.activating := by
  obtain ⟨hemit, hpath, calls, hres, hquiet⟩ :=
    create_engine_export_call env inputmethod sender engine connection path hcall
  subst hpath
  rw [create_engine_unexported env inputmethod sender engine connection calls error hemit hres
    hexport]
  refine ⟨rfl, rfl, by simp, rfl, ?_, ?_, rfl, rfl, rfl⟩
  · intro hooked hmem
    simp at hmem
    exact (hquiet _ hmem).2.1 hooked rfl
  · intro bus name hmem
    simp at hmem
    exact (hquiet _ hmem).2.2.2 bus name rfl

/-- C11, witness: on the test service the export of the engine of ":1.7" fails. -/
theorem create_engine_export_failure_witness :
    (on_handle_create_engine failing_export_env test_inputmethod ":1.7").reply =
      some (Reply.return_gerror { message := "An object is already exported at this path" }) :=
  (create_engine_export_failure failing_export_env test_inputmethod ":1.7" test_engine 1
    "/org/gtk/UnimportantInputMethod/Engine_0"
    { message := "An object is already exported at this path" } (by decide) rfl).1

/-- C12. Two successful `CreateEngine` calls from the same identity, with any
events in between other than the vanishing of that identity: after the first
call the identity has a record whose list is the new engine followed by what
the identity listed before; the second call finds that record (same watcher),
creates no record (the keys of the table are unchanged, and the identity is the
key of exactly one record when the table had no key twice), installs no name
watcher, and puts its engine at the head of the list.  When the calls follow
each other and the identity listed nothing before, the record lists exactly
the two engines, which are distinct when the factory built distinct objects. -/
theorem two_creations_share_client (first second : CreateEngineEnv)
    (inputmethod created between_state twice : GInputMethod) (sender : String)
    (engine1 engine2 : GInputMethodEngine) (path1 path2 : String) (between : List Event)
    (hengine1 : emit_create_engine first sender = some engine1)
    (hreply1 : (on_handle_create_engine first inputmethod sender).reply =
      some (Reply.object_path path1))
    (hcreated : created = (on_handle_create_engine first inputmethod sender).inputmethod)
    (hbetween : ∀ name, Event.client_name_vanished name ∈ between → name ≠ sender)
    (hstate : between_state = run created between)
    (hengine2 : emit_create_engine second sender = some engine2)
    (hreply2 : (on_handle_create_engine second between_state sender).reply =
      some (Reply.object_path path2))
    (htwice : twice = (on_handle_create_engine second between_state sender).inputmethod) :
    (∃ record1 record2,
      g_hash_table_lookup created.clients sender = some record1 ∧
      record1.engines = engine1 :: engines_of inputmethod sender ∧
      g_hash_table_lookup twice.clients sender = some record2 ∧
      record2.watcher_id = record1.watcher_id ∧
      record2.engines = engine2 :: engines_of between_state sender) ∧
    (∀ bus name, Call.g_bus_watch_name_on_connection bus name ∉
      (on_handle_create_engine second between_state sender).calls) ∧
    twice.clients.map Prod.fst = between_state.clients.map Prod.fst ∧
    ((inputmethod.clients.map Prod.fst).Nodup →
      (twice.clients.map Prod.fst).count sender = 1) ∧
    (between = [] → engines_of inputmethod sender = [] →
      engines_of twice sender = [engine2, engine1] ∧
      (engine1 ≠ engine2 → (engines_of twice sender).Nodup)) := by
  have hpath1 : returned_path (on_handle_create_engine first inputmethod sender) =
      some path1 := by simp [returned_path, hreply1]
  have hpath2 : returned_path (on_handle_create_engine second between_state sender) =
      some path2 := by simp [returned_path, hreply2]
  -- the record after the first call
  have hrecord1 : ∃ record1, g_hash_table_lookup created.clients sender = some record1 ∧
      record1.engines = engine1 :: engines_of inputmethod sender := by
    obtain ⟨-, h | h | h⟩ := create_engine_registry first inputmethod sender
    · rw [h.2.1] at hpath1
      cases hpath1
    · obtain ⟨engine, hemit, -, hnone, hclients, -⟩ := h
      rw [hengine1] at hemit
      cases hemit
      exact ⟨{ engines := [engine1], watcher_id := first.watcher_id },
        by rw [hcreated, hclients]; simp [g_hash_table_lookup],
        by simp [engines_of, hnone]⟩
    · obtain ⟨engine, client, hemit, -, hsome, hclients, -⟩ := h
      rw [hengine1] at hemit
      cases hemit
      exact ⟨{ client with engines := engine1 :: client.engines },
        by rw [hcreated, hclients]; exact lookup_set_engines _ _ _ _ hsome,
        by simp [engines_of, hsome]⟩
  obtain ⟨record1, hlook1, hlist1⟩ := hrecord1
  -- it is still there before the second call
  obtain ⟨kept, hkept, hwatch⟩ := run_keeps_client between created sender record1 hlook1 hbetween
  rw [← hstate] at hkept
  -- the second call finds it
  obtain ⟨-, h | h | h⟩ := create_engine_registry second between_state sender
  · rw [h.2.1] at hpath2
    cases hpath2
  · obtain ⟨engine, -, -, hnone, -⟩ := h
    rw [hkept] at hnone
    cases hnone
  · obtain ⟨engine, client, hemit, -, hsome, hclients, hquiet⟩ := h
    rw [hengine2] at hemit
    cases hemit
    rw [hkept] at hsome
    cases hsome
    rw [← htwice] at hclients
    have hlook2 : g_hash_table_lookup twice.clients sender =
        some { kept with engines := engine2 :: kept.engines } := by
      rw [hclients]
      exact lookup_set_engines _ _ _ _ hkept
    have hkeys : twice.clients.map Prod.fst = between_state.clients.map Prod.fst := by
      rw [hclients, keys_set_engines]
    refine ⟨⟨record1, _, hlook1, hlist1, hlook2, hwatch, by simp [engines_of, hkept]⟩, hquiet,
      hkeys, ?_, ?_⟩
    · intro hnodup
      have h1 : (created.clients.map Prod.fst).Nodup := by
        rw [hcreated]
        exact step_keys_nodup inputmethod (Event.create_engine first sender) hnodup
      have h2 : (twice.clients.map Prod.fst).Nodup := by
        rw [hkeys, hstate]
        exact run_keys_nodup between created h1
      exact List.count_eq_one_of_mem h2
        (List.mem_map_of_mem Prod.fst (lookup_some_mem _ _ _ hlook2))
    · intro hnil hempty
      subst hnil
      have hsame : kept = record1 := by
        rw [hstate] at hkept
        simp only [run] at hkept
        rw [hlook1] at hkept
        exact (Option.some.inj hkept).symm
      have hhead : engines_of twice sender = engine2 :: kept.engines := by
        simp [engines_of, hlook2]
      have hlist : engines_of twice sender = [engine2, engine1] := by
        rw [hhead, hsame, hlist1, hempty]
      refine ⟨hlist, ?_⟩
      intro hne
      rw [hlist]
      simp [Ne.symm hne]

/-- C12, witness: on the test service the caller ":1.7" creates two engines in
a row; its record then lists the second and the first. -/
theorem two_creations_share_client_witness :
    engines_of
        (on_handle_create_engine (test_env 2)
          (on_handle_create_engine (test_env 1) test_inputmethod ":1.7").inputmethod
          ":1.7").inputmethod ":1.7" =
      [{ addr := 2, client_id := ":1.7" }, test_engine] :=
  ((two_creations_share_client (test_env 1) (test_env 2) test_inputmethod
    (on_handle_create_engine (test_env 1) test_inputmethod ":1.7").inputmethod
    (run (on_handle_create_engine (test_env 1) test_inputmethod ":1.7").inputmethod [])
    (on_handle_create_engine (test_env 2)
      (run (on_handle_create_engine (test_env 1) test_inputmethod ":1.7").inputmethod [])
      ":1.7").inputmethod
    ":1.7" test_engine { addr := 2, client_id := ":1.7" }
    "/org/gtk/UnimportantInputMethod/Engine_0" "/org/gtk/UnimportantInputMethod/Engine_1" []
    (by decide) (by decide) rfl (by simp) rfl (by decide) (by decide) rfl).2.2.2.2 rfl
    (by decide)).1

/-- C13. The vanishing of identity A touches A only: the record of every other
identity B (its engines and its watcher) is what it was, the use count drops
by the number of engines A's client listed (so no hold taken for an engine of
B is released), and the engine serial, the cached connection, the owner id,
the activation flag and the address are unchanged.  In the scenario where, on
a fresh service, A creates an engine and then B creates an engine, the paths
are the root followed by "/Engine_0" and "/Engine_1", and when A then vanishes
the use count drops by exactly one and B still lists its engine. -/
theorem vanish_touches_one_client (inputmethod : GInputMethod) (vanished : String) :
    (∀ other, other ≠ vanished →
      g_hash_table_lookup (on_client_name_vanished inputmethod vanished).inputmethod.clients
          other =
        g_hash_table_lookup inputmethod.clients other) ∧
    (on_client_name_vanished inputmethod vanished).inputmethod.use_count =
      inputmethod.use_count - (engines_of inputmethod vanished).length ∧
    (on_client_name_vanished inputmethod vanished).inputmethod.engine_serial =
      inputmethod.engine_serial ∧
    (on_client_name_vanished inputmethod vanished).inputmethod.connection =
      inputmethod.connection ∧
    (on_client_name_vanished inputmethod vanished).inputmethod.owner_id =
      inputmethod.owner_id ∧
    (on_client_name_vanished inputmethod vanished).inputmethod.activating =
      inputmethod.activating ∧
    (on_client_name_vanished inputmethod vanished).inputmethod.address =
      inputmethod.address ∧
    (∀ (root : String) (address : Option String) (first second : CreateEngineEnv)
        (other : String) (engine1 engine2 : GInputMethodEngine) (path1 path2 : String),
      inputmethod =
        (on_handle_create_engine second
          (on_handle_create_engine first (g_input_method_new root address)
            vanished).inputmethod other).inputmethod →
      other ≠ vanished →
      emit_create_engine first vanished = some engine1 →
      emit_create_engine second other = some engine2 →
      (on_handle_create_engine first (g_input_method_new root address) vanished).reply =
        some (Reply.object_path path1) →
      (on_handle_create_engine second
        (on_handle_create_engine first (g_input_method_new root address)
          vanished).inputmethod other).reply = some (Reply.object_path path2) →
      path1 = root ++ "/Engine_0" ∧ path2 = root ++ "/Engine_1" ∧
      inputmethod.use_count = 2 ∧
      (on_client_name_vanished inputmethod vanished).inputmethod.use_count = 1 ∧
      engines_of (on_client_name_vanished inputmethod vanished).inputmethod other =
        [engine2] ∧
      engines_of (on_client_name_vanished inputmethod vanished).inputmethod vanished =
        []) := by
  have hframe : (∀ other, other ≠ vanished →
        g_hash_table_lookup (on_client_name_vanished inputmethod vanished).inputmethod.clients
            other =
          g_hash_table_lookup inputmethod.clients other) ∧
      (on_client_name_vanished inputmethod vanished).inputmethod.use_count =
        inputmethod.use_count - (engines_of inputmethod vanished).length := by
    cases hlook : g_hash_table_lookup inputmethod.clients vanished with
    | none =>
      rw [client_name_vanished_unknown inputmethod vanished hlook]
      simp [engines_of, hlook]
    | some client =>
      rw [client_name_vanished_known inputmethod vanished client hlook]
      exact ⟨fun other hne => lookup_steal_other _ _ _ hne, by simp [engines_of, hlook]⟩
  have hrest : (on_client_name_vanished inputmethod vanished).inputmethod.engine_serial =
        inputmethod.engine_serial ∧
      (on_client_name_vanished inputmethod vanished).inputmethod.connection =
        inputmethod.connection ∧
      (on_client_name_vanished inputmethod vanished).inputmethod.owner_id =
        inputmethod.owner_id ∧
      (on_client_name_vanished inputmethod vanished).inputmethod.activating =
        inputmethod.activating ∧
      (on_client_name_vanished inputmethod vanished).inputmethod.address =
        inputmethod.address := by
    cases hlook : g_hash_table_lookup inputmethod.clients vanished with
    | none => simp [client_name_vanished_unknown inputmethod vanished hlook]
    | some client => simp [client_name_vanished_known inputmethod vanished client hlook]
  refine ⟨hframe.1, hframe.2, hrest.1, hrest.2.1, hrest.2.2.1, hrest.2.2.2.1, hrest.2.2.2.2, ?_⟩
  intro root address first second other engine1 engine2 path1 path2 hstate hne hengine1
    hengine2 hreply1 hreply2
  have hpath1 : returned_path
      (on_handle_create_engine first (g_input_method_new root address) vanished) =
        some path1 := by simp [returned_path, hreply1]
  have hpath2 : returned_path
      (on_handle_create_engine second
        (on_handle_create_engine first (g_input_method_new root address)
          vanished).inputmethod other) = some path2 := by simp [returned_path, hreply2]
  obtain ⟨huse1, -, -, -, hroot1, -⟩ :=
    create_engine_accounts first (g_input_method_new root address) vanished
  obtain ⟨huse2, -, -, -, -, -⟩ :=
    create_engine_accounts second
      (on_handle_create_engine first (g_input_method_new root address) vanished).inputmethod
      other
  rw [hpath1] at huse1
  rw [hpath2, huse1] at huse2
  have hserial1 : (on_handle_create_engine first (g_input_method_new root address)
      vanished).inputmethod.engine_serial = 1 := by
    rcases create_engine_serial first (g_input_method_new root address) vanished with
      h | h
    · rw [h.2.2] at hpath1
      cases hpath1
    · rw [h.2.1]
      simp [g_input_method_new, G_MAXULONG]
  -- the table after the first call
  have hclients1 : (on_handle_create_engine first (g_input_method_new root address)
      vanished).inputmethod.clients =
        [(vanished, { engines := [engine1], watcher_id := first.watcher_id })] ∧
      path1 = engine_object_path root 0 := by
    obtain ⟨-, h | h | h⟩ :=
      create_engine_registry first (g_input_method_new root address) vanished
    · rw [h.2.1] at hpath1
      cases hpath1
    · obtain ⟨engine, hemit, hpath, -, hclients, -⟩ := h
      rw [hengine1] at hemit
      cases hemit
      rw [hpath1] at hpath
      exact ⟨hclients, Option.some.inj hpath⟩
    · obtain ⟨engine, client, -, -, hsome, -⟩ := h
      simp [g_input_method_new, g_hash_table_lookup] at hsome
  -- the table after the second call
  have hclients2 : inputmethod.clients =
        [(other, { engines := [engine2], watcher_id := second.watcher_id }),
         (vanished, { engines := [engine1], watcher_id := first.watcher_id })] ∧
      path2 = engine_object_path root 1 := by
    obtain ⟨-, h | h | h⟩ :=
      create_engine_registry second
        (on_handle_create_engine first (g_input_method_new root address) vanished).inputmethod
        other
    · rw [h.2.1] at hpath2
      cases hpath2
    · obtain ⟨engine, hemit, hpath, -, hclients, -⟩ := h
      rw [hengine2] at hemit
      cases hemit
      rw [hpath2, hroot1, hserial1] at hpath
      rw [hstate, hclients, hclients1.1]
      exact ⟨rfl, Option.some.inj hpath⟩
    · obtain ⟨engine, client, -, -, hsome, -⟩ := h
      rw [hclients1.1] at hsome
      have hne2 : ¬vanished = other := fun h => hne h.symm
      simp [g_hash_table_lookup, hne2] at hsome
  have hzero : format_lu 0 = "0" := by decide
  have hone : format_lu 1 = "1" := by decide
  have hjoin0 : "/Engine_" ++ "0" = "/Engine_0" := by decide
  have hjoin1 : "/Engine_" ++ "1" = "/Engine_1" := by decide
  have hlook : g_hash_table_lookup inputmethod.clients vanished =
      some { engines := [engine1], watcher_id := first.watcher_id } := by
    have hne2 : ¬other = vanished := hne
    rw [hclients2.1]
    simp [g_hash_table_lookup, hne2]
  have hcount : inputmethod.use_count = 2 := by
    rw [hstate, huse2]
    simp [g_input_method_new]
  refine ⟨?_, ?_, hcount, ?_, ?_, ?_⟩
  · rw [hclients1.2]
    simp only [engine_object_path, hzero, String.append_assoc, hjoin0]
  · rw [hclients2.2]
    simp only [engine_object_path, hone, String.append_assoc, hjoin1]
  · rw [hframe.2, hcount]
    simp [engines_of, hlook]
  · have hne2 : ¬other = vanished := hne
    rw [client_name_vanished_known inputmethod vanished _ hlook]
    simp [engines_of, hclients2.1, g_hash_table_steal, g_hash_table_lookup, hne2]
  · have hne2 : ¬other = vanished := hne
    rw [client_name_vanished_known inputmethod vanished _ hlook]
    simp [engines_of, hclients2.1, g_hash_table_steal, g_hash_table_lookup, hne2]

/-- C13, witness: on the test service ":1.7" and then ":1.8" create an engine,
and ":1.7" vanishes. -/
theorem vanish_touches_one_client_witness :
    (on_client_name_vanished
      (on_handle_create_engine (test_env 2)
        (on_handle_create_engine (test_env 1) test_inputmethod ":1.7").inputmethod
        ":1.8").inputmethod ":1.7").inputmethod.use_count = 1 :=
  ((vanish_touches_one_client
    (on_handle_create_engine (test_env 2)
      (on_handle_create_engine (test_env 1) test_inputmethod ":1.7").inputmethod
      ":1.8").inputmethod ":1.7").2.2.2.2.2.2.2
    "/org/gtk/UnimportantInputMethod" none (test_env 1) (test_env 2) ":1.8" test_engine
    { addr := 2, client_id := ":1.8" } "/org/gtk/UnimportantInputMethod/Engine_0"
    "/org/gtk/UnimportantInputMethod/Engine_1" rfl (by decide) (by decide) (by decide)
    (by decide) (by decide)).2.2.2.1

/-- C14. The vanishing of an identity whose client is registered (in a table
that holds no key twice) and lists k engines: the name watcher of the client is
removed, then every listed engine is dropped (`g_object_unref`), once for each
time it is listed; exactly k holds are released; and the record is deleted, so that a following lookup of the identity finds no client.
Nothing else is called and no reply is sent. -/
theorem vanish_removes_client (inputmethod : GInputMethod) (identity : String)
    (client : Client)
    (hkeys : (inputmethod.clients.map Prod.fst).Nodup)
    (hlookup : g_hash_table_lookup inputmethod.clients identity = some client) :
    (on_client_name_vanished inputmethod identity).calls =
      Call.g_bus_unwatch_name client.watcher_id ::
        client.engines.map (fun engine => Call.g_object_unref engine) ∧
    (∀ engine, (on_client_name_vanished inputmethod identity).calls.count
        (Call.g_object_unref engine) = client.engines.count engine) ∧
    (on_client_name_vanished inputmethod identity).inputmethod.use_count =
      inputmethod.use_count - client.engines.length ∧
    g_hash_table_lookup (on_client_name_vanished inputmethod identity).inputmethod.clients
      identity = none ∧
    (on_client_name_vanished inputmethod identity).reply = none := by
  rw [client_name_vanished_known inputmethod identity client hlookup]
  refine ⟨rfl, ?_, rfl, lookup_steal_self _ _ hkeys, rfl⟩
  intro engine
  have hinj : Function.Injective (fun engine : GInputMethodEngine => Call.g_object_unref engine) :=
    fun a b h => by simpa using h
  simp only [List.count_cons]
  rw [List.count_map_of_injective _ _ hinj]
  simp

/-- C14, witness: on the test service ":1.7" has created two engines when it
vanishes; both holds are released. -/
theorem vanish_removes_client_witness :
    (on_client_name_vanished
      (run test_inputmethod
        [Event.create_engine (test_env 1) ":1.7", Event.create_engine (test_env 2) ":1.7"])
      ":1.7").inputmethod.use_count =
      (run test_inputmethod
        [Event.create_engine (test_env 1) ":1.7",
         Event.create_engine (test_env 2) ":1.7"]).use_count -
        ([{ addr := 2, client_id := ":1.7" }, test_engine] : List GInputMethodEngine).length :=
  (vanish_removes_client
    (run test_inputmethod
      [Event.create_engine (test_env 1) ":1.7", Event.create_engine (test_env 2) ":1.7"])
    ":1.7" { engines := [{ addr := 2, client_id := ":1.7" }, test_engine], watcher_id := 1 }
    (by decide) (by decide)).2.2.1

/-- C15. A registered client record is removed only by the vanishing of its own
identity.  The destruction of an engine, whichever engine, leaves the record
registered with its watcher and removes no watcher; so does every sequence of
events without the vanishing of that identity; after all the engines the
client lists (each carrying the identity as its client id) have been destroyed
the client is still registered, with an empty list and its watcher; and a
successful `CreateEngine` call from the identity finds the record: it adds its
engine to it, creates no record and installs no watcher. -/
theorem client_record_persists (inputmethod : GInputMethod) (key : String) (client : Client)
    (hlookup : g_hash_table_lookup inputmethod.clients key = some client) :
    (∀ engine, ∃ kept,
      g_hash_table_lookup (on_engine_destroy inputmethod engine).inputmethod.clients key =
        some kept ∧
      kept.watcher_id = client.watcher_id ∧
      ∀ id, Call.g_bus_unwatch_name id ∉ (on_engine_destroy inputmethod engine).calls) ∧
    (∀ events, (∀ name, Event.client_name_vanished name ∈ events → name ≠ key) →
      ∃ kept, g_hash_table_lookup (run inputmethod events).clients key = some kept ∧
        kept.watcher_id = client.watcher_id) ∧
    ((∀ engine ∈ client.engines, engine.client_id = key) →
      g_hash_table_lookup
          (run inputmethod (client.engines.map Event.engine_destroy)).clients key =
        some { client with engines := [] }) ∧
    (∀ env engine path, emit_create_engine env key = some engine →
      (on_handle_create_engine env inputmethod key).reply = some (Reply.object_path path) →
      g_hash_table_lookup (on_handle_create_engine env inputmethod key).inputmethod.clients
          key = some { client with engines := engine :: client.engines } ∧
      (on_handle_create_engine env inputmethod key).inputmethod.clients.map Prod.fst =
        inputmethod.clients.map Prod.fst ∧
      ∀ bus name, Call.g_bus_watch_name_on_connection bus name ∉
        (on_handle_create_engine env inputmethod key).calls) := by
  refine ⟨?_, ?_, ?_, ?_⟩
  · intro engine
    obtain ⟨kept, hkept, hwatch⟩ :=
      step_keeps_client inputmethod (Event.engine_destroy engine) key client hlookup (by simp)
    refine ⟨kept, hkept, hwatch, ?_⟩
    intro id
    cases hlook : g_hash_table_lookup inputmethod.clients engine.client_id with
    | none => simp [engine_destroy_unknown inputmethod engine hlook]
    | some owner => simp [engine_destroy_known inputmethod engine owner hlook]
  · intro events hstay
    exact run_keeps_client events inputmethod key client hlookup hstay
  · intro hids
    exact destroy_all_listed client.engines inputmethod key client hlookup rfl hids
  · intro env engine path hemit hreply
    have hpath : returned_path (on_handle_create_engine env inputmethod key) = some path := by
      simp [returned_path, hreply]
    obtain ⟨-, h | h | h⟩ := create_engine_registry env inputmethod key
    · rw [h.2.1] at hpath
      cases hpath
    · obtain ⟨created, -, -, hnone, -⟩ := h
      rw [hlookup] at hnone
      cases hnone
    · obtain ⟨created, found, hcreated, -, hsome, hclients, hquiet⟩ := h
      rw [hemit] at hcreated
      cases hcreated
      rw [hlookup] at hsome
      cases hsome
      refine ⟨?_, ?_, hquiet⟩
      · rw [hclients]
        exact lookup_set_engines _ _ _ _ hlookup
      · rw [hclients, keys_set_engines]

/-- C15, witness: on the test service ":1.7" creates an engine, which is then
destroyed: the record of ":1.7" is still registered, with its watcher and an
empty list. -/
theorem client_record_persists_witness :
    g_hash_table_lookup
        (run (on_handle_create_engine (test_env 1) test_inputmethod ":1.7").inputmethod
          (([test_engine] : List GInputMethodEngine).map Event.engine_destroy)).clients ":1.7" =
      some { engines := [], watcher_id := 1 } :=
  (client_record_persists
    (on_handle_create_engine (test_env 1) test_inputmethod ":1.7").inputmethod ":1.7"
    { engines := [test_engine], watcher_id := 1 } (by decide)).2.2.1 (by decide)

/-- C16. Along every sequence of events on a fresh service during which the
factory keeps its contract (each engine it yields carries the caller's
identity as its client id and is a new object, one the caller's client does not
list), the client table is well owned, and so every listed engine is listed
once by its record, the key of that record is the engine's client id (the
identity that created it), that record is the one a lookup of the client id
finds, and no other record lists the engine; and as long as the contract is
kept, whichever record lists the engine later has the same key. -/
theorem engines_owned_once (root : String) (address : Option String) (events : List Event)
    (hcontract : factory_contract_run (g_input_method_new root address) events = true) :
    well_owned (run (g_input_method_new root address) events).clients ∧
    (∀ engine key client,
      (key, client) ∈ (run (g_input_method_new root address) events).clients →
      engine ∈ client.engines →
      key = engine.client_id ∧
      client.engines.count engine = 1 ∧
      g_hash_table_lookup (run (g_input_method_new root address) events).clients
        engine.client_id = some client ∧
      ∀ other record,
        (other, record) ∈ (run (g_input_method_new root address) events).clients →
        engine ∈ record.engines → other = key ∧ record = client) ∧
    (∀ later, factory_contract_run (run (g_input_method_new root address) events) later = true →
      ∀ engine key client other record,
        (key, client) ∈ (run (g_input_method_new root address) events).clients →
        engine ∈ client.engines →
        (other, record) ∈
          (run (run (g_input_method_new root address) events) later).clients →
        engine ∈ record.engines → other = key) := by
  have hfresh : well_owned (g_input_method_new root address).clients := by
    simp [well_owned, g_input_method_new]
  have hwell := run_well_owned events (g_input_method_new root address) hfresh hcontract
  refine ⟨hwell, ?_, ?_⟩
  · intro engine key client hmem hlisted
    obtain ⟨hnodup, hids⟩ := hwell.2 key client hmem
    have hkey : key = engine.client_id := (hids engine hlisted).symm
    refine ⟨hkey, List.count_eq_one_of_mem hnodup hlisted, ?_, ?_⟩
    · rw [← hkey]
      exact mem_lookup_of_nodup _ _ _ hwell.1 hmem
    · intro other record hmem2 hlisted2
      have hother : other = key := by
        rw [hkey]
        exact ((hwell.2 other record hmem2).2 engine hlisted2).symm
      refine ⟨hother, ?_⟩
      have h1 := mem_lookup_of_nodup _ _ _ hwell.1 hmem
      have h2 := mem_lookup_of_nodup _ _ _ hwell.1 hmem2
      rw [hother, h1] at h2
      exact (Option.some.inj h2).symm
  · intro later hlater engine key client other record hmem hlisted hmem2 hlisted2
    have hwell2 := run_well_owned later _ hwell hlater
    rw [← (hwell.2 key client hmem).2 engine hlisted,
      ← (hwell2.2 other record hmem2).2 engine hlisted2]

/-- C16, witness: on the test service ":1.7" creates two engines and ":1.8" one,
and the first engine of ":1.7" is destroyed. -/
theorem engines_owned_once_witness :
    well_owned (run test_inputmethod
      [Event.create_engine (test_env 1) ":1.7", Event.create_engine (test_env 2) ":1.7",
       Event.create_engine (test_env 3) ":1.8", Event.engine_destroy test_engine]).clients :=
  (engines_owned_once "/org/gtk/UnimportantInputMethod" none
    [Event.create_engine (test_env 1) ":1.7", Event.create_engine (test_env 2) ":1.7",
     Event.create_engine (test_env 3) ":1.8", Event.engine_destroy test_engine]
    (by decide)).1

/-- C17. For every list of "key-event" handlers in connection order (the class
handler, if the class has one, coming last) and every keycode and pressed
flag: the `KeyEvent` reply is true exactly when some handler returns true on
these arguments; the handlers that ran are the handlers before the first one
that returns true, in order, and that one, and no handler after it; with no
handler, or with handlers that all return false, the reply is false (and all
of them ran); and with a single handler the reply is what that handler
returns. -/
theorem key_event_first_true_wins (handlers : List (Nat × Bool → Bool))
    (key_event : Option (Nat × Bool → Bool)) (keycode : Nat) (pressed : Bool) :
    ((on_handle_key_event handlers key_event keycode pressed).1 = Reply.boolean true ↔
      ∃ handler ∈ handlers ++ key_event.toList, handler (keycode, pressed) = true) ∧
    (on_handle_key_event handlers key_event keycode pressed).1 =
      Reply.boolean ((handlers ++ key_event.toList).any fun handler =>
        handler (keycode, pressed)) ∧
    (on_handle_key_event handlers key_event keycode pressed).2 =
      ((handlers ++ key_event.toList).takeWhile fun handler =>
          !handler (keycode, pressed)).length +
        (if (handlers ++ key_event.toList).any (fun handler => handler (keycode, pressed))
          then 1 else 0) ∧
    ((∀ handler ∈ handlers ++ key_event.toList, handler (keycode, pressed) = false) →
      on_handle_key_event handlers key_event keycode pressed =
        (Reply.boolean false, (handlers ++ key_event.toList).length)) ∧
    (∀ handler : Nat × Bool → Bool,
      (on_handle_key_event [handler] none keycode pressed).1 =
        Reply.boolean (handler (keycode, pressed))) := by
  obtain ⟨hvalue, hran⟩ :=
    g_signal_emit_key_event (keycode, pressed) (handlers ++ key_event.toList)
  refine ⟨?_, ?_, ?_, ?_, ?_⟩
  · simp only [on_handle_key_event, hvalue, Reply.boolean.injEq, List.any_eq_true]
  · simp only [on_handle_key_event, hvalue]
  · simp only [on_handle_key_event, hran]
  · intro hall
    have hany : (handlers ++ key_event.toList).any (fun handler => handler (keycode, pressed))
        = false := by
      rw [List.any_eq_false]
      intro handler hmem
      simp [hall handler hmem]
    have htake : (handlers ++ key_event.toList).takeWhile
        (fun handler => !handler (keycode, pressed)) = handlers ++ key_event.toList := by
      rw [List.takeWhile_eq_self_iff]
      intro handler hmem
      simp [hall handler hmem]
    simp only [on_handle_key_event, hvalue, hran, hany, htake]
    simp
  · intro handler
    have := (g_signal_emit_key_event (keycode, pressed) [handler]).1
    simp only [on_handle_key_event, Option.toList, List.append_nil, this]
    simp

/-- The replies `test_engine_client` expects from the handler of the test: key
38 is not handled, key 24 is. -/
theorem test_key_event_replies :
    (on_handle_key_event [on_key_event] none 38 true).1 = Reply.boolean false ∧
    (on_handle_key_event [on_key_event] none 24 true).1 = Reply.boolean true := by
  decide

/-- C18, as amended. An "activate" signal that arrives while an acquisition is
in flight (`activating` set) takes one more hold and does nothing else: the
owner id, the activation flag, the engine serial, the client registry, the
cached connection and the address are as before, and the bus is asked neither
to release nor to own a name. -/
theorem activate_in_flight_takes_hold (inputmethod : GInputMethod)
    (connection : Option GDBusConnection) (owner_id : Nat)
    (hflight : inputmethod.activating = true) :
    g_input_method_real_activate inputmethod connection owner_id =
      { inputmethod := { inputmethod with use_count := inputmethod.use_count + 1 }
        reply := none
        calls := [Call.g_application_get_dbus_connection] } := by
  cases connection <;> simp [g_input_method_real_activate, g_application_hold, hflight]

/-- C18, witness: the test service receives a second "activate" while the first
acquisition is in flight. -/
theorem activate_in_flight_takes_hold_witness :
    g_input_method_real_activate
        (g_input_method_real_activate test_inputmethod (some 1) 1).inputmethod (some 1) 2 =
      { inputmethod :=
          { (g_input_method_real_activate test_inputmethod (some 1) 1).inputmethod with
            use_count :=
              (g_input_method_real_activate test_inputmethod (some 1) 1).inputmethod.use_count
                + 1 }
        reply := none
        calls := [Call.g_application_get_dbus_connection] } :=
  activate_in_flight_takes_hold
    (g_input_method_real_activate test_inputmethod (some 1) 1).inputmethod (some 1) 2
    (by decide)

/-- C18, counterexample: on the test service a first "activate" starts the
acquisition (use count 1, flag set); a second one, made while the flag is set,
leaves the service with use count 2: it is not a no-op. -/
theorem activate_in_flight_changes_hold_count :
    (g_input_method_real_activate test_inputmethod (some 1) 1).inputmethod.activating = true ∧
    (g_input_method_real_activate test_inputmethod (some 1) 1).inputmethod.use_count = 1 ∧
    (g_input_method_real_activate
      (g_input_method_real_activate test_inputmethod (some 1) 1).inputmethod
      (some 1) 2).inputmethod.use_count = 2 ∧
    (g_input_method_real_activate
      (g_input_method_real_activate test_inputmethod (some 1) 1).inputmethod
      (some 1) 2).inputmethod ≠
      (g_input_method_real_activate test_inputmethod (some 1) 1).inputmethod := by
  decide

/-- C19. The name-lost callback, in every state, unexports the root object,
releases exactly one hold, sets the owner id to 0 and clears the activation
flag; the engine serial, the cached connection, the client registry, the
address and the application object path stay as they are, and no reply is
sent. -/
theorem name_lost_releases_and_resets (inputmethod : GInputMethod) :
    on_name_lost inputmethod =
      { inputmethod :=
          { inputmethod with
            use_count := inputmethod.use_count - 1
            owner_id := 0
            activating := false }
        reply := none
        calls := [Call.g_dbus_interface_skeleton_unexport] } := by
  simp [on_name_lost, g_application_release]

/-- The two outcomes of the name-acquired callback.  When the export of the
root object fails, no reply is sent to any client (the failure is only
logged), the hold is released and the activation flag is cleared, and the owner
id is not touched; when the export succeeds, the use count and the owner id are
unchanged and the activation flag is cleared.  In both cases nothing else
changes. -/
theorem name_acquired_export_outcomes (inputmethod : GInputMethod)
    (connection : GDBusConnection) (error : GError) (done : Unit) :
    on_name_acquired inputmethod connection (Except.error error) =
      { inputmethod :=
          { inputmethod with use_count := inputmethod.use_count - 1, activating := false }
        reply := none
        calls :=
          [Call.g_dbus_interface_skeleton_export connection "/org/freedesktop/InputMethod",
           Call.g_warning] } ∧
    on_name_acquired inputmethod connection (Except.ok done) =
      { inputmethod := { inputmethod with activating := false }
        reply := none
        calls :=
          [Call.g_dbus_interface_skeleton_export connection
            "/org/freedesktop/InputMethod"] } := by
  simp [on_name_acquired, g_application_release]

/-- C20. The code at the failing input: the test service is activated (owner
id 1) and the export of the root object in the name-acquired callback fails.
The callback releases the hold (use count 0), clears the activation flag and
only logs the failure, without giving up the name, but it leaves the owner id
at 1: the ownership state is not reset.  The sibling callback for a lost
name, run on the same activated service, releases the hold and does reset the
owner id to 0. -/
theorem failed_export_keeps_owner_id :
    (run test_inputmethod
      [Event.activate (some 1) 1,
       Event.name_acquired 1 (Except.error { message := "export failed" })]).owner_id = 1 ∧
    (run test_inputmethod
      [Event.activate (some 1) 1,
       Event.name_acquired 1 (Except.error { message := "export failed" })]).use_count = 0 ∧
    (run test_inputmethod
      [Event.activate (some 1) 1,
       Event.name_acquired 1 (Except.error { message := "export failed" })]).activating
        = false ∧
    (on_name_acquired (run test_inputmethod [Event.activate (some 1) 1]) 1
      (Except.error { message := "export failed" })).reply = none ∧
    (on_name_acquired (run test_inputmethod [Event.activate (some 1) 1]) 1
      (Except.error { message := "export failed" })).calls =
        [Call.g_dbus_interface_skeleton_export 1 "/org/freedesktop/InputMethod",
         Call.g_warning] ∧
    (run test_inputmethod [Event.activate (some 1) 1, Event.name_lost]).owner_id = 0 ∧
    (run test_inputmethod [Event.activate (some 1) 1, Event.name_lost]).use_count = 0 := by
  decide

/-- C21. `GetAddress` replies with the configured address as it is when one is
configured and with the empty string when none is; it changes nothing in the
service and calls no collaborator; and its reply is the empty string exactly
when `address` is `NULL` or empty, which, for a service without a cached
connection, are exactly the configurations in which a `CreateEngine` call asks
the application for its own connection instead of dialling the address. -/
theorem get_address_reply (inputmethod : GInputMethod) :
    (on_handle_get_address inputmethod).inputmethod = inputmethod ∧
    (on_handle_get_address inputmethod).calls = [] ∧
    (∀ address, inputmethod.address = some address →
      (on_handle_get_address inputmethod).reply = some (Reply.string address)) ∧
    (inputmethod.address = none →
      (on_handle_get_address inputmethod).reply = some (Reply.string "")) ∧
    ((on_handle_get_address inputmethod).reply = some (Reply.string "") ↔
      (inputmethod.address = none ∨ inputmethod.address = some "")) ∧
    (∀ (env : CreateEngineEnv) (engine : GInputMethodEngine), inputmethod.connection = none →
      (((on_handle_get_address inputmethod).reply = some (Reply.string "") ↔
          Call.g_application_get_is_registered ∈
            (resolve_connection env inputmethod engine).2) ∧
        ((on_handle_get_address inputmethod).reply ≠ some (Reply.string "") ↔
          ∃ address, Call.g_dbus_connection_new_for_address_sync address ∈
            (resolve_connection env inputmethod engine).2))) := by
  refine ⟨rfl, rfl, ?_, ?_, ?_, ?_⟩
  · intro address h
    simp [on_handle_get_address, h]
  · intro h
    simp [on_handle_get_address, h]
  · cases h : inputmethod.address <;> simp [on_handle_get_address, h]
  · intro env engine hcached
    cases ha : inputmethod.address with
    | none =>
      cases hreg : env.is_registered <;> cases hbus : env.dbus_connection <;>
        simp [on_handle_get_address, resolve_connection, hcached, ha, hreg, hbus]
    | some address =>
      by_cases hempty : address = ""
      · cases hreg : env.is_registered <;> cases hbus : env.dbus_connection <;>
          simp [on_handle_get_address, resolve_connection, hcached, ha, hreg, hbus, hempty]
      · cases hdial : env.new_for_address_sync address <;>
          simp [on_handle_get_address, resolve_connection, hcached, ha, hempty, hdial]

/-- C21, witness: the test service has no address configured. -/
theorem get_address_reply_witness :
    (on_handle_get_address test_inputmethod).reply = some (Reply.string "") :=
  (get_address_reply test_inputmethod).2.2.2.1 rfl

/-- C22, as amended. A successful `CreateEngine` call from an identity finds the
client of that identity or creates one, installing a name watcher (on the
connection the call arrived on) only when the record is new, and puts the new
engine at the head of the client's engine sequence: the sequence afterwards is
the new engine followed by the sequence before. -/
theorem create_engine_prepends (env : CreateEngineEnv) (inputmethod : GInputMethod)
    (sender : String) (engine : GInputMethodEngine) (path : String)
    (hengine : emit_create_engine env sender = some engine)
    (hreply : (on_handle_create_engine env inputmethod sender).reply =
      some (Reply.object_path path)) :
    engines_of (on_handle_create_engine env inputmethod sender).inputmethod sender =
      engine :: engines_of inputmethod sender ∧
    (g_hash_table_lookup inputmethod.clients sender = none →
      (on_handle_create_engine env inputmethod sender).inputmethod.clients =
        (sender, { engines := [engine], watcher_id := env.watcher_id }) ::
          inputmethod.clients ∧
      (on_handle_create_engine env inputmethod sender).calls.count
        (Call.g_bus_watch_name_on_connection env.invocation_connection sender) = 1) ∧
    (∀ client, g_hash_table_lookup inputmethod.clients sender = some client →
      g_hash_table_lookup (on_handle_create_engine env inputmethod sender).inputmethod.clients
          sender = some { client with engines := engine :: client.engines } ∧
      (on_handle_create_engine env inputmethod sender).inputmethod.clients.map Prod.fst =
        inputmethod.clients.map Prod.fst ∧
      ∀ bus name, Call.g_bus_watch_name_on_connection bus name ∉
        (on_handle_create_engine env inputmethod sender).calls) := by
  have hpath : returned_path (on_handle_create_engine env inputmethod sender) = some path := by
    simp [returned_path, hreply]
  obtain ⟨-, h | h | h⟩ := create_engine_registry env inputmethod sender
  · rw [h.2.1] at hpath
    cases hpath
  · obtain ⟨created, hemit, -, hnone, hclients, hwatch⟩ := h
    rw [hengine] at hemit
    cases hemit
    refine ⟨?_, fun _ => ⟨hclients, hwatch⟩, ?_⟩
    · simp [engines_of, hclients, hnone, g_hash_table_lookup]
    · intro client hsome
      rw [hnone] at hsome
      cases hsome
  · obtain ⟨created, client, hemit, -, hsome, hclients, hquiet⟩ := h
    rw [hengine] at hemit
    cases hemit
    have hfound := lookup_set_engines inputmethod.clients sender (engine :: client.engines)
      client hsome
    refine ⟨?_, ?_, ?_⟩
    · simp [engines_of, hclients, hsome, hfound]
    · intro hnone
      rw [hsome] at hnone
      cases hnone
    · intro found hfound2
      rw [hsome] at hfound2
      cases hfound2
      exact ⟨by rw [hclients]; exact hfound, by rw [hclients, keys_set_engines], hquiet⟩

/-- C22, witness: the first `CreateEngine` call of ":1.7" on the test service. -/
theorem create_engine_prepends_witness :
    engines_of (on_handle_create_engine (test_env 1) test_inputmethod ":1.7").inputmethod
        ":1.7" =
      test_engine :: engines_of test_inputmethod ":1.7" :=
  (create_engine_prepends (test_env 1) test_inputmethod ":1.7" test_engine
    "/org/gtk/UnimportantInputMethod/Engine_0" (by decide) (by decide)).1

/-- C22, counterexample: on the test service ":1.7" creates a first engine and
then a second one.  Before the second call the sequence is the first engine;
after it the sequence is the second engine followed by the first, not the
first followed by the second. -/
theorem second_engine_comes_first :
    engines_of (on_handle_create_engine (test_env 1) test_inputmethod ":1.7").inputmethod
        ":1.7" = [test_engine] ∧
    engines_of
        (on_handle_create_engine (test_env 2)
          (on_handle_create_engine (test_env 1) test_inputmethod ":1.7").inputmethod
          ":1.7").inputmethod ":1.7" =
      [{ addr := 2, client_id := ":1.7" }, test_engine] ∧
    engines_of
        (on_handle_create_engine (test_env 2)
          (on_handle_create_engine (test_env 1) test_inputmethod ":1.7").inputmethod
          ":1.7").inputmethod ":1.7" ≠
      engines_of (on_handle_create_engine (test_env 1) test_inputmethod ":1.7").inputmethod
          ":1.7" ++ [{ addr := 2, client_id := ":1.7" }] := by
  decide

/-- C23. For every text, every styling array and number `n` of elements to
read, and every cursor position, the default handler of "preedit-changed" sends
the same text and the same cursor position, and a sequence of exactly `n`
style runs whose `i`-th element is the triple of `start`, `end` and `type` of
`styling[i]`, in the order of the array: the image of the array when `n` is its
length, and the empty sequence when `n` is 0. -/
theorem default_preedit_changed (text : String) (styling : Nat → GInputMethodStyling)
    (n_styling : Nat) (cursor_pos : Int) :
    (g_input_method_engine_real_preedit_changed text styling n_styling cursor_pos).text =
      text ∧
    (g_input_method_engine_real_preedit_changed text styling n_styling cursor_pos).cursor_pos =
      cursor_pos ∧
    (g_input_method_engine_real_preedit_changed text styling n_styling
      cursor_pos).styling.length = n_styling ∧
    (∀ i, i < n_styling →
      (g_input_method_engine_real_preedit_changed text styling n_styling
        cursor_pos).styling[i]? =
        some ((styling i).start, (styling i).end_, (styling i).type)) ∧
    (∀ (array : List GInputMethodStyling) (fallback : GInputMethodStyling),
      (g_input_method_engine_real_preedit_changed text (fun i => array.getD i fallback)
        array.length cursor_pos).styling =
        array.map fun element => (element.start, element.end_, element.type)) ∧
    (g_input_method_engine_real_preedit_changed text styling 0 cursor_pos).styling = [] := by
  refine ⟨rfl, rfl, ?_, ?_, ?_, rfl⟩
  · simp [g_input_method_engine_real_preedit_changed, preedit_builder_eq]
  · intro i hi
    simp [g_input_method_engine_real_preedit_changed, preedit_builder_eq, List.getElem?_map,
      List.getElem?_range hi]
  · intro array fallback
    simp only [g_input_method_engine_real_preedit_changed, preedit_builder_eq]
    exact map_range_getD array fallback
      (fun element => (element.start, element.end_, element.type))

/-- C23, witness: a preedit text with the two style runs of `sample_styling`. -/
theorem default_preedit_changed_witness :
    (g_input_method_engine_real_preedit_changed "nihon" sample_styling 2 2).styling[1]? =
      some (2, 5, 2) :=
  (default_preedit_changed "nihon" sample_styling 2 2).2.2.2.1 1 (by decide)

/-- C24, the code at the failing input: on the test service ":1.7" has created
an engine and vanishes.  The callback `on_client_name_vanished` takes the
record of ":1.7" out of the client table, and the calls it makes are the
removal of the watcher and the drop of the engine: the lock is neither taken
nor released.  The other two callbacks that touch the table, on the same
service, do take the lock and release it. -/
theorem vanish_changes_table_without_lock :
    (run test_inputmethod [Event.create_engine (test_env 1) ":1.7"]).clients =
      [(":1.7", { engines := [test_engine], watcher_id := 1 })] ∧
    (on_client_name_vanished
      (run test_inputmethod [Event.create_engine (test_env 1) ":1.7"])
      ":1.7").inputmethod.clients = [] ∧
    (on_client_name_vanished
      (run test_inputmethod [Event.create_engine (test_env 1) ":1.7"]) ":1.7").calls =
      [Call.g_bus_unwatch_name 1, Call.g_object_unref test_engine] ∧
    Call.g_mutex_lock ∉
      (on_client_name_vanished
        (run test_inputmethod [Event.create_engine (test_env 1) ":1.7"]) ":1.7").calls ∧
    (on_engine_destroy
      (run test_inputmethod [Event.create_engine (test_env 1) ":1.7"]) test_engine).calls =
      [Call.g_mutex_lock, Call.g_mutex_unlock, Call.g_object_unref test_engine] ∧
    (on_handle_create_engine (test_env 1) test_inputmethod ":1.7").calls.filter
        (fun call => call = Call.g_mutex_lock ∨ call = Call.g_mutex_unlock) =
      [Call.g_mutex_lock, Call.g_mutex_unlock] := by
  decide

/-- C25, the code at the failing input: the test service is activated (use
count 1), the export of the root object in the name-acquired callback fails
(the hold is released, use count 0, while the name stays owned), and the name
is then lost: the name-lost callback releases once more and the use count is
-1.  One hold was taken and two were released. -/
theorem failed_export_then_name_lost_over_releases :
    (run test_inputmethod [Event.activate (some 1) 1]).use_count = 1 ∧
    (run test_inputmethod
      [Event.activate (some 1) 1,
       Event.name_acquired 1 (Except.error { message := "export failed" })]).use_count = 0 ∧
    (run test_inputmethod
      [Event.activate (some 1) 1,
       Event.name_acquired 1 (Except.error { message := "export failed" }),
       Event.name_lost]).use_count = -1 := by
  decide

/-- C26, as amended. In a `CreateEngine` call the engine serial changes exactly
when the call reaches the export step, that is exactly when the factory
produced an engine and a connection was cached or resolved, whether the export
then succeeds or fails; it then moves on by one in `gulong` arithmetic (to the
next number, and from the largest `gulong` to 0); a call that fails earlier
leaves it unchanged, and so does every other event.  Hence a call whose export
fails consumes a serial; and a sequence of events on a fresh service that ends
with a successful creation, in which at most 2^64 calls reached the export
step, and whose N returned paths carry the serials 0 to N-1 in order, is a
sequence without a failed export: exactly N calls reached the export step. -/
theorem serial_moves_at_export (env : CreateEngineEnv) (inputmethod : GInputMethod)
    (sender : String) :
    ((on_handle_create_engine env inputmethod sender).inputmethod.engine_serial ≠
        inputmethod.engine_serial ↔
      ∃ engine connection path, Call.g_input_method_engine_export engine connection path ∈
        (on_handle_create_engine env inputmethod sender).calls) ∧
    ((∃ engine connection path, Call.g_input_method_engine_export engine connection path ∈
        (on_handle_create_engine env inputmethod sender).calls) ↔
      ∃ engine connection calls, emit_create_engine env sender = some engine ∧
        resolve_connection env inputmethod engine = (Except.ok connection, calls)) ∧
    ((∃ engine connection path, Call.g_input_method_engine_export engine connection path ∈
        (on_handle_create_engine env inputmethod sender).calls) →
      (on_handle_create_engine env inputmethod sender).inputmethod.engine_serial =
        (inputmethod.engine_serial + 1) % (G_MAXULONG + 1) ∧
      (inputmethod.engine_serial < G_MAXULONG →
        (on_handle_create_engine env inputmethod sender).inputmethod.engine_serial =
          inputmethod.engine_serial + 1) ∧
      (inputmethod.engine_serial = G_MAXULONG →
        (on_handle_create_engine env inputmethod sender).inputmethod.engine_serial = 0)) ∧
    (∀ event, (∀ other caller, event ≠ Event.create_engine other caller) →
      (step inputmethod event).inputmethod.engine_serial = inputmethod.engine_serial) ∧
    (∀ (root : String) (address : Option String) (before : List Event) (path : String),
      inputmethod = run (g_input_method_new root address) before →
      (on_handle_create_engine env inputmethod sender).reply =
        some (Reply.object_path path) →
      export_attempts (g_input_method_new root address)
        (before ++ [Event.create_engine env sender]) ≤ G_MAXULONG + 1 →
      returned_paths (g_input_method_new root address)
          (before ++ [Event.create_engine env sender]) =
        (List.range (returned_paths (g_input_method_new root address)
          (before ++ [Event.create_engine env sender])).length).map
            (engine_object_path root) →
      export_attempts (g_input_method_new root address)
          (before ++ [Event.create_engine env sender]) =
        (returned_paths (g_input_method_new root address)
          (before ++ [Event.create_engine env sender])).length) := by
  have hcount : ∀ calls : List Call, 0 < export_calls calls ↔
      ∃ engine connection path,
        Call.g_input_method_engine_export engine connection path ∈ calls := by
    intro calls
    simp only [export_calls, List.countP_pos_iff]
    constructor
    · rintro ⟨call, hmem, hcall⟩
      cases call <;> simp at hcall
      exact ⟨_, _, _, hmem⟩
    · rintro ⟨engine, connection, path, hmem⟩
      exact ⟨_, hmem, rfl⟩
  have hwrap : ∀ n : Nat, (n + 1) % (G_MAXULONG + 1) ≠ n := by
    intro n h
    have hlt : (n + 1) % (G_MAXULONG + 1) < G_MAXULONG + 1 :=
      Nat.mod_lt _ (by norm_num [G_MAXULONG])
    by_cases hn : n + 1 < G_MAXULONG + 1
    · rw [Nat.mod_eq_of_lt hn] at h
      omega
    · by_cases hmax : n + 1 = G_MAXULONG + 1
      · rw [hmax, Nat.mod_self] at h
        rw [← h] at hmax
        norm_num [G_MAXULONG] at hmax
      · omega
  have hserial := create_engine_serial env inputmethod sender
  refine ⟨?_, ?_, ?_, ?_, ?_⟩
  · rw [← hcount]
    rcases hserial with ⟨h1, h2, -⟩ | ⟨h1, h2, -⟩
    · simp [h1, h2]
    · simp [h1, h2, hwrap]
  · constructor
    · rintro ⟨engine, connection, path, hmem⟩
      obtain ⟨hemit, -, calls, hres, -⟩ :=
        create_engine_export_call env inputmethod sender engine connection path hmem
      exact ⟨engine, connection, calls, hemit, hres⟩
    · rintro ⟨engine, connection, calls, hemit, hres⟩
      refine ⟨engine, connection,
        engine_object_path inputmethod.dbus_object_path inputmethod.engine_serial, ?_⟩
      cases hexp : env.engine_export engine connection
          (engine_object_path inputmethod.dbus_object_path inputmethod.engine_serial) with
      | error error =>
        simp [create_engine_unexported env inputmethod sender engine connection calls error
          hemit hres hexp]
      | ok done =>
        cases hlook : g_hash_table_lookup inputmethod.clients sender with
        | none =>
          simp [create_engine_new_client env inputmethod sender engine connection calls done
            hemit hres hexp hlook]
        | some client =>
          simp [create_engine_known_client env inputmethod sender engine connection calls done
            client hemit hres hexp hlook]
  · intro hreach
    have hpos := (hcount _).2 hreach
    rcases hserial with ⟨h1, -, -⟩ | ⟨-, h2, -⟩
    · omega
    · refine ⟨h2, ?_, ?_⟩
      · intro hlt
        rw [h2]
        exact Nat.mod_eq_of_lt (by omega)
      · intro hmax
        rw [h2, hmax]
        exact Nat.mod_self _
  · intro event hother
    cases event with
    | create_engine other caller => exact absurd rfl (hother other caller)
    | activate bus owner_id =>
      rcases (step_serial inputmethod (Event.activate bus owner_id)).2 with h | h
      · exact h.2.1
      · exfalso
        have := h.1
        cases bus with
        | none =>
          simp [step, g_input_method_real_activate, export_calls] at this
        | some connection =>
          by_cases hactive : inputmethod.activating = true
          · simp [step, g_input_method_real_activate, g_application_hold, export_calls,
              hactive] at this
          · by_cases howner : 0 < inputmethod.owner_id <;>
              simp [step, g_input_method_real_activate, g_application_hold, export_calls,
                hactive, howner] at this
    | name_acquired bus exported =>
      cases exported <;> simp [step, on_name_acquired, g_application_release]
    | name_lost => simp [step, on_name_lost, g_application_release]
    | get_address => simp [step, on_handle_get_address]
    | engine_destroy engine =>
      cases hlook : g_hash_table_lookup inputmethod.clients engine.client_id with
      | none => simp [step, engine_destroy_unknown inputmethod engine hlook]
      | some client => simp [step, engine_destroy_known inputmethod engine client hlook]
    | client_name_vanished name =>
      cases hlook : g_hash_table_lookup inputmethod.clients name with
      | none => simp [step, client_name_vanished_unknown inputmethod name hlook]
      | some client => simp [step, client_name_vanished_known inputmethod name client hlook]
  · intro root address before path hstate hreply hbound hserials
    subst hstate
    exact consecutive_serials_no_failure root address before env sender path hreply hbound
      hserials

/-- C26, witness: on the test service the export of the engine of ":1.7" fails;
the call has reached the export step and the serial has moved from 0 to 1. -/
theorem serial_moves_at_export_witness :
    (on_handle_create_engine failing_export_env test_inputmethod ":1.7").inputmethod.engine_serial
      = test_inputmethod.engine_serial + 1 :=
  ((serial_moves_at_export failing_export_env test_inputmethod ":1.7").2.2.1
    ⟨test_engine, 1, "/org/gtk/UnimportantInputMethod/Engine_0", by decide⟩).2.1 (by decide)

/-- C26, counterexample: on the test service ":1.7" creates an engine, then
asks 2^64 times for an engine whose export fails, then creates a second engine.
The two successful creations return the paths of the serials 0 and 1, although
2^64 export failures lie between them: 2^64 + 2 calls reached the export step,
not 2. -/
theorem wrapped_failures_leave_no_gap :
    returned_paths test_inputmethod wrap_failures =
      (List.range 2).map (engine_object_path "/org/gtk/UnimportantInputMethod") ∧
    (returned_paths test_inputmethod wrap_failures).length = 2 ∧
    export_attempts test_inputmethod wrap_failures = 2 ^ 64 + 2 ∧
    export_attempts test_inputmethod wrap_failures ≠
      (returned_paths test_inputmethod wrap_failures).length := by
  obtain ⟨hpaths, hattempts⟩ := wrap_failures_outcome
  have hvalue : G_MAXULONG + 1 + 2 = 2 ^ 64 + 2 := by norm_num [G_MAXULONG]
  rw [hpaths, hattempts, hvalue]
  refine ⟨by decide, rfl, rfl, by norm_num⟩

end InputMethodService
